import Mathlib

/-!
# Entry edit session of KeePassXC (`src/gui/entry/EditEntryWidget.cpp`)

A shallow embedding of the edit session implemented by `EditEntryWidget`:
the widget's member variables and the form fields it reads and writes are the
fields of one record, every slot of the widget is a function on that record.

Conventions of the embedding

* `QString` is `String`, `QByteArray` is a list of byte values, a `Uuid` that may
  be null is `Option Nat`.
* `QDateTime` is the instant it denotes: `toUTC` and `toLocalTime` change the
  time specification only, and Qt compares two `QDateTime` by instant.
* A `QModelIndex` of one of the list views is `Option Nat`, the row it points to.
* The widget does not own the entry and the database it works on; the two
  objects are the fields `entry` and `database` of the session record, the
  pointers `m_entry` and `m_database` are flags telling whether the pointer is
  set. Every slot that dereferences `m_entry` is meant for an open session
  (`m_entry = true`).
* Form widgets are storage cells: a line edit holds the text last written to it.
  Only the enabled flags that decide a behaviour below are kept.
* A signal connection made in the constructor is a direct call of the slot at the
  place the signal is emitted; each such call is named where it is modelled.
* What a file dialog, a message box or the file system answers to a slot is an
  argument of the slot.
* A history item (`Entry*` in `historyItems()`) is an object: a number that stands
  for its address, and the snapshot it holds. Removing staged items removes the
  objects staged, not the items that hold an equal snapshot; a new item takes a
  number above those of the items the history holds.
* The session modelled is the one without the SSH agent page
  (`WITH_XC_SSHAGENT` undefined or the `SSHAgent` setting off); of the code of that
  page only `getOpenSSHKey` is modelled, as a function of its own.
* A `QRegExp` is the recogniser of its language; `exactMatch` is membership of the
  whole text. Letters are the ASCII letters: case folding of characters outside
  ASCII is left out.
* A loop whose number of rounds is not bounded by its input at sight carries a
  bound on its rounds (`fuel`) and answers `none` when the bound is hit; that a
  bound suffices is a theorem.
* `Entry`, `EntryAttributes`, `EntryAttachments`, `AutoTypeAssociations`,
  `EntryHistoryModel`, `EditWidgetIcons` and `Metadata` are other translation
  units of the repository; each is modelled from the specification and says so.
-/

namespace KeePassXC

/-! ## Collaborating classes -/

/-- A `QDateTime`, identified with the instant it denotes (milliseconds since the epoch). -/
structure QDateTime where
  msecs : Int
deriving DecidableEq, Repr

/-- Conversion `QDateTime::toUTC`: the same instant. -/
def QDateTime.toUTC (d : QDateTime) : QDateTime := d

/-- Conversion `QDateTime::toLocalTime`: the same instant. -/
def QDateTime.toLocalTime (d : QDateTime) : QDateTime := d

/-- Test `QString::isEmpty()`. -/
def QString.isEmpty (t : String) : Bool := decide (t = "")

/-- Content of a `QByteArray`. -/
abbrev QByteArray := List Nat

/-- One custom attribute: name, value and protection flag. -/
structure Attribute where
  key : String
  value : String
  isProtected : Bool
deriving DecidableEq, Repr

/-- Modelled from the spec: class `EntryAttributes` (AttributeSet, section 3 and 4.1), an
ordered mapping from attribute name to value and protection flag, iterated in
insertion order. -/
structure EntryAttributes where
  items : List Attribute
deriving DecidableEq, Repr

namespace EntryAttributes

/-- List of the attribute names, `keys()`. -/
def keys (a : EntryAttributes) : List String := a.items.map Attribute.key

/-- Lookup `value(key)`: the value stored under `key`, empty when absent. -/
def value (a : EntryAttributes) (key : String) : String :=
  match a.items.find? (fun x => x.key == key) with
  | some x => x.value
  | none => ""

/-- Lookup `isProtected(key)`. -/
def isProtected (a : EntryAttributes) (key : String) : Bool :=
  match a.items.find? (fun x => x.key == key) with
  | some x => x.isProtected
  | none => false

/-- Replace the first item named `key` in place. -/
def replaceFirst (key value : String) (protect : Bool) : List Attribute → List Attribute
  | [] => []
  | x :: xs =>
    if x.key == key then ⟨key, value, protect⟩ :: xs
    else x :: replaceFirst key value protect xs

/-- Upsert `set(key, value, protect)`: overwrite the attribute named `key`, or append it. -/
def set (a : EntryAttributes) (key value : String) (protect : Bool) : EntryAttributes :=
  if a.keys.contains key then ⟨replaceFirst key value protect a.items⟩
  else ⟨a.items ++ [⟨key, value, protect⟩]⟩

/-- Removal `remove(key)`, silent when the key is absent. -/
def remove (a : EntryAttributes) (key : String) : EntryAttributes :=
  ⟨a.items.filter (fun x => !(x.key == key))⟩

/-- Full replace `copyCustomKeysFrom(other)`. -/
def copyCustomKeysFrom (_a other : EntryAttributes) : EntryAttributes := other

/-- Emptying `clear()`. -/
def clear (_a : EntryAttributes) : EntryAttributes := ⟨[]⟩

end EntryAttributes

/-- Modelled from the spec: class `EntryAttachments` (AttachmentSet, section 3 and 4.2), a
mapping from file name to binary payload. -/
structure EntryAttachments where
  items : List (String × QByteArray)
deriving DecidableEq, Repr

namespace EntryAttachments

/-- List of the file names, `keys()`. -/
def keys (a : EntryAttachments) : List String := a.items.map Prod.fst

/-- Test `hasKey(key)`. -/
def hasKey (a : EntryAttachments) (key : String) : Bool := a.keys.contains key

/-- Lookup `value(key)`: the payload, empty when absent. -/
def value (a : EntryAttachments) (key : String) : QByteArray :=
  match a.items.find? (fun x => x.1 == key) with
  | some x => x.2
  | none => []

/-- Replace the payload of the first item named `key` in place. -/
def replaceFirst (key : String) (value : QByteArray) :
    List (String × QByteArray) → List (String × QByteArray)
  | [] => []
  | x :: xs =>
    if x.1 == key then (key, value) :: xs
    else x :: replaceFirst key value xs

/-- Upsert `set(key, value)`, overwriting on a name collision. -/
def set (a : EntryAttachments) (key : String) (value : QByteArray) : EntryAttachments :=
  if a.hasKey key then ⟨replaceFirst key value a.items⟩
  else ⟨a.items ++ [(key, value)]⟩

/-- Removal `remove(key)`. -/
def remove (a : EntryAttachments) (key : String) : EntryAttachments :=
  ⟨a.items.filter (fun x => !(x.1 == key))⟩

/-- Removal of a list of names, `remove(keys)`. -/
def removeKeys (a : EntryAttachments) (ks : List String) : EntryAttachments :=
  ⟨a.items.filter (fun x => !(ks.contains x.1))⟩

/-- Full replace `copyDataFrom(other)`. -/
def copyDataFrom (_a other : EntryAttachments) : EntryAttachments := other

/-- Emptying `clear()`. -/
def clear (_a : EntryAttachments) : EntryAttachments := ⟨[]⟩

end EntryAttachments

/-- One auto-type association, `AutoTypeAssociations::Association`; a default constructed
association has both texts empty. -/
structure Association where
  window : String
  sequence : String
deriving DecidableEq, Repr

/-- Modelled from the spec: class `AutoTypeAssociations` (AutoTypeRuleSet, section 3 and 4.3),
an ordered list of associations addressed by index. -/
structure AutoTypeAssociations where
  associations : List Association
deriving DecidableEq, Repr

namespace AutoTypeAssociations

/-- Append `add(association)`. -/
def add (a : AutoTypeAssociations) (assoc : Association) : AutoTypeAssociations :=
  ⟨a.associations ++ [assoc]⟩

/-- In-place replacement `update(index, association)`. -/
def update (a : AutoTypeAssociations) (index : Nat) (assoc : Association) : AutoTypeAssociations :=
  ⟨a.associations.set index assoc⟩

/-- Removal `remove(index)`. -/
def remove (a : AutoTypeAssociations) (index : Nat) : AutoTypeAssociations :=
  ⟨a.associations.eraseIdx index⟩

/-- Pruning `removeEmpty()`: deletes every association whose window pattern is empty. -/
def removeEmpty (a : AutoTypeAssociations) : AutoTypeAssociations :=
  ⟨a.associations.filter (fun x => !QString.isEmpty x.window)⟩

/-- Access `get(index)`. -/
def get (a : AutoTypeAssociations) (index : Nat) : Association :=
  a.associations.getD index ⟨"", ""⟩

/-- Number of associations, `size()`. -/
def size (a : AutoTypeAssociations) : Nat := a.associations.length

/-- Full replace `copyDataFrom(other)`. -/
def copyDataFrom (_a other : AutoTypeAssociations) : AutoTypeAssociations := other

/-- Emptying `clear()`. -/
def clear (_a : AutoTypeAssociations) : AutoTypeAssociations := ⟨[]⟩

end AutoTypeAssociations

/-- Icon reference of an entry: one of the numbered default icons, or a custom icon
named by its uuid. -/
inductive IconRef where
  | number (n : Nat)
  | custom (uuid : Nat)
deriving DecidableEq, Repr

/-- The `IconStruct` exchanged with the icon page: a possibly null uuid and a number. -/
structure IconStruct where
  uuid : Option Nat
  number : Int
deriving DecidableEq, Repr

/-- Modelled from the spec: the state of a Record (section 3) that a history snapshot
freezes: the unique id, the scalar fields and the three sub-collections. -/
structure EntryData where
  uuid : Nat
  title : String
  username : String
  url : String
  password : String
  notes : String
  expires : Bool
  expiryTime : QDateTime
  icon : IconRef
  autoTypeEnabled : Bool
  defaultAutoTypeSequence : String
  attributes : EntryAttributes
  attachments : EntryAttachments
  autoTypeAssociations : AutoTypeAssociations
deriving DecidableEq, Repr

/-- Modelled from the spec: one item of the history of a Record (an `Entry*` in
`historyItems()`, section 3): the identity of the object, a number standing for its
address, and the snapshot it holds. Two items that hold equal snapshots are two items. -/
structure HistoryItem where
  address : Nat
  data : EntryData
deriving DecidableEq, Repr

/-- Modelled from the spec: what `beginUpdate` keeps until `endUpdate` (section 4.5, steps 5
and 7): the pre-commit snapshot, as the history item it becomes when it is pushed, and the
history the Record had when the transaction began. -/
structure UpdateTransaction where
  snapshot : HistoryItem
  history : List HistoryItem
deriving DecidableEq, Repr

/-- Modelled from the spec: class `Entry` (Record, section 3): the current state, the
ordered history, the update transaction in progress if there is one, and the auto-type
sequence inherited from the parent group. -/
structure Entry where
  data : EntryData
  historyItems : List HistoryItem
  tmpHistoryItem : Option UpdateTransaction
  inheritedAutoTypeSequence : String
deriving DecidableEq, Repr

namespace Entry

/-- Modelled from the spec: `Entry::DefaultIconNumber`, the default icon. -/
def DefaultIconNumber : Int := 0

/-- A default constructed entry, `new Entry()`. -/
def new : Entry :=
  { data :=
      { uuid := 0, title := "", username := "", url := "", password := "", notes := "",
        expires := false, expiryTime := ⟨0⟩, icon := IconRef.number 0,
        autoTypeEnabled := true, defaultAutoTypeSequence := "",
        attributes := ⟨[]⟩, attachments := ⟨[]⟩, autoTypeAssociations := ⟨[]⟩ }
    historyItems := []
    tmpHistoryItem := none
    inheritedAutoTypeSequence := "" }

/-- Getter `iconUuid()`: null unless the icon is a custom one. -/
def iconUuid (e : Entry) : Option Nat :=
  match e.data.icon with
  | IconRef.number _ => none
  | IconRef.custom u => some u

/-- Getter `iconNumber()`. -/
def iconNumber (e : Entry) : Int :=
  match e.data.icon with
  | IconRef.number n => n
  | IconRef.custom _ => 0

/-- Getter `effectiveAutoTypeSequence()`: the entry's own default sequence, and the
inherited one when the entry has none. -/
def effectiveAutoTypeSequence (e : Entry) : String :=
  if QString.isEmpty e.data.defaultAutoTypeSequence then e.inheritedAutoTypeSequence
  else e.data.defaultAutoTypeSequence

def setTitle (e : Entry) (v : String) : Entry := { e with data := { e.data with title := v } }
def setUsername (e : Entry) (v : String) : Entry := { e with data := { e.data with username := v } }
def setUrl (e : Entry) (v : String) : Entry := { e with data := { e.data with url := v } }
def setPassword (e : Entry) (v : String) : Entry := { e with data := { e.data with password := v } }
def setNotes (e : Entry) (v : String) : Entry := { e with data := { e.data with notes := v } }
def setExpires (e : Entry) (v : Bool) : Entry := { e with data := { e.data with expires := v } }
def setExpiryTime (e : Entry) (v : QDateTime) : Entry :=
  { e with data := { e.data with expiryTime := v } }
def setAutoTypeEnabled (e : Entry) (v : Bool) : Entry :=
  { e with data := { e.data with autoTypeEnabled := v } }
def setDefaultAutoTypeSequence (e : Entry) (v : String) : Entry :=
  { e with data := { e.data with defaultAutoTypeSequence := v } }

/-- Setter `setIcon(int)`: a numbered default icon. -/
def setIconNumber (e : Entry) (n : Int) : Entry :=
  { e with data := { e.data with icon := IconRef.number n.toNat } }

/-- Setter `setIcon(const Uuid&)`: a custom icon. -/
def setIconUuid (e : Entry) (u : Nat) : Entry :=
  { e with data := { e.data with icon := IconRef.custom u } }

def setAttributes (e : Entry) (v : EntryAttributes) : Entry :=
  { e with data := { e.data with attributes := v } }
def setAttachments (e : Entry) (v : EntryAttachments) : Entry :=
  { e with data := { e.data with attachments := v } }
def setAutoTypeAssociations (e : Entry) (v : AutoTypeAssociations) : Entry :=
  { e with data := { e.data with autoTypeAssociations := v } }

/-- Copy `copyDataFrom(other)`: takes over the state of `other`. -/
def copyDataFrom (e other : Entry) : Entry := { e with data := other.data }

/-- Address of a new history item, `new Entry()`: a number above the addresses of the items
the history holds. -/
def freshAddress (items : List HistoryItem) : Nat :=
  items.foldr (fun h n => max (h.address + 1) n) 0

/-- Removal `removeHistoryItems(list)`: the listed objects leave the history; an item that
merely holds the same snapshot as a listed one stays. -/
def removeHistoryItems (e : Entry) (deleted : List HistoryItem) : Entry :=
  { e with
    historyItems :=
      e.historyItems.filter
        (fun h => !((deleted.map HistoryItem.address).contains h.address)) }

/-- Transaction start `beginUpdate()`: snapshots the pre-commit state into a new object
(section 4.5, step 5). -/
def beginUpdate (e : Entry) : Entry :=
  { e with
    tmpHistoryItem := some ⟨⟨freshAddress e.historyItems, e.data⟩, e.historyItems⟩ }

/-- Transaction end `endUpdate()` (section 4.5, step 7): compares the pre-commit state with
the new state, field by field and sub-collection by sub-collection, the history among
them; only if they differ the snapshot is pushed onto the history and `true` is
returned. A removal of history items inside the transaction so counts as a change, which
is why `saveEntry` removes them before `beginUpdate`. -/
def endUpdate (e : Entry) : Bool × Entry :=
  match e.tmpHistoryItem with
  | none => (false, e)
  | some transaction =>
    if transaction.snapshot.data = e.data ∧ transaction.history = e.historyItems then
      (false, { e with tmpHistoryItem := none })
    else
      (true,
        { e with
          historyItems := e.historyItems ++ [transaction.snapshot]
          tmpHistoryItem := none })

/-- Modelled from the spec: the `Entry` object a history item is (section 3, a frozen copy of
the state of the Record): the snapshot, with no history of its own and no parent group
to inherit an auto-type sequence from. -/
def ofSnapshot (d : EntryData) : Entry :=
  { data := d, historyItems := [], tmpHistoryItem := none, inheritedAutoTypeSequence := "" }

end Entry

/-- Modelled from the spec: the owning collection of custom icons
(`Database::metadata()`, `Metadata::containsCustomIcon`). -/
structure Database where
  customIcons : List Nat
deriving DecidableEq, Repr

/-- Test `metadata()->containsCustomIcon(uuid)`. -/
def Database.containsCustomIcon (db : Database) (uuid : Nat) : Bool := db.customIcons.contains uuid

/-- Modelled from the spec: class `EntryHistoryModel` (HistorySet, section 4.4): the rows shown
and the rows staged for deletion. -/
structure EntryHistoryModel where
  historyEntries : List HistoryItem
  deletedHistoryEntries : List HistoryItem
deriving DecidableEq, Repr

namespace EntryHistoryModel

/-- Replacement of the backing list, `setEntries(list)`. -/
def setEntries (m : EntryHistoryModel) (entries : List HistoryItem) : EntryHistoryModel :=
  { m with historyEntries := entries }

/-- Row count, `rowCount()`. -/
def rowCount (m : EntryHistoryModel) : Nat := m.historyEntries.length

/-- Validity of a source index: it points to a row of the model. -/
def isValid (m : EntryHistoryModel) (index : Option Nat) : Bool :=
  match index with
  | some i => decide (i < m.historyEntries.length)
  | none => false

/-- Access `entryFromIndex(index)`. -/
def entryFromIndex (m : EntryHistoryModel) (index : Option Nat) : Option HistoryItem :=
  match index with
  | some i => m.historyEntries[i]?
  | none => none

/-- Deferred removal `deleteIndex(index)` (section 4.4): the row the index points to leaves
the model, and its item is staged. -/
def deleteIndex (m : EntryHistoryModel) (index : Option Nat) : EntryHistoryModel :=
  match index with
  | some i =>
    match m.historyEntries[i]? with
    | some entry =>
      { historyEntries := m.historyEntries.eraseIdx i
        deletedHistoryEntries := m.deletedHistoryEntries ++ [entry] }
    | none => m
  | none => m

/-- Deferred removal of every row, `deleteAll()`. -/
def deleteAll (m : EntryHistoryModel) : EntryHistoryModel :=
  { historyEntries := []
    deletedHistoryEntries := m.deletedHistoryEntries ++ m.historyEntries }

/-- Getter `deletedEntries()`, the rows staged for deletion. -/
def deletedEntries (m : EntryHistoryModel) : List HistoryItem := m.deletedHistoryEntries

/-- Reset of the staged rows, `clearDeletedEntries()`. -/
def clearDeletedEntries (m : EntryHistoryModel) : EntryHistoryModel :=
  { m with deletedHistoryEntries := [] }

/-- Emptying `clear()`. -/
def clear (_m : EntryHistoryModel) : EntryHistoryModel :=
  { historyEntries := [], deletedHistoryEntries := [] }

end EntryHistoryModel

/-- Modelled from the spec: class `EntryAttributesModel`, the list model over the working-copy
attributes: row `i` shows the `i`-th key. -/
def EntryAttributesModel.rowCount (a : EntryAttributes) : Nat := a.keys.length

/-- Validity of an index of the attributes view: it points to a row of the model. -/
def EntryAttributesModel.isValid (a : EntryAttributes) (index : Option Nat) : Bool :=
  match index with
  | some i => decide (i < a.keys.length)
  | none => false

/-- Access `keyByIndex(index)`, empty for an invalid index. -/
def EntryAttributesModel.keyByIndex (a : EntryAttributes) (index : Option Nat) : String :=
  match index with
  | some i => a.keys.getD i ""
  | none => ""

/-- Modelled from the spec: lookup `indexByKey(key)` of the attributes model, the row that
shows `key`, invalid when no row does. -/
def EntryAttributesModel.indexByKey (a : EntryAttributes) (key : String) : Option Nat :=
  let row := a.keys.indexOf key
  if row < a.keys.length then some row else none

/-- Signals the widget emits to its caller. -/
inductive Signal where
  | editFinished (committed : Bool)
  | historyEntryActivated (snapshot : EntryData)
deriving DecidableEq, Repr

/-! ## Files and dialogs -/

/-- Segment of a path after its last slash; `acc` holds the current segment reversed. -/
def lastSegment : List Char → List Char → List Char
  | [], acc => acc.reverse
  | c :: cs, acc => if c.toNat == 47 then lastSegment cs [] else lastSegment cs (c :: acc)

/-- Getter `QFileInfo(path).fileName()`: the name of the file without its directory. -/
def QFileInfo.fileName (path : String) : String := String.mk (lastSegment path.toList [])

/-- One path returned by the file dialog of `insertAttachments`, with what opening and reading
the file gives: the content, or none and the error string of the file. -/
structure ChosenFile where
  path : String
  content : Option QByteArray
  errorString : String
deriving DecidableEq, Repr

/-- The answers `MessageBox::question` can give to the overwrite question. -/
inductive StandardButton where
  | Yes
  | No
  | Cancel
deriving DecidableEq, Repr

/-- One selected row of the attachments view in `saveSelectedAttachments`, with what the file
system and the user answer for it: whether the target file exists, the answer to the
overwrite question (asked only if it exists), whether opening and writing the file
succeeds, and the error string of the file. -/
structure SelectedAttachment where
  filename : String
  fileExists : Bool
  answer : StandardButton
  saveOk : Bool
  errorString : String
deriving DecidableEq, Repr

/-- What the dialogs and the file system answer outside the loop of
`saveSelectedAttachments`: the directory chosen (empty when the dialog is dismissed),
whether it exists, what `mkpath` returns; and for a single selected attachment, whether
the current index is valid, the path chosen, and the outcome of the write. -/
structure SaveDialog where
  savePath : String
  dirExists : Bool
  mkpathResult : Bool
  currentIndexValid : Bool
  singleSavePath : String
  singleSaveOk : Bool
  singleErrorString : String
deriving DecidableEq, Repr

/-- What a run of the loop of `saveSelectedAttachments` did: the file names a write was
attempted for, the error lines collected, and whether the loop was left on the Cancel
answer. -/
structure SaveRun where
  attempted : List String
  errors : List String
  cancelled : Bool
deriving DecidableEq, Repr

/-- Fields of the SSH agent page that `getOpenSSHKey` reads: the check state of
`attachmentRadioButton`, the current text of `attachmentComboBox`, and the text of
`externalFileEdit`. -/
structure SSHAgentPage where
  attachmentRadioButton : Bool
  attachmentComboBox : String
  externalFileEdit : String
deriving DecidableEq, Repr

/-- What the file system answers for the external key file `localFile`: its size in bytes,
whether `open(QIODevice::ReadOnly)` succeeds, and what `readAll()` returns. -/
structure KeyFile where
  size : Nat
  openOk : Bool
  content : QByteArray
deriving DecidableEq, Repr

/-- Answer of `OpenSSHKey::parse` for some key data: whether the key was parsed, and the
error string of the key afterwards. -/
structure KeyParse where
  ok : Bool
  errorString : String
deriving DecidableEq, Repr

/-- What a call of `getOpenSSHKey` did: the value returned, whether `localFile.open` was
called, and whether `localFile.readAll` was called. -/
structure KeyRun where
  result : Bool
  opened : Bool
  read : Bool
deriving DecidableEq, Repr

/-! ## The widget -/

/-- State of an `EditEntryWidget` together with the two caller-owned objects its
pointers refer to. -/
structure EditEntryWidget where
  /-- the object `*m_entry`; it outlives the session -/
  entry : Entry
  /-- the object `*m_database` -/
  database : Database
  /-- the pointer `m_entry` is set -/
  m_entry : Bool
  /-- the pointer `m_database` is set -/
  m_database : Bool
  m_create : Bool
  m_history : Bool
  m_saved : Bool
  titleEdit : String
  usernameEdit : String
  urlEdit : String
  passwordEdit : String
  passwordRepeatEdit : String
  expireCheck : Bool
  expireDatePicker : QDateTime
  notesEdit : String
  m_entryAttributes : EntryAttributes
  m_entryAttachments : EntryAttachments
  /-- current index of `attributesView` -/
  attributesView : Option Nat
  m_currentAttribute : Option Nat
  attributesEdit : String
  attributesEditEnabled : Bool
  revealAttributeButtonEnabled : Bool
  protectAttributeButtonChecked : Bool
  /-- state of the icon page, `m_iconsWidget->state()` -/
  m_iconsWidget : IconStruct
  /-- check state of `m_autoTypeUi->enableButton` -/
  enableButton : Bool
  /-- check state of `inheritSequenceButton`; `customSequenceButton` is the other button
  of the exclusive group -/
  inheritSequenceButton : Bool
  sequenceEdit : String
  m_autoTypeAssoc : AutoTypeAssociations
  /-- current index of `assocView` -/
  assocView : Option Nat
  windowTitleCombo : String
  /-- check state of `customWindowSequenceButton`; `defaultWindowSequenceButton` is the other
  button of the exclusive group -/
  customWindowSequenceButton : Bool
  windowSequenceEdit : String
  assocAddButtonEnabled : Bool
  assocRemoveButtonEnabled : Bool
  m_historyModel : EntryHistoryModel
  /-- current index of `historyView`, mapped to the source model -/
  historyView : Option Nat
  historyWidgetEnabled : Bool
  readOnly : Bool
  /-- the message shown by `showMessage`, none after `hideMessage` -/
  message : Option String
  /-- the signals emitted so far, oldest first -/
  emitted : List Signal
deriving DecidableEq, Repr

namespace EditEntryWidget

/-- State left by the constructor of the widget; no entry is loaded. -/
def new : EditEntryWidget :=
  { entry := Entry.new, database := ⟨[]⟩, m_entry := false, m_database := false,
    m_create := false, m_history := false, m_saved := false,
    titleEdit := "", usernameEdit := "", urlEdit := "", passwordEdit := "",
    passwordRepeatEdit := "", expireCheck := false, expireDatePicker := ⟨0⟩, notesEdit := "",
    m_entryAttributes := ⟨[]⟩, m_entryAttachments := ⟨[]⟩, attributesView := none,
    m_currentAttribute := none, attributesEdit := "", attributesEditEnabled := false,
    revealAttributeButtonEnabled := false, protectAttributeButtonChecked := false,
    m_iconsWidget := ⟨none, 0⟩, enableButton := false, inheritSequenceButton := true,
    sequenceEdit := "", m_autoTypeAssoc := ⟨[]⟩, assocView := none, windowTitleCombo := "",
    customWindowSequenceButton := false, windowSequenceEdit := "",
    assocAddButtonEnabled := true, assocRemoveButtonEnabled := false,
    m_historyModel := ⟨[], []⟩, historyView := none, historyWidgetEnabled := true,
    readOnly := false, message := none, emitted := [] }

/-- Slot `showMessage(text, MessageWidget::Error)` of the base class. -/
def showMessage (s : EditEntryWidget) (text : String) : EditEntryWidget :=
  { s with message := some text }

/-- Slot `hideMessage()` of the base class. -/
def hideMessage (s : EditEntryWidget) : EditEntryWidget := { s with message := none }

/-- Emission of `editFinished(committed)`. -/
def emitEditFinished (s : EditEntryWidget) (committed : Bool) : EditEntryWidget :=
  { s with emitted := s.emitted ++ [Signal.editFinished committed] }

/-- Method `passwordsEqual()`. -/
def passwordsEqual (s : EditEntryWidget) : Bool := s.passwordEdit == s.passwordRepeatEdit

/-- Method `clear()`. Clearing a working-copy collection resets the list model over it, which
invalidates the current index of its view and the persistent index `m_currentAttribute`.
`m_iconsWidget->reset()` is modelled from the spec: the icon page forgets its state. -/
def clear (s : EditEntryWidget) : EditEntryWidget :=
  hideMessage
    { s with
      m_entry := false
      m_database := false
      m_entryAttributes := s.m_entryAttributes.clear
      attributesView := none
      m_currentAttribute := none
      m_entryAttachments := s.m_entryAttachments.clear
      m_autoTypeAssoc := s.m_autoTypeAssoc.clear
      assocView := none
      m_historyModel := s.m_historyModel.clear
      historyView := none
      m_iconsWidget := ⟨none, 0⟩ }

/-- Test `QChar::isSpace()`, the class `\s` of `QRegExp`: the ASCII white space, NEL, and the
Unicode separators. -/
def QChar.isSpace (c : Char) : Bool :=
  let n := c.toNat
  (9 ≤ n && n ≤ 13) || n == 32 || n == 133 || n == 160 || n == 5760
    || (8192 ≤ n && n ≤ 8202) || n == 8232 || n == 8233 || n == 8239 || n == 8287
    || n == 12288

/-- The class `[A-Z]` matched case-insensitively. -/
def isLetterAZ (c : Char) : Bool :=
  (65 ≤ c.toNat && c.toNat ≤ 90) || (97 ≤ c.toNat && c.toNat ≤ 122)

/-- The class `[0-9]`. -/
def isDigit09 (c : Char) : Bool := 48 ≤ c.toNat && c.toNat ≤ 57

/-- Where a match of `autoTypeSyntax` stands: between two tokens, in the letters of a token,
or in its digits. -/
inductive SyntaxState where
  | outside
  | letters
  | digits
deriving DecidableEq, Repr

/-- One character of a match of `autoTypeSyntax`; the character classes that can follow each
other are disjoint, so the match is deterministic. The opening brace is code 123, the
closing brace code 125. -/
def autoTypeSyntaxStep (st : SyntaxState) (c : Char) : Option SyntaxState :=
  match st with
  | SyntaxState.outside => if c.toNat == 123 then some SyntaxState.letters else none
  | SyntaxState.letters =>
    if isLetterAZ c then some SyntaxState.letters
    else if QChar.isSpace c then some SyntaxState.digits
    else if c.toNat == 125 then some SyntaxState.outside
    else none
  | SyntaxState.digits =>
    if isDigit09 c then some SyntaxState.digits
    else if c.toNat == 125 then some SyntaxState.outside
    else none

/-- Run of the match over the rest of the text. -/
def autoTypeSyntaxRun : SyntaxState → List Char → Bool
  | st, [] => decide (st = SyntaxState.outside)
  | st, c :: cs =>
    match autoTypeSyntaxStep st c with
    | some st' => autoTypeSyntaxRun st' cs
    | none => false

/-- Call `autoTypeSyntax.exactMatch(text)` for the case-insensitive pattern
`(\{[A-Z]*(\s[0-9]*){0,1}\})*`. -/
def autoTypeSyntax_exactMatch (text : String) : Bool :=
  autoTypeSyntaxRun SyntaxState.outside text.toList

/-- Scan for three digits in a row; `n` digits have just been read. -/
def digitRun : Nat → List Char → Bool
  | _, [] => false
  | n, c :: cs =>
    if isDigit09 c then (if 3 ≤ n + 1 then true else digitRun (n + 1) cs)
    else digitRun 0 cs

/-- Call `highRepetition.exactMatch(text)` for the pattern `.*[0-9]{3,}.*`. -/
def highRepetition_exactMatch (text : String) : Bool := digitRun 0 text.toList

/-- Body of `updateEntryData(entry)`: writes the working copy and the form fields into
`entry`. The answers of the two `exactMatch` calls of the custom-sequence branch are
given by `syntaxOk` and `repetitionOk`; the blocks they guard are empty in the source. -/
def updateEntryDataWith (syntaxOk repetitionOk : String → Bool) (s : EditEntryWidget)
    (entry : Entry) : Entry :=
  let entry := entry.setAttributes (entry.data.attributes.copyCustomKeysFrom s.m_entryAttributes)
  let entry := entry.setAttachments (entry.data.attachments.copyDataFrom s.m_entryAttachments)
  let entry := entry.setTitle s.titleEdit
  let entry := entry.setUsername s.usernameEdit
  let entry := entry.setUrl s.urlEdit
  let entry := entry.setPassword s.passwordEdit
  let entry := entry.setExpires s.expireCheck
  let entry := entry.setExpiryTime s.expireDatePicker.toUTC
  let entry := entry.setNotes s.notesEdit
  let iconStruct := s.m_iconsWidget
  let entry :=
    if iconStruct.number < 0 then entry.setIconNumber Entry.DefaultIconNumber
    else if iconStruct.uuid.isNone then entry.setIconNumber iconStruct.number
    else entry.setIconUuid (iconStruct.uuid.getD 0)
  let entry := entry.setAutoTypeEnabled s.enableButton
  let entry :=
    if s.inheritSequenceButton then entry.setDefaultAutoTypeSequence ""
    else
      let entry := if !syntaxOk s.sequenceEdit then entry else entry
      let entry := if !repetitionOk s.sequenceEdit then entry else entry
      entry.setDefaultAutoTypeSequence s.sequenceEdit
  entry.setAutoTypeAssociations (entry.data.autoTypeAssociations.copyDataFrom s.m_autoTypeAssoc)

/-- Method `updateEntryData(entry)`, with the two regular expressions of the source. -/
def updateEntryData (s : EditEntryWidget) (entry : Entry) : Entry :=
  updateEntryDataWith autoTypeSyntax_exactMatch highRepetition_exactMatch s entry

/-- Method `displayAttribute(index, showProtected)`. The enabled flags of the protect, edit
and remove buttons are presentation only and not kept. -/
def displayAttribute (s : EditEntryWidget) (index : Option Nat) (showProtected : Bool) :
    EditEntryWidget :=
  if EntryAttributesModel.isValid s.m_entryAttributes index then
    let key := EntryAttributesModel.keyByIndex s.m_entryAttributes index
    if showProtected then
      { s with
        attributesEdit := "[PROTECTED]" ++ " " ++ "Press reveal to view or edit"
        attributesEditEnabled := false
        revealAttributeButtonEnabled := true
        protectAttributeButtonChecked := true }
    else
      { s with
        attributesEdit := s.m_entryAttributes.value key
        attributesEditEnabled := true
        revealAttributeButtonEnabled := false
        protectAttributeButtonChecked := false }
  else
    { s with
      attributesEdit := ""
      attributesEditEnabled := false
      revealAttributeButtonEnabled := false
      protectAttributeButtonChecked := false }

/-- Slot `updateCurrentAttribute()`, run when the current index of `attributesView` changes. -/
def updateCurrentAttribute (s : EditEntryWidget) : EditEntryWidget :=
  let newIndex := s.attributesView
  let newKey := EntryAttributesModel.keyByIndex s.m_entryAttributes newIndex
  let s :=
    if !s.m_history && s.m_currentAttribute != newIndex then
      if EntryAttributesModel.isValid s.m_entryAttributes s.m_currentAttribute
          && s.attributesEditEnabled then
        let currKey := EntryAttributesModel.keyByIndex s.m_entryAttributes s.m_currentAttribute
        { s with
          m_entryAttributes :=
            s.m_entryAttributes.set currKey s.attributesEdit
              (s.m_entryAttributes.isProtected currKey) }
      else s
    else s
  let s := displayAttribute s newIndex (s.m_entryAttributes.isProtected newKey)
  { s with m_currentAttribute := newIndex }

/-- Call `attributesView->setCurrentIndex(index)`: the view emits `currentChanged`, connected
to `updateCurrentAttribute`, when the current index changes. -/
def setCurrentAttributeIndex (s : EditEntryWidget) (index : Option Nat) : EditEntryWidget :=
  if s.attributesView = index then s
  else updateCurrentAttribute { s with attributesView := index }

/-- Slot `updateAutoTypeEnabled()`; of the enabled flags it sets, those of the add and remove
buttons are kept. -/
def updateAutoTypeEnabled (s : EditEntryWidget) : EditEntryWidget :=
  let validIndex := s.assocView.isSome && s.m_autoTypeAssoc.size != 0
  { s with
    assocAddButtonEnabled := !s.m_history
    assocRemoveButtonEnabled := !s.m_history && validIndex }

/-- Slot `clearCurrentAssoc()`. -/
def clearCurrentAssoc (s : EditEntryWidget) : EditEntryWidget :=
  updateAutoTypeEnabled
    { s with windowTitleCombo := "", customWindowSequenceButton := false,
             windowSequenceEdit := "" }

/-- Slot `loadCurrentAssoc(current)`. The change signals of the three form fields are
connected to `applyCurrentAssoc`; while an association is being loaded they write the
association back over itself and are left out. -/
def loadCurrentAssoc (s : EditEntryWidget) (current : Option Nat) : EditEntryWidget :=
  match current with
  | some row =>
    if row < s.m_autoTypeAssoc.size then
      let assoc := s.m_autoTypeAssoc.get row
      updateAutoTypeEnabled
        { s with
          windowTitleCombo := assoc.window
          customWindowSequenceButton := !QString.isEmpty assoc.sequence
          windowSequenceEdit := assoc.sequence }
    else clearCurrentAssoc s
  | none => clearCurrentAssoc s

/-- Method `setForms(entry, restore)`: fills the form fields and the working copy from
`entry`.

* `m_iconsWidget->load` is modelled from the spec: the icon page takes over the icon
  reference it is given (section 4.5, the working copy is a deep copy of the Record).
* Copying into a working-copy collection resets the list model over it, which invalidates
  the current index of its view and the persistent index `m_currentAttribute`; the reset
  of the association model runs `clearCurrentAssoc`.
* `setCurrentIndex` on the association view emits `currentRowChanged`, connected to
  `loadCurrentAssoc`.
* Read-only flags of the form fields follow `m_history` and are summarised by `readOnly`
  in `loadEntry`. -/
def setForms (s : EditEntryWidget) (entry : Entry) (restore : Bool) : EditEntryWidget :=
  let s := { s with historyWidgetEnabled := !s.m_history }
  let s :=
    { s with
      titleEdit := entry.data.title
      usernameEdit := entry.data.username
      urlEdit := entry.data.url
      passwordEdit := entry.data.password
      passwordRepeatEdit := entry.data.password
      expireCheck := entry.data.expires
      expireDatePicker := entry.data.expiryTime.toLocalTime
      notesEdit := entry.data.notes }
  let s :=
    { s with
      m_entryAttachments := s.m_entryAttachments.copyDataFrom entry.data.attachments
      m_entryAttributes := s.m_entryAttributes.copyCustomKeysFrom entry.data.attributes
      attributesView := none
      m_currentAttribute := none }
  let s :=
    if EntryAttributesModel.rowCount s.m_entryAttributes != 0 then
      setCurrentAttributeIndex s (some 0)
    else
      { s with attributesEdit := "", attributesEditEnabled := false }
  let iconStruct : IconStruct := ⟨entry.iconUuid, entry.iconNumber⟩
  let s := { s with m_iconsWidget := iconStruct }
  let s := { s with enableButton := entry.data.autoTypeEnabled }
  let s :=
    if QString.isEmpty entry.data.defaultAutoTypeSequence then
      { s with inheritSequenceButton := true }
    else
      { s with inheritSequenceButton := false }
  let s := { s with sequenceEdit := entry.effectiveAutoTypeSequence }
  let s :=
    { s with windowTitleCombo := "", customWindowSequenceButton := false,
             windowSequenceEdit := "" }
  let s :=
    clearCurrentAssoc
      { s with
        m_autoTypeAssoc := s.m_autoTypeAssoc.copyDataFrom entry.data.autoTypeAssociations
        assocView := none }
  let s :=
    if s.m_autoTypeAssoc.size != 0 then loadCurrentAssoc { s with assocView := some 0 } (some 0)
    else s
  let s := updateAutoTypeEnabled s
  if !s.m_history && !restore then
    { s with m_historyModel := s.m_historyModel.setEntries entry.historyItems
             historyView := none }
  else s

/-- Method `loadEntry(entry, create, history, parentName, database)`. The headline built
from `parentName` is presentation only. -/
def loadEntry (s : EditEntryWidget) (entry : Entry) (create history : Bool)
    (_parentName : String) (database : Database) : EditEntryWidget :=
  let s :=
    { s with
      entry := entry
      m_entry := true
      database := database
      m_database := true
      m_create := create
      m_history := history
      m_saved := false }
  let s := setForms s entry false
  { s with readOnly := s.m_history }

/-- Slot `saveEntry()`, the commit. -/
def saveEntry (s : EditEntryWidget) : EditEntryWidget :=
  if s.m_history then
    emitEditFinished (hideMessage (clear s)) false
  else if !s.passwordsEqual then
    showMessage s "Different passwords supplied."
  else
    let s :=
      if EntryAttributesModel.isValid s.m_entryAttributes s.attributesView
          && s.attributesEditEnabled then
        let key := EntryAttributesModel.keyByIndex s.m_entryAttributes s.attributesView
        { s with
          m_entryAttributes :=
            s.m_entryAttributes.set key s.attributesEdit (s.m_entryAttributes.isProtected key) }
      else s
    let s := { s with m_currentAttribute := none }
    let s := { s with entry := s.entry.removeHistoryItems s.m_historyModel.deletedEntries }
    let s := { s with m_historyModel := s.m_historyModel.clearDeletedEntries }
    let s := { s with m_autoTypeAssoc := s.m_autoTypeAssoc.removeEmpty }
    let s := if !s.m_create then { s with entry := s.entry.beginUpdate } else s
    let s := { s with entry := updateEntryData s s.entry }
    let s := { s with m_saved := true }
    if !s.m_create then { s with entry := s.entry.endUpdate.2 } else s

/-- Slot `acceptEntry()`. -/
def acceptEntry (s : EditEntryWidget) : EditEntryWidget :=
  if !s.passwordsEqual then
    showMessage s "Different passwords supplied."
  else
    emitEditFinished (clear (saveEntry s)) true

/-- Slot `cancel()`. -/
def cancel (s : EditEntryWidget) : EditEntryWidget :=
  if s.m_history then
    emitEditFinished (hideMessage (clear s)) false
  else
    let s :=
      match s.entry.iconUuid with
      | some uuid =>
        if !s.database.containsCustomIcon uuid then
          { s with entry := s.entry.setIconNumber Entry.DefaultIconNumber }
        else s
      | none => s
    let s := clear s
    emitEditFinished s s.m_saved

/-- Method `hasBeenModified()`: the answer, and the state of the widget after the call. The
scratch entry is local to the call. -/
def hasBeenModified (s : EditEntryWidget) : Bool × EditEntryWidget :=
  if !s.m_historyModel.deletedEntries.isEmpty then (true, s)
  else
    let entry := Entry.new
    let entry := entry.copyDataFrom s.entry
    let entry := entry.beginUpdate
    let entry := updateEntryData s entry
    ((entry.endUpdate).1, s)

/-- Slot `insertAutoTypeAssoc()`. -/
def insertAutoTypeAssoc (s : EditEntryWidget) : EditEntryWidget :=
  let assoc : Association := ⟨"", ""⟩
  let s := { s with m_autoTypeAssoc := s.m_autoTypeAssoc.add assoc }
  let newIndex : Option Nat := some (s.m_autoTypeAssoc.size - 1)
  let s := { s with assocView := newIndex }
  loadCurrentAssoc s newIndex

/-- Slot `removeAutoTypeAssoc()`. -/
def removeAutoTypeAssoc (s : EditEntryWidget) : EditEntryWidget :=
  match s.assocView with
  | some row => { s with m_autoTypeAssoc := s.m_autoTypeAssoc.remove row }
  | none => s

/-- Slot `applyCurrentAssoc()`. -/
def applyCurrentAssoc (s : EditEntryWidget) : EditEntryWidget :=
  match s.assocView with
  | none => s
  | some row =>
    if s.m_autoTypeAssoc.size == 0 || s.m_history then s
    else
      let assoc : Association :=
        ⟨s.windowTitleCombo, if s.customWindowSequenceButton then s.windowSequenceEdit else ""⟩
      { s with m_autoTypeAssoc := s.m_autoTypeAssoc.update row assoc }

/-- Slot `protectCurrentAttribute(state)`. -/
def protectCurrentAttribute (s : EditEntryWidget) (state : Bool) : EditEntryWidget :=
  let index := s.attributesView
  if !s.m_history && EntryAttributesModel.isValid s.m_entryAttributes index then
    let key := EntryAttributesModel.keyByIndex s.m_entryAttributes index
    let s :=
      if state then
        { s with m_entryAttributes := s.m_entryAttributes.set key s.attributesEdit true }
      else
        { s with
          m_entryAttributes :=
            s.m_entryAttributes.set key (s.m_entryAttributes.value key) false }
    displayAttribute s index state
  else s

/-- Slot `revealCurrentAttribute()`. -/
def revealCurrentAttribute (s : EditEntryWidget) : EditEntryWidget :=
  if !s.attributesEditEnabled then
    let index := s.attributesView
    if EntryAttributesModel.isValid s.m_entryAttributes index then
      let key := EntryAttributesModel.keyByIndex s.m_entryAttributes index
      { s with attributesEdit := s.m_entryAttributes.value key, attributesEditEnabled := true }
    else s
  else s

/-- Slot `deleteHistoryEntry()`. -/
def deleteHistoryEntry (s : EditEntryWidget) : EditEntryWidget :=
  let index := s.historyView
  if s.m_historyModel.isValid index then
    { s with m_historyModel := s.m_historyModel.deleteIndex index }
  else s

/-- Slot `deleteAllHistoryEntries()`. -/
def deleteAllHistoryEntries (s : EditEntryWidget) : EditEntryWidget :=
  { s with m_historyModel := s.m_historyModel.deleteAll }

/-- Slot `restoreHistoryEntry()`. -/
def restoreHistoryEntry (s : EditEntryWidget) : EditEntryWidget :=
  let index := s.historyView
  if s.m_historyModel.isValid index then
    match s.m_historyModel.entryFromIndex index with
    | some item => setForms s (Entry.ofSnapshot item.data) true
    | none => s
  else s

/-- Loop of `insertAttachments()` over the chosen files: an unreadable file adds one line
to `errors`, a readable one is stored under its file name. -/
def insertAttachmentsLoop :
    List ChosenFile → EntryAttachments → List String → EntryAttachments × List String
  | [], attachments, errors => (attachments, errors)
  | file :: files, attachments, errors =>
    match file.content with
    | none =>
      insertAttachmentsLoop files attachments
        (errors ++ [QFileInfo.fileName file.path ++ " - " ++ file.errorString])
    | some data =>
      insertAttachmentsLoop files (attachments.set (QFileInfo.fileName file.path) data) errors

/-- Slot `insertAttachments()`; `filenames` is what the file dialog returns. The directory
remembered in the configuration is presentation only. -/
def insertAttachments (s : EditEntryWidget) (filenames : List ChosenFile) : EditEntryWidget :=
  if filenames.isEmpty then s
  else
    let result := insertAttachmentsLoop filenames s.m_entryAttachments []
    let s := { s with m_entryAttachments := result.1 }
    let errors := result.2
    if !errors.isEmpty then
      showMessage s ("Unable to open files:\n" ++ "\n".intercalate errors)
    else s

/-- Slot `saveSelectedAttachment()`, the case of one selected attachment. -/
def saveSelectedAttachment (s : EditEntryWidget) (env : SaveDialog) : EditEntryWidget :=
  if !env.currentIndexValid then s
  else if !QString.isEmpty env.singleSavePath then
    if !env.singleSaveOk then
      showMessage s ("Unable to save the attachment:\n" ++ env.singleErrorString)
    else s
  else s

/-- Loop of `saveSelectedAttachments()` over the selected rows. -/
def saveAttachmentsLoop : List SelectedAttachment → SaveRun → SaveRun
  | [], run => run
  | file :: files, run =>
    if file.fileExists && file.answer == StandardButton.No then
      saveAttachmentsLoop files run
    else if file.fileExists && file.answer == StandardButton.Cancel then
      { run with cancelled := true }
    else
      let run := { run with attempted := run.attempted ++ [file.filename] }
      let run :=
        if !file.saveOk then
          { run with errors := run.errors ++ [file.filename ++ " - " ++ file.errorString] }
        else run
      saveAttachmentsLoop files run

/-- Slot `saveSelectedAttachments()`: the session after the call, and what the loop did.
`indexes` are the selected rows. -/
def saveSelectedAttachments (s : EditEntryWidget) (env : SaveDialog)
    (indexes : List SelectedAttachment) : EditEntryWidget × SaveRun :=
  if indexes.isEmpty then (s, ⟨[], [], false⟩)
  else if indexes.length == 1 then (saveSelectedAttachment s env, ⟨[], [], false⟩)
  else if QString.isEmpty env.savePath then (s, ⟨[], [], false⟩)
  else if !env.dirExists && env.mkpathResult then
    (showMessage s ("Unable to create the directory:\n" ++ env.savePath), ⟨[], [], false⟩)
  else
    let run := saveAttachmentsLoop indexes ⟨[], [], false⟩
    if run.cancelled then (s, run)
    else if !run.errors.isEmpty then
      (showMessage s ("Unable to save the attachments:\n" ++ "\n".intercalate run.errors), run)
    else (s, run)

/-- Condition of the second `if` of the custom-sequence branch of `updateEntryData`,
`!highRepetition.exactMatch(text)`: the block it guards is the one left for the handling of
too much repetition. -/
def tooMuchRepetitionBranch (text : String) : Bool := !highRepetition_exactMatch text

/-- End of `getOpenSSHKey(key)`, from the test of the length of the key data on. -/
def parseKeyData (s : EditEntryWidget) (parse : QByteArray → KeyParse)
    (privateKeyData : QByteArray) (opened read : Bool) : EditEntryWidget × KeyRun :=
  if privateKeyData.length == 0 then (s, ⟨false, opened, read⟩)
  else if !(parse privateKeyData).ok then
    (showMessage s (parse privateKeyData).errorString, ⟨false, opened, read⟩)
  else (s, ⟨true, opened, read⟩)

/-- Method `getOpenSSHKey(key)` of the build with the SSH agent: the session after the call,
and what the call did. `ui` holds the fields of the SSH agent page, `localFile` the answers
of the file system for the external file, `parse` the answers of `key.parse`. -/
def getOpenSSHKey (s : EditEntryWidget) (ui : SSHAgentPage) (localFile : KeyFile)
    (parse : QByteArray → KeyParse) : EditEntryWidget × KeyRun :=
  if ui.attachmentRadioButton then
    parseKeyData s parse (s.m_entryAttachments.value ui.attachmentComboBox) false false
  else
    if QString.isEmpty ui.externalFileEdit then (s, ⟨false, false, false⟩)
    else if localFile.size > 1024 * 1024 then
      (showMessage s "File too large to be a private key", ⟨false, false, false⟩)
    else if !localFile.openOk then
      (showMessage s "Failed to open private key", ⟨false, true, false⟩)
    else parseKeyData s parse localFile.content true true

/-- Text `QString("%1 %2").arg(tr("New attribute")).arg(i)`. -/
def newAttributeName (i : Nat) : String := "New attribute" ++ " " ++ toString i

/-- Loop of `insertAttribute()`: `name` is the candidate and `i` the counter; `fuel` bounds
the number of tests of the loop condition, and none is the answer when it runs out. The
counter is an `int` in the source; it stays below the number of keys plus two. -/
def insertAttributeLoop (keys : List String) : Nat → String → Nat → Option String
  | 0, _, _ => none
  | fuel + 1, name, i =>
    if keys.contains name then insertAttributeLoop keys fuel (newAttributeName i) (i + 1)
    else some name

/-- Slot `insertAttribute()`, with `fuel` tests of the loop condition at most. The call
`attributesView->edit(index)` opens the editor of the name and is presentation only. -/
def insertAttribute (s : EditEntryWidget) (fuel : Nat) : Option EditEntryWidget :=
  match insertAttributeLoop s.m_entryAttributes.keys fuel "New attribute" 1 with
  | none => none
  | some name =>
    let s := { s with m_entryAttributes := s.m_entryAttributes.set name "" false }
    let index := EntryAttributesModel.indexByKey s.m_entryAttributes name
    some (setCurrentAttributeIndex s index)

end EditEntryWidget

/-- The icon reference `updateEntryData` derives from the state of the icon page. -/
def iconOfState (i : IconStruct) : IconRef :=
  if i.number < 0 then IconRef.number 0
  else match i.uuid with
    | none => IconRef.number i.number.toNat
    | some u => IconRef.custom u

/-- The state `updateEntryData` writes into an entry with the given id. -/
def formData (s : EditEntryWidget) (uuid : Nat) : EntryData :=
  { uuid := uuid
    title := s.titleEdit
    username := s.usernameEdit
    url := s.urlEdit
    password := s.passwordEdit
    notes := s.notesEdit
    expires := s.expireCheck
    expiryTime := s.expireDatePicker.toUTC
    icon := iconOfState s.m_iconsWidget
    autoTypeEnabled := s.enableButton
    defaultAutoTypeSequence := if s.inheritSequenceButton then "" else s.sequenceEdit
    attributes := s.m_entryAttributes
    attachments := s.m_entryAttachments
    autoTypeAssociations := s.m_autoTypeAssoc }

/-- The working-copy attributes after the flush of the attribute edit box that opens
`saveEntry`. -/
def flushedAttributes (s : EditEntryWidget) : EntryAttributes :=
  if EntryAttributesModel.isValid s.m_entryAttributes s.attributesView
      && s.attributesEditEnabled then
    s.m_entryAttributes.set (EntryAttributesModel.keyByIndex s.m_entryAttributes s.attributesView)
      s.attributesEdit
      (s.m_entryAttributes.isProtected
        (EntryAttributesModel.keyByIndex s.m_entryAttributes s.attributesView))
  else s.m_entryAttributes

/-- The session as `saveEntry` has prepared it when it calls `updateEntryData`: attribute
edit flushed, staged deletions cleared, empty associations pruned. -/
def prepared (s : EditEntryWidget) : EditEntryWidget :=
  { s with
    m_entryAttributes := flushedAttributes s
    m_currentAttribute := none
    m_historyModel := s.m_historyModel.clearDeletedEntries
    m_autoTypeAssoc := s.m_autoTypeAssoc.removeEmpty }

/-- The state a commit of the session writes into the Record. -/
def committedData (s : EditEntryWidget) : EntryData :=
  formData (prepared s) s.entry.data.uuid

/-- The history of the Record of the session once the items staged for deletion have left
it. -/
def keptHistory (s : EditEntryWidget) : List HistoryItem :=
  s.entry.historyItems.filter
    (fun h => !((s.m_historyModel.deletedEntries.map HistoryItem.address).contains h.address))

/-- The history item a commit of the session pushes when it changes the Record: a new
object that holds the pre-commit state. -/
def pushedItem (s : EditEntryWidget) : HistoryItem :=
  ⟨Entry.freshAddress (keptHistory s), s.entry.data⟩

/-- One edit of the user that changes a single field of the form or one item of the working
copy. The value of an attribute is changed by typing into the attribute edit box; the
text reaches the working copy when the selection moves, which flushes the box, or at the
commit. An attribute is added by the slot `insertAttribute`. The attachments and the associations are changed by the slots that work on them
and then hold the value given. -/
inductive Mutation where
  | title (text : String)
  | username (text : String)
  | url (text : String)
  /-- the same text typed into the password field and its repeat field -/
  | password (text : String)
  | notes (text : String)
  | expires (checked : Bool)
  | expiryTime (time : QDateTime)
  /-- the text typed into the attribute edit box, if it is enabled, the selected attribute
  staying selected -/
  | attributeText (text : String)
  /-- the text typed into the attribute edit box, if it is enabled, and the row the
  selection of the attributes view is then moved to -/
  | attributeValue (text : String) (next : Option Nat)
  /-- the protect button of the selected attribute is toggled -/
  | attributeProtection (state : Bool)
  /-- the add button of the attributes page, slot `insertAttribute` -/
  | attributeInsert
  /-- the working-copy attachments after an edit of one attachment -/
  | attachments (a : EntryAttachments)
  /-- the working-copy associations after an edit of one association -/
  | associations (a : AutoTypeAssociations)
deriving DecidableEq, Repr

/-- The session after the edit. The loop of `insertAttribute` is given two tests more than
there are attributes, with which it returns. -/
def Mutation.apply (m : Mutation) (s : EditEntryWidget) : EditEntryWidget :=
  match m with
  | Mutation.title t => { s with titleEdit := t }
  | Mutation.username t => { s with usernameEdit := t }
  | Mutation.url t => { s with urlEdit := t }
  | Mutation.password t => { s with passwordEdit := t, passwordRepeatEdit := t }
  | Mutation.notes t => { s with notesEdit := t }
  | Mutation.expires b => { s with expireCheck := b }
  | Mutation.expiryTime d => { s with expireDatePicker := d }
  | Mutation.attributeText t =>
    if s.attributesEditEnabled then { s with attributesEdit := t } else s
  | Mutation.attributeValue t next =>
    EditEntryWidget.setCurrentAttributeIndex
      (if s.attributesEditEnabled then { s with attributesEdit := t } else s) next
  | Mutation.attributeProtection b => EditEntryWidget.protectCurrentAttribute s b
  | Mutation.attributeInsert =>
    (EditEntryWidget.insertAttribute s (s.m_entryAttributes.keys.length + 2)).getD s
  | Mutation.attachments a => { s with m_entryAttachments := a }
  | Mutation.associations a => { s with m_autoTypeAssoc := a }

/-- One action of the user between the opening of a session and its close, other than a
commit: typing into a form field, or triggering one of the slots that work on the
working copy. -/
inductive Edit where
  /-- a changed form field or working-copy collection -/
  | mutate (m : Mutation)
  | typePasswordRepeat (text : String)
  | typeAttributeText (text : String)
  | selectAttribute (index : Option Nat)
  | protectAttribute (state : Bool)
  | revealAttribute
  /-- the add button of the attributes page, slot `insertAttribute` -/
  | insertAttribute
  | chooseIcon (icon : IconStruct)
  /-- the icon page deletes a custom icon from the database -/
  | removeCustomIcon (uuid : Nat)
  | checkAutoTypeEnabled (checked : Bool)
  | chooseInheritSequence (checked : Bool)
  | typeSequence (text : String)
  | selectAssociation (index : Option Nat)
  | insertAssociation
  | removeAssociation
  | typeWindowTitle (text : String)
  | chooseCustomWindowSequence (checked : Bool)
  | typeWindowSequence (text : String)
  | selectHistoryRow (index : Option Nat)
  | deleteHistoryRow
  | deleteAllHistoryRows
deriving DecidableEq, Repr

/-- The session after one action. A changed window field triggers `applyCurrentAssoc`, a
changed selection of the association view `loadCurrentAssoc`. The loop of
`insertAttribute` is given two tests more than there are attributes, with which it
returns. -/
def Edit.apply (e : Edit) (s : EditEntryWidget) : EditEntryWidget :=
  match e with
  | Edit.mutate m => m.apply s
  | Edit.typePasswordRepeat t => { s with passwordRepeatEdit := t }
  | Edit.typeAttributeText t => { s with attributesEdit := t }
  | Edit.selectAttribute i => EditEntryWidget.setCurrentAttributeIndex s i
  | Edit.protectAttribute b => EditEntryWidget.protectCurrentAttribute s b
  | Edit.revealAttribute => EditEntryWidget.revealCurrentAttribute s
  | Edit.insertAttribute =>
    (EditEntryWidget.insertAttribute s (s.m_entryAttributes.keys.length + 2)).getD s
  | Edit.chooseIcon i => { s with m_iconsWidget := i }
  | Edit.removeCustomIcon u =>
    { s with database := ⟨s.database.customIcons.filter (fun x => !(x == u))⟩ }
  | Edit.checkAutoTypeEnabled b =>
    EditEntryWidget.updateAutoTypeEnabled { s with enableButton := b }
  | Edit.chooseInheritSequence b => { s with inheritSequenceButton := b }
  | Edit.typeSequence t => { s with sequenceEdit := t }
  | Edit.selectAssociation i =>
    EditEntryWidget.loadCurrentAssoc
      (EditEntryWidget.updateAutoTypeEnabled { s with assocView := i }) i
  | Edit.insertAssociation => EditEntryWidget.insertAutoTypeAssoc s
  | Edit.removeAssociation => EditEntryWidget.removeAutoTypeAssoc s
  | Edit.typeWindowTitle t => EditEntryWidget.applyCurrentAssoc { s with windowTitleCombo := t }
  | Edit.chooseCustomWindowSequence b =>
    EditEntryWidget.applyCurrentAssoc { s with customWindowSequenceButton := b }
  | Edit.typeWindowSequence t =>
    EditEntryWidget.applyCurrentAssoc { s with windowSequenceEdit := t }
  | Edit.selectHistoryRow i => { s with historyView := i }
  | Edit.deleteHistoryRow => EditEntryWidget.deleteHistoryEntry s
  | Edit.deleteAllHistoryRows => EditEntryWidget.deleteAllHistoryEntries s

/-- The session after a sequence of actions, first action first. -/
def applyEdits (edits : List Edit) (s : EditEntryWidget) : EditEntryWidget :=
  edits.foldl (fun st e => e.apply st) s

/-- The Record as `cancel` leaves it, given the database at that time: an icon reference to
a custom icon the database does not contain is reset to the default icon. -/
def resetDanglingIcon (e : Entry) (db : Database) : Entry :=
  match e.iconUuid with
  | some uuid => if db.containsCustomIcon uuid then e else e.setIconNumber Entry.DefaultIconNumber
  | none => e

/-- The four components of the session the working copy consists of: attributes,
attachments, auto-type associations, and the history items staged for deletion. -/
def workingCopy (s : EditEntryWidget) :
    EntryAttributes × EntryAttachments × AutoTypeAssociations × List HistoryItem :=
  (s.m_entryAttributes, s.m_entryAttachments, s.m_autoTypeAssoc, s.m_historyModel.deletedEntries)

/-- A session in which `saveEntry` (Apply) is invoked several times: each round is a
sequence of actions followed by one `saveEntry`. -/
def applyRounds (rounds : List (List Edit)) (s : EditEntryWidget) : EditEntryWidget :=
  rounds.foldl (fun st edits => EditEntryWidget.saveEntry (applyEdits edits st)) s

/-- The text `displayAttribute` puts into the attribute edit box for a protected attribute. -/
def protectedPlaceholder : String := "[PROTECTED]" ++ " " ++ "Press reveal to view or edit"

/-- The slots that work on the selected attribute, as actions of a session: the user
selects a row (the view changes its current index and emits `currentChanged`), the slot
`updateCurrentAttribute` runs, the protect button is toggled, the reveal button is
clicked, or the session is saved. -/
inductive AttributeAction where
  | select (index : Option Nat)
  | update
  | protect (state : Bool)
  | reveal
  | save
deriving DecidableEq, Repr

/-- The session after the action. -/
def AttributeAction.apply (a : AttributeAction) (s : EditEntryWidget) : EditEntryWidget :=
  match a with
  | AttributeAction.select i => EditEntryWidget.setCurrentAttributeIndex s i
  | AttributeAction.update => EditEntryWidget.updateCurrentAttribute s
  | AttributeAction.protect b => EditEntryWidget.protectCurrentAttribute s b
  | AttributeAction.reveal => EditEntryWidget.revealCurrentAttribute s
  | AttributeAction.save => EditEntryWidget.saveEntry s

/-- Whether, after the action, `revealCurrentAttribute` has been called since the selected
attribute was last selected or protected; `revealed` tells it for the time before. -/
def AttributeAction.revealedAfter (a : AttributeAction) (s : EditEntryWidget)
    (revealed : Bool) : Bool :=
  match a with
  | AttributeAction.select i => if s.attributesView = i then revealed else false
  | AttributeAction.update => false
  | AttributeAction.protect _ =>
    if !s.m_history && EntryAttributesModel.isValid s.m_entryAttributes s.attributesView then
      false
    else revealed
  | AttributeAction.reveal => true
  | AttributeAction.save => revealed

/-- The session, and whether the selected attribute has been revealed, after a sequence of
actions, first action first. -/
def runAttributeActions (actions : List AttributeAction) (start : EditEntryWidget × Bool) :
    EditEntryWidget × Bool :=
  actions.foldl (fun st a => (a.apply st.1, a.revealedAfter st.1 st.2)) start

/-- The selected attribute is protected, has not been revealed, and yet the attribute edit
box is enabled or shows something else than the placeholder. -/
def protectedValueShown (s : EditEntryWidget) (revealed : Bool) : Bool :=
  !revealed
    && EntryAttributesModel.isValid s.m_entryAttributes s.attributesView
    && s.m_entryAttributes.isProtected
        (EntryAttributesModel.keyByIndex s.m_entryAttributes s.attributesView)
    && (s.attributesEditEnabled || s.attributesEdit != protectedPlaceholder)

/-- The content of the last file of the list that could be read and has the given file
name; none when the list holds no such file. -/
def lastReadable : List ChosenFile → String → Option QByteArray
  | [], _ => none
  | file :: files, name =>
    match lastReadable files name with
    | some data => some data
    | none =>
      match file.content with
      | some data => if QFileInfo.fileName file.path = name then some data else none
      | none => none

/-- The error lines of the files of the list that could not be read, one per file, in the
order of the list. -/
def errorLines (files : List ChosenFile) : List String :=
  (files.filter (fun f => f.content.isNone)).map
    (fun f => QFileInfo.fileName f.path ++ " - " ++ f.errorString)

/-- Sentence of the specification "a token is an opening brace, a run of letters, optionally
one white-space character followed by a run of digits, and a closing brace", for runs of
at least `minRun` characters: the specification asks for non-empty runs, `minRun = 1`. -/
def IsToken (minRun : Nat) (t : List Char) : Prop :=
  ∃ letters : List Char, minRun ≤ letters.length ∧
    (∀ c ∈ letters, EditEntryWidget.isLetterAZ c = true) ∧
    (t = Char.ofNat 123 :: (letters ++ [Char.ofNat 125]) ∨
      ∃ (w : Char) (digits : List Char), EditEntryWidget.QChar.isSpace w = true ∧
        minRun ≤ digits.length ∧ (∀ c ∈ digits, EditEntryWidget.isDigit09 c = true) ∧
        t = Char.ofNat 123 :: (letters ++ w :: (digits ++ [Char.ofNat 125])))

/-- Sentence of the specification "the whole text is a concatenation of zero or more
tokens". -/
def IsTokenSequence (minRun : Nat) (text : List Char) : Prop :=
  ∃ tokens : List (List Char), (∀ t ∈ tokens, IsToken minRun t) ∧ text = tokens.flatten

/-- Sentence of the specification "the text contains three or more consecutive digits
somewhere". -/
def HasThreeDigits (text : List Char) : Prop :=
  ∃ (before : List Char) (a b c : Char) (after : List Char),
    text = before ++ a :: b :: c :: after ∧ EditEntryWidget.isDigit09 a = true ∧
      EditEntryWidget.isDigit09 b = true ∧ EditEntryWidget.isDigit09 c = true

/-! ## Sample objects -/

/-- A Record with one attribute, one attachment, one auto-type association and one history
snapshot. -/
def sampleEntry : Entry :=
  { data :=
      { uuid := 7, title := "Mail", username := "ann", url := "https://mail.example",
        password := "pw1", notes := "n", expires := true, expiryTime := ⟨1000⟩,
        icon := IconRef.number 3, autoTypeEnabled := true, defaultAutoTypeSequence := "",
        attributes := ⟨[⟨"pin", "1234", false⟩]⟩,
        attachments := ⟨[("a.txt", [1, 2])]⟩,
        autoTypeAssociations := ⟨[⟨"Browser", ""⟩]⟩ }
    historyItems :=
      [⟨1,
        { uuid := 7, title := "Mail (old)", username := "ann", url := "", password := "pw0",
          notes := "", expires := false, expiryTime := ⟨0⟩, icon := IconRef.number 0,
          autoTypeEnabled := true, defaultAutoTypeSequence := "",
          attributes := ⟨[]⟩, attachments := ⟨[]⟩, autoTypeAssociations := ⟨[]⟩ }⟩]
    tmpHistoryItem := none
    inheritedAutoTypeSequence := "" }

/-- A Record one of whose two auto-type associations has an empty window pattern. -/
def sampleEntryEmptyRule : Entry :=
  { sampleEntry with
    data := { sampleEntry.data with autoTypeAssociations := ⟨[⟨"Browser", ""⟩, ⟨"", ""⟩]⟩ }
    historyItems := [] }

/-- A database without custom icons. -/
def sampleDatabase : Database := ⟨[]⟩

/-- The snapshot the history item of the sample Record holds. -/
def sampleSnapshot : EntryData :=
  { uuid := 7, title := "Mail (old)", username := "ann", url := "", password := "pw0",
    notes := "", expires := false, expiryTime := ⟨0⟩, icon := IconRef.number 0,
    autoTypeEnabled := true, defaultAutoTypeSequence := "",
    attributes := ⟨[]⟩, attachments := ⟨[]⟩, autoTypeAssociations := ⟨[]⟩ }

/-- A Record titled `Mail 1` whose history holds three items, the first and the third with
equal snapshots. -/
def sampleEntryTwins : Entry :=
  { sampleEntry with
    data := { sampleEntry.data with title := "Mail 1" }
    historyItems := [⟨1, sampleSnapshot⟩, ⟨2, sampleEntry.data⟩, ⟨3, sampleSnapshot⟩] }

/-- That Record opened for editing in a new widget. -/
def sampleSessionTwinsLoaded : EditEntryWidget :=
  EditEntryWidget.loadEntry EditEntryWidget.new sampleEntryTwins false false "Root"
    sampleDatabase

/-- The session on that Record after the user selected the first history row, staged it for
deletion and typed a new title. -/
def sampleSessionTwins : EditEntryWidget :=
  { EditEntryWidget.deleteHistoryEntry
      { sampleSessionTwinsLoaded with historyView := some 0 } with
    titleEdit := "Mail 2" }

/-- The sample Record opened for editing in a new widget. -/
def sampleSession : EditEntryWidget :=
  EditEntryWidget.loadEntry EditEntryWidget.new sampleEntry false false "Root" sampleDatabase

/-- The sample session after the user selected the only history row, staged it for deletion
and typed a new title. -/
def sampleSessionStaged : EditEntryWidget :=
  { EditEntryWidget.deleteHistoryEntry { sampleSession with historyView := some 0 } with
    titleEdit := "Mail 2" }

/-- The sample session with three associations in the working copy, the second with an
empty window pattern. -/
def sampleSessionThreeRules : EditEntryWidget :=
  { sampleSession with
    m_autoTypeAssoc := ⟨[⟨"Browser", ""⟩, ⟨"", ""⟩, ⟨"Terminal", "y"⟩]⟩ }

/-- The sample Record with a custom icon. -/
def sampleEntryCustomIcon : Entry :=
  { sampleEntry with data := { sampleEntry.data with icon := IconRef.custom 5 } }

/-- The sample Record opened as a history view. -/
def sampleHistorySession : EditEntryWidget :=
  EditEntryWidget.loadEntry EditEntryWidget.new sampleEntry false true "Root" sampleDatabase

/-- A history view opened in a widget that still shows the history of the sample session,
with its first row selected. -/
def sampleHistorySessionWithRows : EditEntryWidget :=
  EditEntryWidget.loadEntry { sampleSession with historyView := some 0 } sampleEntry false true
    "Root" sampleDatabase

/-- A new Record opened in create mode. -/
def sampleCreateSession : EditEntryWidget :=
  EditEntryWidget.loadEntry EditEntryWidget.new Entry.new true false "Root" sampleDatabase

/-- The sample session after the user typed a new value into the attribute edit box. -/
def sampleSessionAttributeTyped : EditEntryWidget :=
  { sampleSession with attributesEdit := "9999" }

/-- The sample session after the user selected the only history row. -/
def sampleSessionRowSelected : EditEntryWidget :=
  { sampleSession with historyView := some 0 }

/-- The sample session after the user chose a custom sequence and typed a text that is no
sequence of tokens and holds four digits in a row. -/
def sampleSessionCustomSequence : EditEntryWidget :=
  { sampleSession with inheritSequenceButton := false, sequenceEdit := "hello 1234" }

/-- Three files chosen for insertion: two readable ones with the same file name in different
directories, and one that cannot be read. -/
def sampleChosenFiles : List ChosenFile :=
  [⟨"/home/ann/key.txt", some [1], ""⟩, ⟨"/tmp/gone.bin", none, "No such file"⟩,
   ⟨"/home/bob/key.txt", some [2, 3], ""⟩]

/-- A directory dialog that returns an existing directory. -/
def sampleSaveDialog : SaveDialog :=
  { savePath := "/tmp/out", dirExists := true, mkpathResult := true,
    currentIndexValid := true, singleSavePath := "", singleSaveOk := true,
    singleErrorString := "" }

/-- Three selected attachments: the write of the first fails, the second exists in the
directory and the user answers Cancel to the overwrite question, the third would be
written without trouble. -/
def sampleSelectedAttachments : List SelectedAttachment :=
  [⟨"a.txt", false, StandardButton.Yes, false, "Disk full"⟩,
   ⟨"b.txt", true, StandardButton.Cancel, true, ""⟩,
   ⟨"c.txt", false, StandardButton.Yes, true, ""⟩]

/-- An SSH agent page that names an external key file. -/
def sampleKeyPage : SSHAgentPage := ⟨false, "", "/home/ann/.ssh/id_rsa"⟩

/-- A stand-in for `OpenSSHKey::parse` that takes key data starting with a dash. -/
def sampleKeyParse (data : QByteArray) : KeyParse :=
  if data.head? = some 45 then ⟨true, ""⟩ else ⟨false, "Invalid key file"⟩

/-- A session on a Record three of whose attributes have names `insertAttribute` would
choose; the first one, protected, is selected. -/
def sampleSessionNamesTaken : EditEntryWidget :=
  EditEntryWidget.loadEntry EditEntryWidget.new
    { sampleEntry with
      data :=
        { sampleEntry.data with
          attributes :=
            ⟨[⟨"New attribute 1", "a", true⟩, ⟨"New attribute", "b", false⟩,
              ⟨"New attribute 3", "c", false⟩]⟩ } }
    false false "Root" sampleDatabase

/-- The Record with an association whose window pattern is empty, opened for editing. -/
def sampleSessionEmptyRule : EditEntryWidget :=
  EditEntryWidget.loadEntry EditEntryWidget.new sampleEntryEmptyRule false false "Root"
    sampleDatabase

/-- A session on a Record whose only attribute is protected: it is selected and hidden. -/
def sampleSessionProtected : EditEntryWidget :=
  EditEntryWidget.loadEntry EditEntryWidget.new
    { sampleEntry with
      data := { sampleEntry.data with attributes := ⟨[⟨"pin", "1234", true⟩]⟩ } }
    false false "Root" sampleDatabase

/-! ## Properties -/

open EditEntryWidget

/-- C1. Password mismatch gate: in a session that is not a history view and whose password
field differs from the repeat field, `saveEntry` and `acceptEntry` only show the error
message. Every other component of the state is as before: the Record with its history,
the working copy, the staged history deletions, the saved flag, the entry pointer, and
the list of emitted signals, so no `editFinished` is emitted. -/
theorem password_mismatch_gate (s : EditEntryWidget) (hmode : s.m_history = false)
    (hpw : s.passwordEdit ≠ s.passwordRepeatEdit) :
    saveEntry s = { s with message := some "Different passwords supplied." } ∧
    acceptEntry s = { s with message := some "Different passwords supplied." } := by
  have hne : s.passwordsEqual = false := by
    simp [passwordsEqual, hpw]
  constructor
  · simp [saveEntry, hmode, hne, showMessage]
  · simp [acceptEntry, hne, showMessage]

theorem updateEntryDataWith_eq (syntaxOk repetitionOk : String → Bool) (s : EditEntryWidget)
    (e : Entry) :
    updateEntryDataWith syntaxOk repetitionOk s e = { e with data := formData s e.data.uuid } := by
  unfold updateEntryDataWith formData iconOfState
  simp only [ite_self]
  rcases hi : s.m_iconsWidget with ⟨u, n⟩
  by_cases hn : n < 0 <;> cases u <;> cases hb : s.inheritSequenceButton <;>
    simp [hn, Entry.setAttributes, Entry.setAttachments, Entry.setTitle,
      Entry.setUsername, Entry.setUrl, Entry.setPassword, Entry.setExpires, Entry.setExpiryTime,
      Entry.setNotes, Entry.setIconNumber, Entry.setIconUuid, Entry.setAutoTypeEnabled,
      Entry.setDefaultAutoTypeSequence, Entry.setAutoTypeAssociations, Entry.DefaultIconNumber,
      EntryAttributes.copyCustomKeysFrom, EntryAttachments.copyDataFrom,
      AutoTypeAssociations.copyDataFrom]

theorem updateEntryData_eq (s : EditEntryWidget) (e : Entry) :
    updateEntryData s e = { e with data := formData s e.data.uuid } :=
  updateEntryDataWith_eq _ _ s e

theorem displayAttribute_eq (s : EditEntryWidget) (index : Option Nat) (showProtected : Bool) :
    displayAttribute s index showProtected =
      { s with
        attributesEdit :=
          if EntryAttributesModel.isValid s.m_entryAttributes index then
            if showProtected then "[PROTECTED]" ++ " " ++ "Press reveal to view or edit"
            else s.m_entryAttributes.value (EntryAttributesModel.keyByIndex s.m_entryAttributes index)
          else ""
        attributesEditEnabled :=
          EntryAttributesModel.isValid s.m_entryAttributes index && !showProtected
        revealAttributeButtonEnabled :=
          EntryAttributesModel.isValid s.m_entryAttributes index && showProtected
        protectAttributeButtonChecked :=
          EntryAttributesModel.isValid s.m_entryAttributes index && showProtected } := by
  unfold displayAttribute
  by_cases hv : EntryAttributesModel.isValid s.m_entryAttributes index = true <;>
    cases showProtected <;> simp [hv]

theorem updateCurrentAttribute_of_none (s : EditEntryWidget) (h : s.m_currentAttribute = none) :
    updateCurrentAttribute s =
      { displayAttribute s s.attributesView
          (s.m_entryAttributes.isProtected
            (EntryAttributesModel.keyByIndex s.m_entryAttributes s.attributesView)) with
        m_currentAttribute := s.attributesView } := by
  unfold updateCurrentAttribute
  simp [h, EntryAttributesModel.isValid]

theorem loadCurrentAssoc_eq (s : EditEntryWidget) (row : Nat) :
    loadCurrentAssoc s (some row) =
      { s with
        windowTitleCombo :=
          if row < s.m_autoTypeAssoc.size then (s.m_autoTypeAssoc.get row).window else ""
        customWindowSequenceButton :=
          decide (row < s.m_autoTypeAssoc.size) &&
            !QString.isEmpty (s.m_autoTypeAssoc.get row).sequence
        windowSequenceEdit :=
          if row < s.m_autoTypeAssoc.size then (s.m_autoTypeAssoc.get row).sequence else ""
        assocAddButtonEnabled := !s.m_history
        assocRemoveButtonEnabled :=
          !s.m_history && (s.assocView.isSome && s.m_autoTypeAssoc.size != 0) } := by
  unfold loadCurrentAssoc clearCurrentAssoc updateAutoTypeEnabled
  by_cases h : row < s.m_autoTypeAssoc.size <;> simp [h]

/-- What `setForms` leaves in the form fields and the working copy, as far as a commit
reads them. -/
theorem setForms_fields (s0 : EditEntryWidget) (R : Entry) (restore : Bool) :
    (setForms s0 R restore).entry = s0.entry ∧
    (setForms s0 R restore).database = s0.database ∧
    (setForms s0 R restore).m_entry = s0.m_entry ∧
    (setForms s0 R restore).m_database = s0.m_database ∧
    (setForms s0 R restore).m_history = s0.m_history ∧
    (setForms s0 R restore).m_create = s0.m_create ∧
    (setForms s0 R restore).m_saved = s0.m_saved ∧
    (setForms s0 R restore).emitted = s0.emitted ∧
    (setForms s0 R restore).titleEdit = R.data.title ∧
    (setForms s0 R restore).usernameEdit = R.data.username ∧
    (setForms s0 R restore).urlEdit = R.data.url ∧
    (setForms s0 R restore).passwordEdit = R.data.password ∧
    (setForms s0 R restore).passwordRepeatEdit = R.data.password ∧
    (setForms s0 R restore).expireCheck = R.data.expires ∧
    (setForms s0 R restore).expireDatePicker = R.data.expiryTime ∧
    (setForms s0 R restore).notesEdit = R.data.notes ∧
    (setForms s0 R restore).m_entryAttributes = R.data.attributes ∧
    (setForms s0 R restore).m_entryAttachments = R.data.attachments ∧
    (setForms s0 R restore).m_autoTypeAssoc = R.data.autoTypeAssociations ∧
    (setForms s0 R restore).m_iconsWidget = ⟨R.iconUuid, R.iconNumber⟩ ∧
    (setForms s0 R restore).enableButton = R.data.autoTypeEnabled ∧
    (setForms s0 R restore).inheritSequenceButton
      = QString.isEmpty R.data.defaultAutoTypeSequence ∧
    (setForms s0 R restore).sequenceEdit = R.effectiveAutoTypeSequence ∧
    (setForms s0 R restore).m_historyModel.deletedHistoryEntries
      = s0.m_historyModel.deletedHistoryEntries := by
  unfold setForms
  by_cases h1 : (EntryAttributesModel.rowCount R.data.attributes != 0) = true <;>
  by_cases h2 : QString.isEmpty R.data.defaultAutoTypeSequence = true <;>
  by_cases h3 : (R.data.autoTypeAssociations.size != 0) = true <;>
  by_cases h4 : (!s0.m_history && !restore) = true <;>
  simp [h1, h2, h3, h4, setCurrentAttributeIndex, updateCurrentAttribute_of_none,
    displayAttribute_eq, loadCurrentAssoc_eq, clearCurrentAssoc, updateAutoTypeEnabled,
    EntryAttributes.copyCustomKeysFrom, EntryAttachments.copyDataFrom,
    AutoTypeAssociations.copyDataFrom, EntryHistoryModel.setEntries, QDateTime.toLocalTime]

/-- An update transaction around a write of `d`: the pre-commit state is pushed onto the
history exactly when `d` differs from it. -/
theorem Entry.endUpdate_write (e : Entry) (d : EntryData) :
    Entry.endUpdate { e.beginUpdate with data := d } =
      (decide (e.data ≠ d),
        { data := d
          historyItems :=
            e.historyItems ++
              (if e.data = d then [] else [⟨Entry.freshAddress e.historyItems, e.data⟩])
          tmpHistoryItem := none
          inheritedAutoTypeSequence := e.inheritedAutoTypeSequence }) := by
  by_cases h : e.data = d
  · simp [Entry.endUpdate, Entry.beginUpdate, h]
  · simp [Entry.endUpdate, Entry.beginUpdate, h]

/-- The commit in edit mode, step by step: staged items leave the history, the working
copy is written, and the pre-commit state is pushed when the write changed something. -/
theorem saveEntry_edit (s : EditEntryWidget) (hmode : s.m_history = false)
    (hcreate : s.m_create = false) (hpw : s.passwordEdit = s.passwordRepeatEdit) :
    saveEntry s =
      { prepared s with
        m_saved := true
        entry :=
          { data := committedData s
            historyItems :=
              keptHistory s
                ++ (if s.entry.data = committedData s then [] else [pushedItem s])
            tmpHistoryItem := none
            inheritedAutoTypeSequence := s.entry.inheritedAutoTypeSequence } } := by
  have hpe : s.passwordsEqual = true := by simp [passwordsEqual, hpw]
  unfold saveEntry
  by_cases hf : (EntryAttributesModel.isValid s.m_entryAttributes s.attributesView
      && s.attributesEditEnabled) = true
  · simp only [hmode, hpe, hcreate, hf, updateEntryData_eq, Entry.endUpdate_write,
      Bool.not_false, Bool.not_true, Bool.false_eq_true, if_true, if_false]
    simp [prepared, committedData, formData, flushedAttributes, hf, Entry.beginUpdate,
      Entry.removeHistoryItems, hmode, hcreate, keptHistory, pushedItem]
  · simp only [hmode, hpe, hcreate, hf, updateEntryData_eq, Entry.endUpdate_write,
      Bool.not_false, Bool.not_true, Bool.false_eq_true, if_true, if_false]
    simp [prepared, committedData, formData, flushedAttributes, hf, Entry.beginUpdate,
      Entry.removeHistoryItems, hmode, hcreate, keptHistory, pushedItem]

/-- With nothing staged the commit keeps the whole history, and the item it pushes takes
the next address. -/
theorem keptHistory_of_empty (s : EditEntryWidget) (h : s.m_historyModel.deletedEntries = []) :
    keptHistory s = s.entry.historyItems ∧
    pushedItem s = ⟨Entry.freshAddress s.entry.historyItems, s.entry.data⟩ := by
  have hk : keptHistory s = s.entry.historyItems := by
    unfold keptHistory
    rw [h]
    simp
  exact ⟨hk, by unfold pushedItem; rw [hk]⟩

theorem EntryAttributes.replaceFirst_self (k : String) :
    ∀ (items : List Attribute), k ∈ items.map Attribute.key →
      EntryAttributes.replaceFirst k (EntryAttributes.value ⟨items⟩ k)
        (EntryAttributes.isProtected ⟨items⟩ k) items = items
  | [], h => by simp at h
  | x :: xs, h => by
    by_cases hx : x.key = k
    · subst hx
      simp [EntryAttributes.replaceFirst, EntryAttributes.value, EntryAttributes.isProtected]
    · have hmem : k ∈ xs.map Attribute.key := by
        simp only [List.map_cons, List.mem_cons] at h
        rcases h with h | h
        · exact absurd h.symm hx
        · exact h
      have ih := EntryAttributes.replaceFirst_self k xs hmem
      simp only [EntryAttributes.value, EntryAttributes.isProtected] at ih ⊢
      simp [EntryAttributes.replaceFirst, hx, List.find?_cons, ih]

/-- Storing the value an attribute already has, with the flag it already has, changes nothing. -/
theorem EntryAttributes.set_value_self (a : EntryAttributes) (k : String) (hk : k ∈ a.keys) :
    a.set k (a.value k) (a.isProtected k) = a := by
  rcases a with ⟨items⟩
  have hc : (EntryAttributes.keys ⟨items⟩).contains k = true := by
    simpa using hk
  simp only [EntryAttributes.set, hc, if_true]
  rw [EntryAttributes.replaceFirst_self k items hk]

theorem EntryAttributesModel.keyByIndex_mem (a : EntryAttributes) (index : Option Nat)
    (h : EntryAttributesModel.isValid a index = true) :
    EntryAttributesModel.keyByIndex a index ∈ a.keys := by
  cases index with
  | none => simp [EntryAttributesModel.isValid] at h
  | some i =>
    simp only [EntryAttributesModel.isValid, decide_eq_true_eq] at h
    simp only [EntryAttributesModel.keyByIndex]
    rw [List.getD_eq_getElem _ _ h]
    exact List.getElem_mem _

/-- When the attribute edit box, if enabled, shows the stored value of the selected
attribute, the flush that opens `saveEntry` changes no attribute. -/
theorem flushedAttributes_of_sync (s : EditEntryWidget)
    (h : EntryAttributesModel.isValid s.m_entryAttributes s.attributesView = true →
      s.attributesEditEnabled = true →
      s.attributesEdit = s.m_entryAttributes.value
        (EntryAttributesModel.keyByIndex s.m_entryAttributes s.attributesView)) :
    flushedAttributes s = s.m_entryAttributes := by
  unfold flushedAttributes
  by_cases hv : EntryAttributesModel.isValid s.m_entryAttributes s.attributesView = true
  · by_cases he : s.attributesEditEnabled = true
    · simp only [hv, he, Bool.and_self, if_true]
      rw [h hv he]
      exact EntryAttributes.set_value_self _ _ (EntryAttributesModel.keyByIndex_mem _ _ hv)
    · simp [he]
  · simp [hv]

/-- After `setForms` the attribute edit box, if enabled, shows the stored value of the
selected attribute. -/
theorem setForms_sync (s0 : EditEntryWidget) (R : Entry) (restore : Bool) :
    EntryAttributesModel.isValid (setForms s0 R restore).m_entryAttributes
        (setForms s0 R restore).attributesView = true →
      (setForms s0 R restore).attributesEditEnabled = true →
      (setForms s0 R restore).attributesEdit =
        (setForms s0 R restore).m_entryAttributes.value
          (EntryAttributesModel.keyByIndex (setForms s0 R restore).m_entryAttributes
            (setForms s0 R restore).attributesView) := by
  unfold setForms
  by_cases h1 : (EntryAttributesModel.rowCount R.data.attributes != 0) = true <;>
  by_cases h2 : QString.isEmpty R.data.defaultAutoTypeSequence = true <;>
  by_cases h3 : (R.data.autoTypeAssociations.size != 0) = true <;>
  by_cases h4 : (!s0.m_history && !restore) = true <;>
  simp [h1, h2, h3, h4, setCurrentAttributeIndex, updateCurrentAttribute_of_none,
    displayAttribute_eq, loadCurrentAssoc_eq, clearCurrentAssoc, updateAutoTypeEnabled,
    EntryAttributes.copyCustomKeysFrom, EntryAttachments.copyDataFrom,
    AutoTypeAssociations.copyDataFrom, EntryHistoryModel.setEntries, QDateTime.toLocalTime] <;>
  intro hv hp <;> simp [hv, hp]

/-- The answer of `hasBeenModified`: a snapshot is staged for deletion, or the write of the
working copy would change the state of the Record. -/
theorem hasBeenModified_fst (s : EditEntryWidget) :
    (hasBeenModified s).1 =
      (!s.m_historyModel.deletedEntries.isEmpty
        || decide (s.entry.data ≠ formData s s.entry.data.uuid)) := by
  unfold hasBeenModified
  by_cases hd : s.m_historyModel.deletedEntries.isEmpty = true
  · simp only [hd, Bool.not_true, Bool.false_eq_true, if_false, updateEntryData_eq,
      Entry.endUpdate_write, Bool.false_or]
    simp [Entry.copyDataFrom, Entry.beginUpdate]
  · simp [hd]

theorem iconOfState_entry (R : Entry) : iconOfState ⟨R.iconUuid, R.iconNumber⟩ = R.data.icon := by
  unfold iconOfState Entry.iconUuid Entry.iconNumber
  cases R.data.icon <;> simp

theorem defaultSequence_roundtrip (R : Entry) :
    (if QString.isEmpty R.data.defaultAutoTypeSequence = true then ""
      else R.effectiveAutoTypeSequence) = R.data.defaultAutoTypeSequence := by
  unfold Entry.effectiveAutoTypeSequence
  by_cases h : QString.isEmpty R.data.defaultAutoTypeSequence = true
  · have h2 : R.data.defaultAutoTypeSequence = "" := by simpa [QString.isEmpty] using h
    rw [if_pos h, h2]
  · simp [h]

/-- Freshly loaded form fields and working copy write back the state they were loaded
from. -/
theorem setForms_formData (s0 : EditEntryWidget) (R : Entry) (restore : Bool) :
    formData (setForms s0 R restore) R.data.uuid = R.data := by
  obtain ⟨-, -, -, -, -, -, -, -, h1, h2, h3, h4, -, h5, h6, h7, h8, h9, h10, h11, h12, h13,
    h14, -⟩ := setForms_fields s0 R restore
  unfold formData
  rw [h1, h2, h3, h4, h5, h6, h7, h8, h9, h10, h11, h12, h13, h14, iconOfState_entry]
  simp only [Bool.decide_eq_true, defaultSequence_roundtrip, QDateTime.toUTC]

/-- The session `loadEntry` opens, in terms of `setForms`. -/
theorem loadEntry_eq (s0 : EditEntryWidget) (R : Entry) (create history : Bool)
    (parentName : String) (db : Database) :
    loadEntry s0 R create history parentName db =
      { setForms
          { s0 with entry := R, m_entry := true, database := db, m_database := true,
                    m_create := create, m_history := history, m_saved := false } R false with
        readOnly := history } := by
  unfold loadEntry
  simp [(setForms_fields _ R false).2.2.2.2.1]

theorem loadEntry_fields (s0 : EditEntryWidget) (R : Entry) (create history : Bool)
    (parentName : String) (db : Database) :
    (loadEntry s0 R create history parentName db).entry = R ∧
    (loadEntry s0 R create history parentName db).database = db ∧
    (loadEntry s0 R create history parentName db).m_entry = true ∧
    (loadEntry s0 R create history parentName db).m_history = history ∧
    (loadEntry s0 R create history parentName db).m_create = create ∧
    (loadEntry s0 R create history parentName db).m_saved = false ∧
    (loadEntry s0 R create history parentName db).emitted = s0.emitted ∧
    (loadEntry s0 R create history parentName db).passwordEdit = R.data.password ∧
    (loadEntry s0 R create history parentName db).passwordRepeatEdit = R.data.password ∧
    (loadEntry s0 R create history parentName db).m_entryAttributes = R.data.attributes ∧
    (loadEntry s0 R create history parentName db).m_entryAttachments = R.data.attachments ∧
    (loadEntry s0 R create history parentName db).m_autoTypeAssoc
      = R.data.autoTypeAssociations ∧
    (loadEntry s0 R create history parentName db).m_historyModel.deletedEntries
      = s0.m_historyModel.deletedEntries := by
  obtain ⟨h1, h2, h3, -, h4, h5, h6, h7, -, -, -, h8, h9, -, -, -, h10, h11, h12, -, -, -, -,
    h13⟩ :=
    setForms_fields
      { s0 with entry := R, m_entry := true, database := db, m_database := true,
                m_create := create, m_history := history, m_saved := false } R false
  rw [loadEntry_eq]
  simp only [EntryHistoryModel.deletedEntries]
  exact ⟨h1, h2, h3, h4, h5, h6, h7, h8, h9, h10, h11, h12, h13⟩

theorem loadEntry_formData (s0 : EditEntryWidget) (R : Entry) (create history : Bool)
    (parentName : String) (db : Database) :
    formData (loadEntry s0 R create history parentName db) R.data.uuid = R.data := by
  rw [loadEntry_eq]
  exact setForms_formData _ R false

theorem loadEntry_flushed (s0 : EditEntryWidget) (R : Entry) (create history : Bool)
    (parentName : String) (db : Database) :
    flushedAttributes (loadEntry s0 R create history parentName db) = R.data.attributes := by
  have h := flushedAttributes_of_sync _
    (setForms_sync
      { s0 with entry := R, m_entry := true, database := db, m_database := true,
                m_create := create, m_history := history, m_saved := false } R false)
  rw [(setForms_fields _ R false).2.2.2.2.2.2.2.2.2.2.2.2.2.2.2.2.1] at h
  rw [loadEntry_eq]
  exact h

theorem AutoTypeAssociations.removeEmpty_of_nonempty (a : AutoTypeAssociations)
    (h : ∀ x ∈ a.associations, x.window ≠ "") : a.removeEmpty = a := by
  rcases a with ⟨l⟩
  simp only [AutoTypeAssociations.removeEmpty, AutoTypeAssociations.mk.injEq,
    List.filter_eq_self]
  intro x hx
  simpa [QString.isEmpty] using h x hx

/-- Committing a freshly loaded Record without empty window patterns writes its own state. -/
theorem loadEntry_committedData (s0 : EditEntryWidget) (R : Entry) (create history : Bool)
    (parentName : String) (db : Database)
    (hwin : ∀ a ∈ R.data.autoTypeAssociations.associations, a.window ≠ "") :
    committedData (loadEntry s0 R create history parentName db) = R.data := by
  have hf := loadEntry_formData s0 R create history parentName db
  have hfl := loadEntry_flushed s0 R create history parentName db
  obtain ⟨he, -, -, -, -, -, -, -, -, hattr, -, hassoc, -⟩ :=
    loadEntry_fields s0 R create history parentName db
  unfold committedData
  rw [he]
  have hp : formData (prepared (loadEntry s0 R create history parentName db)) R.data.uuid
      = formData (loadEntry s0 R create history parentName db) R.data.uuid := by
    unfold formData prepared
    simp only [hfl, hattr, hassoc, AutoTypeAssociations.removeEmpty_of_nonempty _ hwin]
  rw [hp, hf]

/-- C1, at a concrete session: the sample Record loaded for editing, with a password typed
that the repeat field does not match. -/
theorem password_mismatch_gate_witness :
    ({ loadEntry EditEntryWidget.new sampleEntry false false "Root" sampleDatabase with
        passwordEdit := "pw2" } : EditEntryWidget).m_history = false ∧
    ({ loadEntry EditEntryWidget.new sampleEntry false false "Root" sampleDatabase with
        passwordEdit := "pw2" } : EditEntryWidget).passwordEdit ≠
      ({ loadEntry EditEntryWidget.new sampleEntry false false "Root" sampleDatabase with
        passwordEdit := "pw2" } : EditEntryWidget).passwordRepeatEdit ∧
    saveEntry { loadEntry EditEntryWidget.new sampleEntry false false "Root" sampleDatabase with
        passwordEdit := "pw2" } =
      { ({ loadEntry EditEntryWidget.new sampleEntry false false "Root" sampleDatabase with
          passwordEdit := "pw2" } : EditEntryWidget) with
        message := some "Different passwords supplied." } :=
  ⟨by decide, by decide,
    (password_mismatch_gate
      { loadEntry EditEntryWidget.new sampleEntry false false "Root" sampleDatabase with
        passwordEdit := "pw2" } (by decide) (by decide)).1⟩

/-- C2, as stated, fails: the sample Record with an association whose window pattern is
empty is loaded in edit mode into a new widget and committed without any edit.
`hasBeenModified` answers false before the commit, yet the commit prunes the association
and pushes the previous state onto the history. -/
theorem roundtrip_fails_on_empty_window_rule :
    (hasBeenModified
        (loadEntry EditEntryWidget.new sampleEntryEmptyRule false false "Root"
          sampleDatabase)).1 = false ∧
    sampleEntryEmptyRule.historyItems = [] ∧
    (saveEntry
        (loadEntry EditEntryWidget.new sampleEntryEmptyRule false false "Root"
          sampleDatabase)).entry.historyItems = [⟨0, sampleEntryEmptyRule.data⟩] ∧
    (saveEntry
        (loadEntry EditEntryWidget.new sampleEntryEmptyRule false false "Root"
          sampleDatabase)).entry.data.autoTypeAssociations
      ≠ sampleEntryEmptyRule.data.autoTypeAssociations := by
  decide

/-- C2, amended. Let R be a Record none of whose auto-type associations has an empty window
pattern, loaded in edit mode into a widget that holds no staged history deletion. With no
edit in between, `hasBeenModified` answers false, and `saveEntry` commits (the saved flag
is set) leaving the history of R with exactly the entries it had and every field and
sub-collection of R as it was. -/
theorem roundtrip_identity (s0 : EditEntryWidget) (R : Entry) (parentName : String)
    (db : Database) (hstaged : s0.m_historyModel.deletedEntries = [])
    (hwin : ∀ a ∈ R.data.autoTypeAssociations.associations, a.window ≠ "") :
    (hasBeenModified (loadEntry s0 R false false parentName db)).1 = false ∧
    (saveEntry (loadEntry s0 R false false parentName db)).m_saved = true ∧
    (saveEntry (loadEntry s0 R false false parentName db)).entry.historyItems
      = R.historyItems ∧
    (saveEntry (loadEntry s0 R false false parentName db)).entry.data = R.data := by
  obtain ⟨he, -, -, hh, hc, -, -, hp1, hp2, -, -, -, hd⟩ :=
    loadEntry_fields s0 R false false parentName db
  have hcd := loadEntry_committedData s0 R false false parentName db hwin
  have hfd := loadEntry_formData s0 R false false parentName db
  refine ⟨?_, ?_, ?_, ?_⟩
  · rw [hasBeenModified_fst, hd, hstaged, he, hfd]
    simp
  · rw [saveEntry_edit _ hh hc (hp1.trans hp2.symm)]
  · rw [saveEntry_edit _ hh hc (hp1.trans hp2.symm)]
    have hk := (keptHistory_of_empty _ (hd.trans hstaged)).1
    simp [he, hcd, hk]
  · rw [saveEntry_edit _ hh hc (hp1.trans hp2.symm)]
    simp [hcd]

/-- C2 amended, at the sample Record and a new widget. -/
theorem roundtrip_identity_witness :
    EditEntryWidget.new.m_historyModel.deletedEntries = [] ∧
    (∀ a ∈ sampleEntry.data.autoTypeAssociations.associations, a.window ≠ "") ∧
    (hasBeenModified
      (loadEntry EditEntryWidget.new sampleEntry false false "Root" sampleDatabase)).1 = false ∧
    (saveEntry
      (loadEntry EditEntryWidget.new sampleEntry false false "Root" sampleDatabase)).entry.data
        = sampleEntry.data :=
  ⟨by decide, by decide,
    (roundtrip_identity EditEntryWidget.new sampleEntry "Root" sampleDatabase
      (by decide) (by decide)).1,
    (roundtrip_identity EditEntryWidget.new sampleEntry "Root" sampleDatabase
      (by decide) (by decide)).2.2.2⟩

/-- The Record after a commit in edit mode. -/
theorem saveEntry_edit_entry (s : EditEntryWidget) (hmode : s.m_history = false)
    (hcreate : s.m_create = false) (hpw : s.passwordEdit = s.passwordRepeatEdit) :
    (saveEntry s).entry =
      { data := committedData s
        historyItems :=
          keptHistory s ++ (if s.entry.data = committedData s then [] else [pushedItem s])
        tmpHistoryItem := none
        inheritedAutoTypeSequence := s.entry.inheritedAutoTypeSequence } := by
  rw [saveEntry_edit s hmode hcreate hpw]

/-- The commit in create mode: no update transaction surrounds the write. -/
theorem saveEntry_create (s : EditEntryWidget) (hmode : s.m_history = false)
    (hcreate : s.m_create = true) (hpw : s.passwordEdit = s.passwordRepeatEdit) :
    saveEntry s =
      { prepared s with
        m_saved := true
        entry :=
          { data := committedData s
            historyItems := keptHistory s
            tmpHistoryItem := s.entry.tmpHistoryItem
            inheritedAutoTypeSequence := s.entry.inheritedAutoTypeSequence } } := by
  have hpe : s.passwordsEqual = true := by simp [passwordsEqual, hpw]
  unfold saveEntry
  by_cases hf : (EntryAttributesModel.isValid s.m_entryAttributes s.attributesView
      && s.attributesEditEnabled) = true
  · simp only [hmode, hpe, hcreate, hf, updateEntryData_eq,
      Bool.not_false, Bool.not_true, Bool.false_eq_true, if_true, if_false]
    simp [prepared, committedData, formData, flushedAttributes, hf,
      Entry.removeHistoryItems, hmode, hcreate, keptHistory]
  · simp only [hmode, hpe, hcreate, hf, updateEntryData_eq,
      Bool.not_false, Bool.not_true, Bool.false_eq_true, if_true, if_false]
    simp [prepared, committedData, formData, flushedAttributes, hf,
      Entry.removeHistoryItems, hmode, hcreate, keptHistory]

theorem Entry.lt_freshAddress :
    ∀ (items : List HistoryItem) (h : HistoryItem), h ∈ items →
      h.address < Entry.freshAddress items
  | [], h, hm => by simp at hm
  | x :: xs, h, hm => by
    have hstep : Entry.freshAddress (x :: xs)
        = max (x.address + 1) (Entry.freshAddress xs) := rfl
    rcases List.mem_cons.1 hm with rfl | hm
    · rw [hstep]; omega
    · have := Entry.lt_freshAddress xs h hm
      rw [hstep]; omega

/-- The address of a new history item is the address of no item of the history. -/
theorem Entry.freshAddress_not_mem (items : List HistoryItem) :
    Entry.freshAddress items ∉ items.map HistoryItem.address := by
  intro hm
  obtain ⟨h, hh, he⟩ := List.mem_map.1 hm
  have := Entry.lt_freshAddress items h hh
  omega

theorem contains_address (l : List Nat) (a : Nat) : l.contains a = decide (a ∈ l) := by
  simp

/-- The history a commit keeps depends on the addresses staged only. -/
theorem keptHistory_congr (s : EditEntryWidget) (D : List HistoryItem)
    (hD : ∀ a, a ∈ D.map HistoryItem.address ↔
      a ∈ s.m_historyModel.deletedEntries.map HistoryItem.address) :
    keptHistory { s with m_historyModel := { s.m_historyModel with deletedHistoryEntries := D } }
      = keptHistory s := by
  unfold keptHistory
  have hfil : (fun h : HistoryItem => !((D.map HistoryItem.address).contains h.address))
      = (fun h : HistoryItem =>
          !((s.m_historyModel.deletedEntries.map HistoryItem.address).contains h.address)) := by
    funext h
    have := hD h.address
    by_cases hm : h.address ∈ D.map HistoryItem.address
    · have hm2 := this.1 hm
      rw [contains_address, contains_address, decide_eq_true hm, decide_eq_true hm2]
    · have hm2 : h.address ∉ s.m_historyModel.deletedEntries.map HistoryItem.address :=
        fun h2 => hm (this.2 h2)
      rw [contains_address, contains_address, decide_eq_false hm, decide_eq_false hm2]
  show List.filter (fun h : HistoryItem => !((D.map HistoryItem.address).contains h.address))
      s.entry.historyItems = _
  rw [hfil]

/-- When the items of the history have pairwise different addresses and the staged items are
items of the history, the commit keeps exactly the items that are not staged. -/
theorem keptHistory_of_nodup (s : EditEntryWidget)
    (hnodup : (s.entry.historyItems.map HistoryItem.address).Nodup)
    (hsub : ∀ d ∈ s.m_historyModel.deletedEntries, d ∈ s.entry.historyItems) :
    keptHistory s
      = s.entry.historyItems.filter (fun h => decide (h ∉ s.m_historyModel.deletedEntries)) := by
  unfold keptHistory
  apply List.filter_congr
  intro h hh
  have hinj : ∀ d ∈ s.entry.historyItems, d.address = h.address → d = h := by
    intro d hd he
    exact List.inj_on_of_nodup_map hnodup hd hh he
  by_cases hm : h ∈ s.m_historyModel.deletedEntries
  · have : h.address ∈ s.m_historyModel.deletedEntries.map HistoryItem.address :=
      List.mem_map.2 ⟨h, hm, rfl⟩
    rw [contains_address, decide_eq_true this]
    simp [hm]
  · have : h.address ∉ s.m_historyModel.deletedEntries.map HistoryItem.address := by
      intro h2
      obtain ⟨d, hd, he⟩ := List.mem_map.1 h2
      exact hm (hinj d (hsub d hd) he ▸ hd)
    rw [contains_address, decide_eq_false this]
    simp [hm]

/-- C4. History after commit: in edit mode, with D the history items staged for deletion, a
successful `saveEntry` leaves as history of the Record its former history without the
items whose address is staged, items that merely hold the same snapshot as a staged one
stay, followed by one new item, at a new address, that holds the pre-commit state, exactly
when the state the commit writes (the working copy as flushed and pruned by the commit)
differs from it, and by nothing when only the history changed. Afterwards nothing is
staged. The Record that results depends on which items are staged only, not on the order
in which they were. When the addresses of the history are pairwise different and the
staged items are items of the history, the items kept are exactly those not staged. The
removal stands before `beginUpdate`: inside the transaction a removal that takes an item
away would make `endUpdate` report a change and push an item. -/
theorem history_after_commit (s : EditEntryWidget) (hmode : s.m_history = false)
    (hcreate : s.m_create = false) (hpw : s.passwordEdit = s.passwordRepeatEdit) :
    keptHistory s =
      s.entry.historyItems.filter
        (fun h => decide
          (h.address ∉ s.m_historyModel.deletedEntries.map HistoryItem.address)) ∧
    (saveEntry s).entry.historyItems =
      keptHistory s
        ++ (if committedData s = s.entry.data then []
            else [⟨Entry.freshAddress (keptHistory s), s.entry.data⟩]) ∧
    Entry.freshAddress (keptHistory s) ∉ (keptHistory s).map HistoryItem.address ∧
    (saveEntry s).m_historyModel.deletedEntries = [] ∧
    (∀ D : List HistoryItem,
      (∀ a, a ∈ D.map HistoryItem.address ↔
        a ∈ s.m_historyModel.deletedEntries.map HistoryItem.address) →
      (saveEntry
        { s with m_historyModel := { s.m_historyModel with deletedHistoryEntries := D } }).entry
        = (saveEntry s).entry) ∧
    ((s.entry.historyItems.map HistoryItem.address).Nodup →
      (∀ d ∈ s.m_historyModel.deletedEntries, d ∈ s.entry.historyItems) →
      keptHistory s =
        s.entry.historyItems.filter
          (fun h => decide (h ∉ s.m_historyModel.deletedEntries))) ∧
    (keptHistory s ≠ s.entry.historyItems →
      (Entry.endUpdate
        (updateEntryData (prepared s)
          (s.entry.beginUpdate.removeHistoryItems s.m_historyModel.deletedEntries))).1
        = true) := by
  refine ⟨?_, ?_, Entry.freshAddress_not_mem _, ?_, ?_, keptHistory_of_nodup s, ?_⟩
  · unfold keptHistory
    apply List.filter_congr
    intro h _
    rw [contains_address]
    by_cases hm : h.address ∈ s.m_historyModel.deletedEntries.map HistoryItem.address
    · rw [decide_eq_true hm, decide_eq_false (fun hn => hn hm)]; rfl
    · rw [decide_eq_false hm, decide_eq_true hm]; rfl
  · rw [saveEntry_edit s hmode hcreate hpw]
    by_cases hc : committedData s = s.entry.data
    · simp [hc]
    · have hc2 : ¬ s.entry.data = committedData s := fun h => hc h.symm
      simp [hc, hc2, pushedItem]
  · rw [saveEntry_edit s hmode hcreate hpw]
    simp [prepared, EntryHistoryModel.clearDeletedEntries, EntryHistoryModel.deletedEntries]
  · intro D hD
    have e1 := saveEntry_edit_entry s hmode hcreate hpw
    have e2 := saveEntry_edit_entry
      { s with m_historyModel := { s.m_historyModel with deletedHistoryEntries := D } }
      hmode hcreate hpw
    have hk := keptHistory_congr s D hD
    have hp : pushedItem
        { s with m_historyModel := { s.m_historyModel with deletedHistoryEntries := D } }
        = pushedItem s := by
      unfold pushedItem
      rw [hk]
    rw [e1, e2, hk, hp]
    rfl
  · intro hne
    rw [updateEntryData_eq]
    simp only [Entry.endUpdate, Entry.removeHistoryItems, Entry.beginUpdate]
    have hne2 : ¬ s.entry.historyItems = keptHistory s := fun h => hne h.symm
    simp [keptHistory] at hne2
    simp [hne2]

/-- C4, at the session on a Record whose history holds three items, the first and the third
with equal snapshots: the first row was staged for deletion and the title changed. The
commit removes the first item only and pushes the pre-commit state at a new address. -/
theorem history_after_commit_witness :
    sampleSessionTwins.m_history = false ∧ sampleSessionTwins.m_create = false ∧
    sampleSessionTwins.passwordEdit = sampleSessionTwins.passwordRepeatEdit ∧
    sampleSessionTwins.entry.historyItems
      = [⟨1, sampleSnapshot⟩, ⟨2, sampleEntry.data⟩, ⟨3, sampleSnapshot⟩] ∧
    sampleSessionTwins.m_historyModel.deletedEntries = [⟨1, sampleSnapshot⟩] ∧
    (saveEntry sampleSessionTwins).entry.historyItems =
      keptHistory sampleSessionTwins
        ++ (if committedData sampleSessionTwins = sampleSessionTwins.entry.data then []
            else [⟨Entry.freshAddress (keptHistory sampleSessionTwins),
              sampleSessionTwins.entry.data⟩]) ∧
    (saveEntry sampleSessionTwins).entry.historyItems
      = [⟨2, sampleEntry.data⟩, ⟨3, sampleSnapshot⟩,
          ⟨4, { sampleEntry.data with title := "Mail 1" }⟩] :=
  ⟨by decide, by decide, by decide, by decide, by decide,
    (history_after_commit sampleSessionTwins (by decide) (by decide) (by decide)).2.1,
    by decide⟩

/-- C5. Empty auto-type rule pruning: after a successful `saveEntry`, in edit as in create
mode, the associations of the Record are exactly the working-copy associations whose
window pattern is not empty, in their order, and the working copy holds the same list. -/
theorem empty_rule_pruning (s : EditEntryWidget) (hmode : s.m_history = false)
    (hpw : s.passwordEdit = s.passwordRepeatEdit) :
    (saveEntry s).m_saved = true ∧
    (saveEntry s).entry.data.autoTypeAssociations.associations
      = s.m_autoTypeAssoc.associations.filter (fun x => decide (x.window ≠ "")) ∧
    (saveEntry s).m_autoTypeAssoc.associations
      = s.m_autoTypeAssoc.associations.filter (fun x => decide (x.window ≠ "")) := by
  have hfil : (fun x : Association => !QString.isEmpty x.window)
      = (fun x => decide (x.window ≠ "")) := by
    funext x; simp [QString.isEmpty]
  have hre : s.m_autoTypeAssoc.removeEmpty.associations
      = s.m_autoTypeAssoc.associations.filter (fun x => decide (x.window ≠ "")) := by
    simp only [AutoTypeAssociations.removeEmpty, hfil]
  have hcd : (committedData s).autoTypeAssociations = s.m_autoTypeAssoc.removeEmpty := rfl
  have hpr : (prepared s).m_autoTypeAssoc = s.m_autoTypeAssoc.removeEmpty := rfl
  cases hc : s.m_create with
  | false =>
    rw [saveEntry_edit s hmode hc hpw]
    exact ⟨rfl, hcd ▸ hre, hpr ▸ hre⟩
  | true =>
    rw [saveEntry_create s hmode hc hpw]
    exact ⟨rfl, hcd ▸ hre, hpr ▸ hre⟩

/-- C5, at the sample session with three working-copy associations of which the second has
an empty window pattern: exactly the other two are left, in their order. -/
theorem empty_rule_pruning_witness :
    sampleSessionThreeRules.m_history = false ∧
    sampleSessionThreeRules.passwordEdit = sampleSessionThreeRules.passwordRepeatEdit ∧
    sampleSessionThreeRules.m_autoTypeAssoc.associations.filter
        (fun x => decide (x.window ≠ "")) = [⟨"Browser", ""⟩, ⟨"Terminal", "y"⟩] ∧
    (saveEntry sampleSessionThreeRules).entry.data.autoTypeAssociations.associations
      = sampleSessionThreeRules.m_autoTypeAssoc.associations.filter
          (fun x => decide (x.window ≠ "")) :=
  ⟨by decide, by decide, by decide,
    (empty_rule_pruning sampleSessionThreeRules (by decide) (by decide)).2.1⟩

/-! ### Actions on the working copy leave the Record alone -/

theorem displayAttribute_frame (s : EditEntryWidget) (index : Option Nat) (p : Bool) :
    (displayAttribute s index p).entry = s.entry ∧
    (displayAttribute s index p).m_history = s.m_history := by
  rw [displayAttribute_eq]
  exact ⟨rfl, rfl⟩

theorem updateCurrentAttribute_frame (s : EditEntryWidget) :
    (updateCurrentAttribute s).entry = s.entry ∧
    (updateCurrentAttribute s).m_history = s.m_history := by
  unfold updateCurrentAttribute
  simp only [displayAttribute_eq]
  split_ifs <;> exact ⟨rfl, rfl⟩

theorem loadCurrentAssoc_frame (s : EditEntryWidget) (index : Option Nat) :
    (loadCurrentAssoc s index).entry = s.entry ∧
    (loadCurrentAssoc s index).m_history = s.m_history := by
  cases index with
  | none => exact ⟨rfl, rfl⟩
  | some row =>
    rw [loadCurrentAssoc_eq]
    exact ⟨rfl, rfl⟩

theorem setCurrentAttributeIndex_frame (s : EditEntryWidget) (index : Option Nat) :
    (setCurrentAttributeIndex s index).entry = s.entry ∧
    (setCurrentAttributeIndex s index).m_history = s.m_history := by
  simp only [setCurrentAttributeIndex]
  split_ifs
  · exact ⟨rfl, rfl⟩
  · exact updateCurrentAttribute_frame _

theorem protectCurrentAttribute_frame (s : EditEntryWidget) (state : Bool) :
    (protectCurrentAttribute s state).entry = s.entry ∧
    (protectCurrentAttribute s state).m_history = s.m_history := by
  simp only [protectCurrentAttribute, displayAttribute_eq]
  split_ifs <;> exact ⟨rfl, rfl⟩

theorem insertAttribute_frame (s : EditEntryWidget) (fuel : Nat) :
    ((insertAttribute s fuel).getD s).entry = s.entry ∧
    ((insertAttribute s fuel).getD s).m_history = s.m_history := by
  unfold insertAttribute
  cases insertAttributeLoop s.m_entryAttributes.keys fuel "New attribute" 1 with
  | none => exact ⟨rfl, rfl⟩
  | some name => exact setCurrentAttributeIndex_frame _ _

theorem Mutation.apply_keeps_entry (m : Mutation) (s : EditEntryWidget) :
    (m.apply s).entry = s.entry ∧ (m.apply s).m_history = s.m_history := by
  cases m with
  | attributeValue t next =>
    simp only [Mutation.apply]
    split_ifs
    · exact setCurrentAttributeIndex_frame _ _
    · exact setCurrentAttributeIndex_frame _ _
  | attributeProtection b => exact protectCurrentAttribute_frame _ _
  | attributeInsert => exact insertAttribute_frame s _
  | attributeText t =>
    simp only [Mutation.apply]
    split_ifs <;> exact ⟨rfl, rfl⟩
  | _ => exact ⟨rfl, rfl⟩

theorem Edit.apply_frame (e : Edit) (s : EditEntryWidget) :
    (e.apply s).entry = s.entry ∧ (e.apply s).m_history = s.m_history := by
  cases e with
  | mutate m => exact Mutation.apply_keeps_entry m s
  | insertAttribute => exact insertAttribute_frame s _
  | typePasswordRepeat t => exact ⟨rfl, rfl⟩
  | typeAttributeText t => exact ⟨rfl, rfl⟩
  | selectAttribute i =>
    simp only [Edit.apply, setCurrentAttributeIndex]
    split_ifs
    · exact ⟨rfl, rfl⟩
    · exact updateCurrentAttribute_frame _
  | protectAttribute b =>
    simp only [Edit.apply, protectCurrentAttribute, displayAttribute_eq]
    split_ifs <;> exact ⟨rfl, rfl⟩
  | revealAttribute =>
    simp only [Edit.apply, revealCurrentAttribute]
    split_ifs <;> exact ⟨rfl, rfl⟩
  | chooseIcon i => exact ⟨rfl, rfl⟩
  | removeCustomIcon u => exact ⟨rfl, rfl⟩
  | checkAutoTypeEnabled b => exact ⟨rfl, rfl⟩
  | chooseInheritSequence b => exact ⟨rfl, rfl⟩
  | typeSequence t => exact ⟨rfl, rfl⟩
  | selectAssociation i => exact loadCurrentAssoc_frame _ i
  | insertAssociation => exact loadCurrentAssoc_frame _ _
  | removeAssociation =>
    simp only [Edit.apply, removeAutoTypeAssoc]
    split <;> exact ⟨rfl, rfl⟩
  | typeWindowTitle t =>
    simp only [Edit.apply, applyCurrentAssoc]
    split
    · exact ⟨rfl, rfl⟩
    · split_ifs <;> exact ⟨rfl, rfl⟩
  | chooseCustomWindowSequence b =>
    simp only [Edit.apply, applyCurrentAssoc]
    split
    · exact ⟨rfl, rfl⟩
    · split_ifs <;> exact ⟨rfl, rfl⟩
  | typeWindowSequence t =>
    simp only [Edit.apply, applyCurrentAssoc]
    split
    · exact ⟨rfl, rfl⟩
    · split_ifs <;> exact ⟨rfl, rfl⟩
  | selectHistoryRow i => exact ⟨rfl, rfl⟩
  | deleteHistoryRow =>
    simp only [Edit.apply, deleteHistoryEntry]
    split_ifs <;> exact ⟨rfl, rfl⟩
  | deleteAllHistoryRows => exact ⟨rfl, rfl⟩

theorem applyEdits_frame (edits : List Edit) :
    ∀ s : EditEntryWidget,
      (applyEdits edits s).entry = s.entry ∧ (applyEdits edits s).m_history = s.m_history := by
  induction edits with
  | nil => intro s; exact ⟨rfl, rfl⟩
  | cons e es ih =>
    intro s
    have h1 := Edit.apply_frame e s
    have h2 := ih (e.apply s)
    simp only [applyEdits, List.foldl_cons] at h2 ⊢
    exact ⟨h2.1.trans h1.1, h2.2.trans h1.2⟩

/-- What `cancel` does to the Record and the database outside a history view. -/
theorem cancel_entry (s : EditEntryWidget) (hmode : s.m_history = false) :
    (cancel s).entry = resetDanglingIcon s.entry s.database ∧
    (cancel s).database = s.database := by
  unfold cancel resetDanglingIcon
  simp only [hmode, Bool.false_eq_true, if_false]
  cases hu : s.entry.iconUuid with
  | none => exact ⟨rfl, rfl⟩
  | some u =>
    by_cases hc : s.database.containsCustomIcon u = true
    · simp [hc, clear, hideMessage, emitEditFinished]
    · simp [hc, clear, hideMessage, emitEditFinished]

/-- C6, as stated, fails: an existing Record whose icon is a custom icon that the database
does not contain is opened in edit mode (not create mode) and the session is cancelled.
`cancel` resets the icon of the Record to the default icon. -/
theorem cancel_resets_icon_in_edit_mode :
    (loadEntry EditEntryWidget.new sampleEntryCustomIcon false false "Root"
      sampleDatabase).m_create = false ∧
    sampleEntryCustomIcon.data.icon = IconRef.custom 5 ∧
    (cancel (loadEntry EditEntryWidget.new sampleEntryCustomIcon false false "Root"
      sampleDatabase)).entry.data.icon = IconRef.number 0 ∧
    (cancel (loadEntry EditEntryWidget.new sampleEntryCustomIcon false false "Root"
      sampleDatabase)).entry ≠ sampleEntryCustomIcon := by
  decide

/-- C6, amended. In a session that is not a history view, in create mode as in edit mode,
after any sequence of actions on the form and the working copy, `cancel` leaves the Record
as it was when the actions began, except that an icon reference to a custom icon the
database does not contain (at the time of the cancel) is reset to the default icon. So
the history and every field but the icon are unchanged, and the Record as a whole is
unchanged when its icon is a default icon or a custom icon of the database. -/
theorem cancel_never_mutates (s : EditEntryWidget) (edits : List Edit)
    (hmode : s.m_history = false) :
    (cancel (applyEdits edits s)).entry
      = resetDanglingIcon s.entry (applyEdits edits s).database ∧
    (cancel (applyEdits edits s)).entry.historyItems = s.entry.historyItems ∧
    { (cancel (applyEdits edits s)).entry.data with icon := s.entry.data.icon } = s.entry.data ∧
    ((∀ u, s.entry.iconUuid = some u → (applyEdits edits s).database.containsCustomIcon u = true)
      → (cancel (applyEdits edits s)).entry = s.entry) := by
  obtain ⟨he, hh⟩ := applyEdits_frame edits s
  obtain ⟨hc, -⟩ := cancel_entry (applyEdits edits s) (hh.trans hmode)
  rw [he] at hc
  rw [hc]
  refine ⟨rfl, ?_, ?_, ?_⟩
  · unfold resetDanglingIcon
    cases s.entry.iconUuid with
    | none => rfl
    | some u => dsimp only; split_ifs <;> rfl
  · unfold resetDanglingIcon
    cases s.entry.iconUuid with
    | none => rfl
    | some u => dsimp only; split_ifs <;> rfl
  · intro hall
    unfold resetDanglingIcon
    cases hu : s.entry.iconUuid with
    | none => rfl
    | some u => simp [hall u hu]

/-- C6 amended, at the sample session: the user types a title, adds an association and
stages the history for deletion, then cancels. -/
theorem cancel_never_mutates_witness :
    sampleSession.m_history = false ∧
    (cancel (applyEdits
      [Edit.mutate (Mutation.title "Mail 2"), Edit.insertAssociation,
        Edit.deleteAllHistoryRows] sampleSession)).entry
      = resetDanglingIcon sampleSession.entry
          (applyEdits
            [Edit.mutate (Mutation.title "Mail 2"), Edit.insertAssociation,
              Edit.deleteAllHistoryRows] sampleSession).database ∧
    (cancel (applyEdits
      [Edit.mutate (Mutation.title "Mail 2"), Edit.insertAssociation,
        Edit.deleteAllHistoryRows] sampleSession)).entry = sampleEntry :=
  ⟨by decide,
    (cancel_never_mutates sampleSession
      [Edit.mutate (Mutation.title "Mail 2"), Edit.insertAssociation,
        Edit.deleteAllHistoryRows] (by decide)).1,
    by decide⟩

/-- C7. No commit path in a history view: when the session was opened with history = true,
`saveEntry`, `acceptEntry` and `cancel` each leave the entry the session points to (the
viewed snapshot) and the database exactly as they were, with its history and without an
update transaction begun, and leave the saved flag as `loadEntry` set it, false. The
session holds no other pointer into the Record. -/
theorem no_commit_in_history_view (s : EditEntryWidget) (hmode : s.m_history = true) :
    ((saveEntry s).entry = s.entry ∧ (saveEntry s).database = s.database ∧
      (saveEntry s).m_saved = s.m_saved) ∧
    ((acceptEntry s).entry = s.entry ∧ (acceptEntry s).database = s.database ∧
      (acceptEntry s).m_saved = s.m_saved) ∧
    ((cancel s).entry = s.entry ∧ (cancel s).database = s.database ∧
      (cancel s).m_saved = s.m_saved) ∧
    ∀ (s0 : EditEntryWidget) (e : Entry) (create : Bool) (parentName : String)
      (db : Database),
      (loadEntry s0 e create true parentName db).m_history = true ∧
      (loadEntry s0 e create true parentName db).m_saved = false := by
  have hs : saveEntry s = emitEditFinished (hideMessage (clear s)) false := by
    simp [saveEntry, hmode]
  refine ⟨?_, ?_, ?_, ?_⟩
  · rw [hs]
    exact ⟨rfl, rfl, rfl⟩
  · unfold acceptEntry
    by_cases hp : s.passwordsEqual = true
    · simp only [hp, Bool.not_true, Bool.false_eq_true, if_false, hs]
      exact ⟨rfl, rfl, rfl⟩
    · have hp2 : s.passwordsEqual = false := by simpa using hp
      simp only [hp2, Bool.not_false, if_true]
      exact ⟨rfl, rfl, rfl⟩
  · have hc : cancel s = emitEditFinished (hideMessage (clear s)) false := by
      simp [cancel, hmode]
    rw [hc]
    exact ⟨rfl, rfl, rfl⟩
  · intro s0 e create parentName db
    obtain ⟨-, -, -, h1, -, h2, -⟩ := loadEntry_fields s0 e create true parentName db
    exact ⟨h1, h2⟩

/-- C7, at the sample Record opened as a history view. -/
theorem no_commit_in_history_view_witness :
    sampleHistorySession.m_history = true ∧
    (saveEntry sampleHistorySession).entry = sampleHistorySession.entry ∧
    (acceptEntry sampleHistorySession).entry = sampleHistorySession.entry ∧
    (cancel sampleHistorySession).entry = sampleHistorySession.entry ∧
    (acceptEntry sampleHistorySession).m_saved = false :=
  ⟨by decide,
    (no_commit_in_history_view sampleHistorySession (by decide)).1.1,
    (no_commit_in_history_view sampleHistorySession (by decide)).2.1.1,
    (no_commit_in_history_view sampleHistorySession (by decide)).2.2.1.1,
    by decide⟩

/-- The enabled flags `setForms` leaves on the buttons that add and remove associations and
on the history page. -/
theorem setForms_buttons (s0 : EditEntryWidget) (R : Entry) (restore : Bool) :
    (setForms s0 R restore).assocAddButtonEnabled = !s0.m_history ∧
    (setForms s0 R restore).assocRemoveButtonEnabled
      = (!s0.m_history && R.data.autoTypeAssociations.size != 0) ∧
    (setForms s0 R restore).historyWidgetEnabled = !s0.m_history := by
  unfold setForms
  by_cases h1 : (EntryAttributesModel.rowCount R.data.attributes != 0) = true <;>
  by_cases h2 : QString.isEmpty R.data.defaultAutoTypeSequence = true <;>
  by_cases h3 : (R.data.autoTypeAssociations.size != 0) = true <;>
  by_cases h4 : (!s0.m_history && !restore) = true <;>
  simp [h1, h2, h3, h4, setCurrentAttributeIndex, updateCurrentAttribute_of_none,
    displayAttribute_eq, loadCurrentAssoc_eq, clearCurrentAssoc, updateAutoTypeEnabled,
    EntryAttributes.copyCustomKeysFrom, EntryAttachments.copyDataFrom,
    AutoTypeAssociations.copyDataFrom, EntryHistoryModel.setEntries, QDateTime.toLocalTime]

/-- C8, as stated, fails. In the history view of the sample Record `insertAutoTypeAssoc`
appends an association to the working copy and `removeAutoTypeAssoc` removes the selected
one; in a history view opened in a widget whose history model still holds rows,
`deleteHistoryEntry` and `deleteAllHistoryEntries` stage snapshots for deletion. -/
theorem history_view_slots_without_guard :
    sampleHistorySession.m_history = true ∧
    workingCopy (insertAutoTypeAssoc sampleHistorySession) ≠ workingCopy sampleHistorySession ∧
    workingCopy (removeAutoTypeAssoc sampleHistorySession) ≠ workingCopy sampleHistorySession ∧
    sampleHistorySessionWithRows.m_history = true ∧
    workingCopy (deleteHistoryEntry sampleHistorySessionWithRows)
      ≠ workingCopy sampleHistorySessionWithRows ∧
    workingCopy (deleteAllHistoryEntries sampleHistorySessionWithRows)
      ≠ workingCopy sampleHistorySessionWithRows := by
  decide

/-- C8, amended. In a session opened with history = true, `updateCurrentAttribute`,
`protectCurrentAttribute` and `applyCurrentAssoc` leave the working-copy attributes,
attachments, associations and the staged history deletions as they were;
`deleteHistoryEntry` and `deleteAllHistoryEntries` do so when the history model holds no
row. `insertAutoTypeAssoc` and `removeAutoTypeAssoc` have no guard on the mode: what keeps
them from running is that `loadEntry` with history = true leaves the buttons that add and
remove associations, and the history page, disabled. -/
theorem history_view_read_only (s : EditEntryWidget) (hmode : s.m_history = true) :
    workingCopy (updateCurrentAttribute s) = workingCopy s ∧
    (∀ state : Bool, workingCopy (protectCurrentAttribute s state) = workingCopy s) ∧
    workingCopy (applyCurrentAssoc s) = workingCopy s ∧
    (s.m_historyModel.historyEntries = [] →
      workingCopy (deleteHistoryEntry s) = workingCopy s ∧
      workingCopy (deleteAllHistoryEntries s) = workingCopy s) ∧
    ∀ (s0 : EditEntryWidget) (e : Entry) (create : Bool) (parentName : String)
      (db : Database),
      (loadEntry s0 e create true parentName db).assocAddButtonEnabled = false ∧
      (loadEntry s0 e create true parentName db).assocRemoveButtonEnabled = false ∧
      (loadEntry s0 e create true parentName db).historyWidgetEnabled = false := by
  refine ⟨?_, ?_, ?_, ?_, ?_⟩
  · unfold updateCurrentAttribute
    simp [hmode, displayAttribute_eq, workingCopy]
  · intro state
    simp [protectCurrentAttribute, hmode]
  · unfold applyCurrentAssoc
    cases s.assocView with
    | none => rfl
    | some row => simp [hmode]
  · intro hrows
    constructor
    · unfold deleteHistoryEntry
      have hv : s.m_historyModel.isValid s.historyView = false := by
        unfold EntryHistoryModel.isValid
        cases s.historyView <;> simp [hrows]
      simp [hv]
    · simp [deleteAllHistoryEntries, EntryHistoryModel.deleteAll, workingCopy, hrows,
        EntryHistoryModel.deletedEntries]
  · intro s0 e create parentName db
    obtain ⟨h1, h2, h3⟩ :=
      setForms_buttons
        { s0 with entry := e, m_entry := true, database := db, m_database := true,
                  m_create := create, m_history := true, m_saved := false } e false
    rw [loadEntry_eq]
    exact ⟨h1, by simpa using h2, h3⟩

/-- C8 amended, at the sample Record opened as a history view. -/
theorem history_view_read_only_witness :
    sampleHistorySession.m_history = true ∧
    workingCopy (updateCurrentAttribute sampleHistorySession)
      = workingCopy sampleHistorySession ∧
    workingCopy (applyCurrentAssoc sampleHistorySession) = workingCopy sampleHistorySession ∧
    sampleHistorySession.assocAddButtonEnabled = false :=
  ⟨by decide,
    (history_view_read_only sampleHistorySession (by decide)).1,
    (history_view_read_only sampleHistorySession (by decide)).2.2.1,
    by decide⟩

/-- C9. `hasBeenModified` is a pure predicate: the state after the call is the state before
it, in every component (the Record with its history, the working copy, the form fields,
the staged history deletions, the saved flag), and a second call gives the same answer. -/
theorem hasBeenModified_pure (s : EditEntryWidget) :
    (hasBeenModified s).2 = s ∧
    (hasBeenModified (hasBeenModified s).2).1 = (hasBeenModified s).1 := by
  have h : (hasBeenModified s).2 = s := by
    unfold hasBeenModified
    split_ifs <;> rfl
  exact ⟨h, by rw [h]⟩

/-- C10. Definition of the modification test: `hasBeenModified` answers true exactly when a
history snapshot is staged for deletion, or `endUpdate` reports a modification after
`updateEntryData` wrote the working copy into a scratch copy of the Record on which
`beginUpdate` had been called. -/
theorem hasBeenModified_iff (s : EditEntryWidget) :
    (hasBeenModified s).1 = true ↔
      (s.m_historyModel.deletedEntries ≠ [] ∨
        (Entry.endUpdate
          (updateEntryData s (Entry.beginUpdate (Entry.copyDataFrom Entry.new s.entry)))).1
          = true) := by
  unfold hasBeenModified
  by_cases hd : s.m_historyModel.deletedEntries = []
  · simp [hd]
  · have hd2 : s.m_historyModel.deletedEntries.isEmpty = false := by
      simpa [List.isEmpty_iff] using hd
    simp [hd, hd2]

/-- Outside a history view `saveEntry` with different passwords only shows the message. -/
theorem password_mismatch_step (s : EditEntryWidget) (hmode : s.m_history = false)
    (hpw : s.passwordEdit ≠ s.passwordRepeatEdit) :
    saveEntry s = { s with message := some "Different passwords supplied." } := by
  have hne : s.passwordsEqual = false := by
    simp [passwordsEqual, hpw]
  simp [saveEntry, hmode, hne, showMessage]

/-! ### Sessions in create mode -/

theorem updateCurrentAttribute_flags (s : EditEntryWidget) :
    (updateCurrentAttribute s).m_create = s.m_create ∧
    (updateCurrentAttribute s).m_saved = s.m_saved ∧
    (updateCurrentAttribute s).emitted = s.emitted := by
  unfold updateCurrentAttribute
  simp only [displayAttribute_eq]
  split_ifs <;> exact ⟨rfl, rfl, rfl⟩

theorem loadCurrentAssoc_flags (s : EditEntryWidget) (index : Option Nat) :
    (loadCurrentAssoc s index).m_create = s.m_create ∧
    (loadCurrentAssoc s index).m_saved = s.m_saved ∧
    (loadCurrentAssoc s index).emitted = s.emitted := by
  cases index with
  | none => exact ⟨rfl, rfl, rfl⟩
  | some row =>
    rw [loadCurrentAssoc_eq]
    exact ⟨rfl, rfl, rfl⟩

theorem setCurrentAttributeIndex_flags (s : EditEntryWidget) (index : Option Nat) :
    (setCurrentAttributeIndex s index).m_create = s.m_create ∧
    (setCurrentAttributeIndex s index).m_saved = s.m_saved ∧
    (setCurrentAttributeIndex s index).emitted = s.emitted := by
  simp only [setCurrentAttributeIndex]
  split_ifs
  · exact ⟨rfl, rfl, rfl⟩
  · exact updateCurrentAttribute_flags _

theorem protectCurrentAttribute_flags (s : EditEntryWidget) (state : Bool) :
    (protectCurrentAttribute s state).m_create = s.m_create ∧
    (protectCurrentAttribute s state).m_saved = s.m_saved ∧
    (protectCurrentAttribute s state).emitted = s.emitted := by
  simp only [protectCurrentAttribute, displayAttribute_eq]
  split_ifs <;> exact ⟨rfl, rfl, rfl⟩

theorem insertAttribute_flags (s : EditEntryWidget) (fuel : Nat) :
    ((insertAttribute s fuel).getD s).m_create = s.m_create ∧
    ((insertAttribute s fuel).getD s).m_saved = s.m_saved ∧
    ((insertAttribute s fuel).getD s).emitted = s.emitted := by
  unfold insertAttribute
  cases insertAttributeLoop s.m_entryAttributes.keys fuel "New attribute" 1 with
  | none => exact ⟨rfl, rfl, rfl⟩
  | some name => exact setCurrentAttributeIndex_flags _ _

theorem Mutation.apply_keeps_flags (m : Mutation) (s : EditEntryWidget) :
    (m.apply s).m_create = s.m_create ∧ (m.apply s).m_saved = s.m_saved ∧
    (m.apply s).emitted = s.emitted := by
  cases m with
  | attributeValue t next =>
    simp only [Mutation.apply]
    split_ifs
    · exact setCurrentAttributeIndex_flags _ _
    · exact setCurrentAttributeIndex_flags _ _
  | attributeProtection b => exact protectCurrentAttribute_flags _ _
  | attributeInsert => exact insertAttribute_flags s _
  | attributeText t =>
    simp only [Mutation.apply]
    split_ifs <;> exact ⟨rfl, rfl, rfl⟩
  | _ => exact ⟨rfl, rfl, rfl⟩

/-- Actions on the form and the working copy keep the create flag, the saved flag and the
signals emitted so far. -/
theorem Edit.apply_flags (e : Edit) (s : EditEntryWidget) :
    (e.apply s).m_create = s.m_create ∧ (e.apply s).m_saved = s.m_saved ∧
    (e.apply s).emitted = s.emitted := by
  cases e with
  | mutate m => exact Mutation.apply_keeps_flags m s
  | insertAttribute => exact insertAttribute_flags s _
  | typePasswordRepeat t => exact ⟨rfl, rfl, rfl⟩
  | typeAttributeText t => exact ⟨rfl, rfl, rfl⟩
  | selectAttribute i =>
    simp only [Edit.apply, setCurrentAttributeIndex]
    split_ifs
    · exact ⟨rfl, rfl, rfl⟩
    · exact updateCurrentAttribute_flags _
  | protectAttribute b =>
    simp only [Edit.apply, protectCurrentAttribute, displayAttribute_eq]
    split_ifs <;> exact ⟨rfl, rfl, rfl⟩
  | revealAttribute =>
    simp only [Edit.apply, revealCurrentAttribute]
    split_ifs <;> exact ⟨rfl, rfl, rfl⟩
  | chooseIcon i => exact ⟨rfl, rfl, rfl⟩
  | removeCustomIcon u => exact ⟨rfl, rfl, rfl⟩
  | checkAutoTypeEnabled b => exact ⟨rfl, rfl, rfl⟩
  | chooseInheritSequence b => exact ⟨rfl, rfl, rfl⟩
  | typeSequence t => exact ⟨rfl, rfl, rfl⟩
  | selectAssociation i => exact loadCurrentAssoc_flags _ i
  | insertAssociation => exact loadCurrentAssoc_flags _ _
  | removeAssociation =>
    simp only [Edit.apply, removeAutoTypeAssoc]
    split <;> exact ⟨rfl, rfl, rfl⟩
  | typeWindowTitle t =>
    simp only [Edit.apply, applyCurrentAssoc]
    split
    · exact ⟨rfl, rfl, rfl⟩
    · split_ifs <;> exact ⟨rfl, rfl, rfl⟩
  | chooseCustomWindowSequence b =>
    simp only [Edit.apply, applyCurrentAssoc]
    split
    · exact ⟨rfl, rfl, rfl⟩
    · split_ifs <;> exact ⟨rfl, rfl, rfl⟩
  | typeWindowSequence t =>
    simp only [Edit.apply, applyCurrentAssoc]
    split
    · exact ⟨rfl, rfl, rfl⟩
    · split_ifs <;> exact ⟨rfl, rfl, rfl⟩
  | selectHistoryRow i => exact ⟨rfl, rfl, rfl⟩
  | deleteHistoryRow =>
    simp only [Edit.apply, deleteHistoryEntry]
    split_ifs <;> exact ⟨rfl, rfl, rfl⟩
  | deleteAllHistoryRows => exact ⟨rfl, rfl, rfl⟩

theorem applyEdits_flags (edits : List Edit) :
    ∀ s : EditEntryWidget,
      (applyEdits edits s).m_create = s.m_create ∧ (applyEdits edits s).m_saved = s.m_saved ∧
      (applyEdits edits s).emitted = s.emitted := by
  induction edits with
  | nil => intro s; exact ⟨rfl, rfl, rfl⟩
  | cons e es ih =>
    intro s
    have h1 := Edit.apply_flags e s
    have h2 := ih (e.apply s)
    simp only [applyEdits, List.foldl_cons] at h2 ⊢
    exact ⟨h2.1.trans h1.1, h2.2.1.trans h1.2.1, h2.2.2.trans h1.2.2⟩

/-- One `saveEntry` in create mode, whether or not the passwords match: the history only
loses snapshots, no update transaction is begun, and the mode is kept. -/
theorem saveEntry_create_step (s : EditEntryWidget) (hmode : s.m_history = false)
    (hcreate : s.m_create = true) :
    (saveEntry s).entry.historyItems.Sublist s.entry.historyItems ∧
    (saveEntry s).entry.tmpHistoryItem = s.entry.tmpHistoryItem ∧
    (saveEntry s).m_history = false ∧ (saveEntry s).m_create = true := by
  by_cases hpw : s.passwordEdit = s.passwordRepeatEdit
  · rw [saveEntry_create s hmode hcreate hpw]
    exact ⟨List.filter_sublist _, rfl, hmode, hcreate⟩
  · rw [(password_mismatch_step s hmode hpw)]
    exact ⟨List.Sublist.refl _, rfl, hmode, hcreate⟩

theorem applyRounds_create (rounds : List (List Edit)) :
    ∀ s : EditEntryWidget, s.m_history = false → s.m_create = true →
      (applyRounds rounds s).entry.historyItems.Sublist s.entry.historyItems ∧
      (applyRounds rounds s).entry.tmpHistoryItem = s.entry.tmpHistoryItem := by
  induction rounds with
  | nil => intro s _ _; exact ⟨List.Sublist.refl _, rfl⟩
  | cons edits rest ih =>
    intro s hmode hcreate
    obtain ⟨he, hh⟩ := applyEdits_frame edits s
    obtain ⟨hc, -, -⟩ := applyEdits_flags edits s
    obtain ⟨h1, h2, h3, h4⟩ :=
      saveEntry_create_step (applyEdits edits s) (hh.trans hmode) (hc.trans hcreate)
    obtain ⟨i1, i2⟩ := ih (saveEntry (applyEdits edits s)) h3 h4
    rw [he] at h1 h2
    simp only [applyRounds, List.foldl_cons] at i1 i2 ⊢
    exact ⟨i1.trans h1, i2.trans h2⟩

/-- C11. No history for new records: in a session opened in create mode, a successful
`saveEntry` writes the Record without an update transaction (the Record after it is the
Record before it with the staged snapshots removed and the working copy written, and no
snapshot is held by a transaction), and however many rounds of actions and `saveEntry`
the session runs, the history of the Record gains no entry: it stays a sublist of the
history the Record had, so the empty history of a new Record stays empty. -/
theorem no_history_for_new_records (s : EditEntryWidget) (rounds : List (List Edit))
    (hmode : s.m_history = false) (hcreate : s.m_create = true) :
    (s.passwordEdit = s.passwordRepeatEdit →
      (saveEntry s).m_saved = true ∧
      (saveEntry s).entry =
        { s.entry.removeHistoryItems s.m_historyModel.deletedEntries with
          data := committedData s }) ∧
    (applyRounds rounds s).entry.historyItems.Sublist s.entry.historyItems ∧
    (applyRounds rounds s).entry.tmpHistoryItem = s.entry.tmpHistoryItem ∧
    (s.entry.historyItems = [] → (applyRounds rounds s).entry.historyItems = []) := by
  obtain ⟨h1, h2⟩ := applyRounds_create rounds s hmode hcreate
  refine ⟨?_, h1, h2, ?_⟩
  · intro hpw
    rw [saveEntry_create s hmode hcreate hpw]
    exact ⟨rfl, rfl⟩
  · intro hempty
    rw [hempty] at h1
    exact List.sublist_nil.mp h1

/-- C11, at a new Record opened in create mode: the user types a title and applies, then
types a user name and applies again. -/
theorem no_history_for_new_records_witness :
    sampleCreateSession.m_history = false ∧ sampleCreateSession.m_create = true ∧
    (applyRounds
      [[Edit.mutate (Mutation.title "Bank")], [Edit.mutate (Mutation.username "ann")]]
      sampleCreateSession).entry.historyItems.Sublist sampleCreateSession.entry.historyItems ∧
    (applyRounds
      [[Edit.mutate (Mutation.title "Bank")], [Edit.mutate (Mutation.username "ann")]]
      sampleCreateSession).entry.data.title = "Bank" ∧
    (applyRounds
      [[Edit.mutate (Mutation.title "Bank")], [Edit.mutate (Mutation.username "ann")]]
      sampleCreateSession).entry.historyItems = [] :=
  ⟨by decide, by decide,
    (no_history_for_new_records sampleCreateSession
      [[Edit.mutate (Mutation.title "Bank")], [Edit.mutate (Mutation.username "ann")]]
      (by decide) (by decide)).2.1,
    by decide, by decide⟩

/-! ### The signal `editFinished` -/

/-- A commit outside a history view emits nothing. -/
theorem saveEntry_emitted (s : EditEntryWidget) (hmode : s.m_history = false) :
    (saveEntry s).emitted = s.emitted := by
  by_cases hpw : s.passwordEdit = s.passwordRepeatEdit
  · cases hc : s.m_create with
    | false => rw [saveEntry_edit s hmode hc hpw]; rfl
    | true => rw [saveEntry_create s hmode hc hpw]; rfl
  · rw [password_mismatch_step s hmode hpw]

theorem cancel_emitted (s : EditEntryWidget) :
    (cancel s).emitted = s.emitted ++ [Signal.editFinished (!s.m_history && s.m_saved)] ∧
    (cancel s).m_entry = false := by
  unfold cancel
  cases hm : s.m_history with
  | true => simp [clear, hideMessage, emitEditFinished]
  | false =>
    simp only [Bool.false_eq_true, if_false]
    cases s.entry.iconUuid with
    | none => simp [clear, hideMessage, emitEditFinished]
    | some u =>
      by_cases hc : s.database.containsCustomIcon u = true <;>
        simp [hc, clear, hideMessage, emitEditFinished]

/-- C12, as stated, fails in a history view: `acceptEntry` has no branch for it, so with
equal password fields it runs the history branch of `saveEntry`, which emits
`editFinished(false)`, and then emits `editFinished(true)` itself: two emissions. -/
theorem acceptEntry_emits_twice_in_history_view :
    sampleHistorySession.m_history = true ∧
    sampleHistorySession.passwordEdit = sampleHistorySession.passwordRepeatEdit ∧
    sampleHistorySession.emitted = [] ∧
    (acceptEntry sampleHistorySession).emitted
      = [Signal.editFinished false, Signal.editFinished true] := by
  decide

/-- C12, amended. In a session in create or edit mode `acceptEntry` with equal password
fields emits `editFinished` exactly once (with true) and closes the session; in a session
in any of the three modes `cancel` emits `editFinished` exactly once (with false in a
history view, with the saved flag otherwise) and closes the session. -/
theorem editFinished_once (s : EditEntryWidget) :
    (s.m_history = false → s.passwordEdit = s.passwordRepeatEdit →
      (acceptEntry s).emitted = s.emitted ++ [Signal.editFinished true] ∧
      (acceptEntry s).m_entry = false) ∧
    (cancel s).emitted = s.emitted ++ [Signal.editFinished (!s.m_history && s.m_saved)] ∧
    (cancel s).m_entry = false := by
  refine ⟨?_, cancel_emitted s⟩
  intro hmode hpw
  have hpe : s.passwordsEqual = true := by simp [passwordsEqual, hpw]
  have hacc : acceptEntry s = emitEditFinished (clear (saveEntry s)) true := by
    simp [acceptEntry, hpe]
  rw [hacc]
  refine ⟨?_, rfl⟩
  show (saveEntry s).emitted ++ [Signal.editFinished true] = _
  rw [saveEntry_emitted s hmode]

/-- C12 amended, at the sample session in edit mode. -/
theorem editFinished_once_witness :
    sampleSession.m_history = false ∧
    sampleSession.passwordEdit = sampleSession.passwordRepeatEdit ∧
    (acceptEntry sampleSession).emitted = sampleSession.emitted ++ [Signal.editFinished true] ∧
    (acceptEntry sampleSession).emitted = [Signal.editFinished true] ∧
    (cancel sampleHistorySession).emitted = [Signal.editFinished false] :=
  ⟨by decide, by decide,
    ((editFinished_once sampleSession).1 (by decide) (by decide)).1,
    by decide, by decide⟩

/-! ### What a commit writes -/

/-- A successful commit, in edit or create mode: the state written, the working copy after
it, and the saved flag. -/
theorem saveEntry_commit (s : EditEntryWidget) (hmode : s.m_history = false)
    (hpw : s.passwordEdit = s.passwordRepeatEdit) :
    (saveEntry s).entry.data = committedData s ∧
    (saveEntry s).m_entryAttributes = flushedAttributes s ∧
    (saveEntry s).m_entryAttachments = s.m_entryAttachments ∧
    (saveEntry s).m_saved = true := by
  cases hc : s.m_create with
  | false =>
    rw [saveEntry_edit s hmode hc hpw]
    exact ⟨rfl, rfl, rfl, rfl⟩
  | true =>
    rw [saveEntry_create s hmode hc hpw]
    exact ⟨rfl, rfl, rfl, rfl⟩

/-- C13. Commit postcondition: after `saveEntry` in edit or create mode with equal password
fields, the title, user name, url, password, notes and expiry flag of the Record are those
of the form, its expiry time is the time of the picker converted to UTC, its attributes
are the working-copy attributes after the flush of the attribute edit box, its
attachments are the working-copy attachments, its auto-type flag is that of the form, its
default sequence is empty when the inherit button is checked and the text of the sequence
field otherwise, the saved flag is set, and the unique id of the Record is unchanged. -/
theorem commit_postcondition (s : EditEntryWidget) (hmode : s.m_history = false)
    (hpw : s.passwordEdit = s.passwordRepeatEdit) :
    (saveEntry s).entry.data.title = s.titleEdit ∧
    (saveEntry s).entry.data.username = s.usernameEdit ∧
    (saveEntry s).entry.data.url = s.urlEdit ∧
    (saveEntry s).entry.data.password = s.passwordEdit ∧
    (saveEntry s).entry.data.notes = s.notesEdit ∧
    (saveEntry s).entry.data.expires = s.expireCheck ∧
    (saveEntry s).entry.data.expiryTime = s.expireDatePicker.toUTC ∧
    (saveEntry s).entry.data.attributes = flushedAttributes s ∧
    (saveEntry s).entry.data.attributes = (saveEntry s).m_entryAttributes ∧
    (saveEntry s).entry.data.attachments = s.m_entryAttachments ∧
    (saveEntry s).entry.data.attachments = (saveEntry s).m_entryAttachments ∧
    (saveEntry s).entry.data.autoTypeEnabled = s.enableButton ∧
    (saveEntry s).entry.data.defaultAutoTypeSequence
      = (if s.inheritSequenceButton then "" else s.sequenceEdit) ∧
    (saveEntry s).m_saved = true ∧
    (saveEntry s).entry.data.uuid = s.entry.data.uuid := by
  obtain ⟨hd, ha, hat, hs⟩ := saveEntry_commit s hmode hpw
  rw [hd, ha, hat, hs]
  exact ⟨rfl, rfl, rfl, rfl, rfl, rfl, rfl, rfl, rfl, rfl, rfl, rfl, rfl, rfl, rfl⟩

/-- C13, at the sample session after the user typed a new title. -/
theorem commit_postcondition_witness :
    ({ sampleSession with titleEdit := "Mail 2" } : EditEntryWidget).m_history = false ∧
    ({ sampleSession with titleEdit := "Mail 2" } : EditEntryWidget).passwordEdit
      = ({ sampleSession with titleEdit := "Mail 2" } : EditEntryWidget).passwordRepeatEdit ∧
    (saveEntry { sampleSession with titleEdit := "Mail 2" }).entry.data.title = "Mail 2" ∧
    (saveEntry { sampleSession with titleEdit := "Mail 2" }).entry.data.uuid = 7 :=
  ⟨by decide, by decide,
    (commit_postcondition { sampleSession with titleEdit := "Mail 2" }
      (by decide) (by decide)).1,
    by decide⟩

/-! ### Upserting one attribute -/

theorem EntryAttributes.find_replaceFirst_self (k v : String) (p : Bool) :
    ∀ (items : List Attribute), k ∈ items.map Attribute.key →
      (EntryAttributes.replaceFirst k v p items).find? (fun x => x.key == k)
        = some ⟨k, v, p⟩
  | [], h => by simp at h
  | x :: xs, h => by
    by_cases hx : x.key = k
    · simp [EntryAttributes.replaceFirst, hx]
    · have hmem : k ∈ xs.map Attribute.key := by
        simp only [List.map_cons, List.mem_cons] at h
        rcases h with h | h
        · exact absurd h.symm hx
        · exact h
      simp [EntryAttributes.replaceFirst, hx, List.find?_cons,
        EntryAttributes.find_replaceFirst_self k v p xs hmem]

theorem EntryAttributes.find_replaceFirst_other (k v : String) (p : Bool) (k2 : String)
    (hne : k2 ≠ k) :
    ∀ (items : List Attribute),
      (EntryAttributes.replaceFirst k v p items).find? (fun x => x.key == k2)
        = items.find? (fun x => x.key == k2)
  | [] => rfl
  | x :: xs => by
    by_cases hx : x.key = k
    · have hx2 : ¬ x.key = k2 := fun h => hne (h.symm.trans hx)
      have hk : ¬ k = k2 := fun h => hne h.symm
      simp [EntryAttributes.replaceFirst, hx, List.find?_cons, hx2, hk]
    · by_cases hx2 : x.key = k2
      · simp [EntryAttributes.replaceFirst, List.find?_cons, hx2, hne]
      · simp [EntryAttributes.replaceFirst, hx, List.find?_cons, hx2,
          EntryAttributes.find_replaceFirst_other k v p k2 hne xs]

theorem EntryAttributes.keys_replaceFirst (k v : String) (p : Bool) :
    ∀ (items : List Attribute),
      (EntryAttributes.replaceFirst k v p items).map Attribute.key = items.map Attribute.key
  | [] => rfl
  | x :: xs => by
    by_cases hx : x.key = k
    · simp [EntryAttributes.replaceFirst, hx]
    · simp [EntryAttributes.replaceFirst, hx, EntryAttributes.keys_replaceFirst k v p xs]

/-- Upserting an attribute that exists: its value and flag are the ones given, the keys and
every other attribute are as before. -/
theorem EntryAttributes.set_of_mem (a : EntryAttributes) (k v : String) (p : Bool)
    (hk : k ∈ a.keys) :
    (a.set k v p).value k = v ∧ (a.set k v p).isProtected k = p ∧
    (a.set k v p).keys = a.keys ∧
    ∀ k2, k2 ≠ k →
      (a.set k v p).value k2 = a.value k2 ∧ (a.set k v p).isProtected k2 = a.isProtected k2 := by
  rcases a with ⟨items⟩
  have hc : (EntryAttributes.keys ⟨items⟩).contains k = true := by simpa using hk
  have hset : EntryAttributes.set ⟨items⟩ k v p = ⟨EntryAttributes.replaceFirst k v p items⟩ := by
    simp only [EntryAttributes.set, hc, if_true]
  rw [hset]
  refine ⟨?_, ?_, ?_, ?_⟩
  · simp only [EntryAttributes.value, EntryAttributes.find_replaceFirst_self k v p items hk]
  · simp only [EntryAttributes.isProtected,
      EntryAttributes.find_replaceFirst_self k v p items hk]
  · simp only [EntryAttributes.keys, EntryAttributes.keys_replaceFirst]
  · intro k2 hne
    simp only [EntryAttributes.value, EntryAttributes.isProtected,
      EntryAttributes.find_replaceFirst_other k v p k2 hne items, and_self]

/-- C14. Attribute flush at commit: after a successful `saveEntry` in edit or create mode,
if an attribute is selected and the attribute edit box is enabled, the value of the
selected attribute is the text of the edit box, its protection flag is the one it had,
and the keys, values and flags of all other attributes are as before; if no attribute is
selected or the edit box is disabled, the working-copy attributes are as before. In
particular a commit right after `displayAttribute` has put the placeholder of a protected
attribute into the edit box stores nothing, for the edit box is then disabled. -/
theorem attribute_flush_at_commit (s : EditEntryWidget) (hmode : s.m_history = false)
    (hpw : s.passwordEdit = s.passwordRepeatEdit) :
    (EntryAttributesModel.isValid s.m_entryAttributes s.attributesView = true →
      s.attributesEditEnabled = true →
      (saveEntry s).m_entryAttributes.value
          (EntryAttributesModel.keyByIndex s.m_entryAttributes s.attributesView)
        = s.attributesEdit ∧
      (saveEntry s).m_entryAttributes.isProtected
          (EntryAttributesModel.keyByIndex s.m_entryAttributes s.attributesView)
        = s.m_entryAttributes.isProtected
            (EntryAttributesModel.keyByIndex s.m_entryAttributes s.attributesView) ∧
      (saveEntry s).m_entryAttributes.keys = s.m_entryAttributes.keys ∧
      ∀ k, k ≠ EntryAttributesModel.keyByIndex s.m_entryAttributes s.attributesView →
        (saveEntry s).m_entryAttributes.value k = s.m_entryAttributes.value k ∧
        (saveEntry s).m_entryAttributes.isProtected k = s.m_entryAttributes.isProtected k) ∧
    ((EntryAttributesModel.isValid s.m_entryAttributes s.attributesView = false ∨
        s.attributesEditEnabled = false) →
      (saveEntry s).m_entryAttributes = s.m_entryAttributes) ∧
    (∀ index : Option Nat,
      (displayAttribute s index true).attributesEditEnabled = false ∧
      (saveEntry (displayAttribute s index true)).m_entryAttributes = s.m_entryAttributes) := by
  obtain ⟨-, ha, -, -⟩ := saveEntry_commit s hmode hpw
  refine ⟨?_, ?_, ?_⟩
  · intro hv he
    have hf : flushedAttributes s =
        s.m_entryAttributes.set
          (EntryAttributesModel.keyByIndex s.m_entryAttributes s.attributesView)
          s.attributesEdit
          (s.m_entryAttributes.isProtected
            (EntryAttributesModel.keyByIndex s.m_entryAttributes s.attributesView)) := by
      simp [flushedAttributes, hv, he]
    rw [ha, hf]
    exact EntryAttributes.set_of_mem _ _ _ _ (EntryAttributesModel.keyByIndex_mem _ _ hv)
  · intro h
    rw [ha]
    unfold flushedAttributes
    rcases h with h | h <;> simp [h]
  · intro index
    have hm : (displayAttribute s index true).m_history = false := by
      rw [displayAttribute_eq]; exact hmode
    have hp : (displayAttribute s index true).passwordEdit
        = (displayAttribute s index true).passwordRepeatEdit := by
      rw [displayAttribute_eq]; exact hpw
    obtain ⟨-, ha2, -, -⟩ := saveEntry_commit (displayAttribute s index true) hm hp
    have hen : (displayAttribute s index true).attributesEditEnabled = false := by
      rw [displayAttribute_eq]; simp
    refine ⟨hen, ?_⟩
    rw [ha2]
    unfold flushedAttributes
    simp only [hen, Bool.and_false, Bool.false_eq_true, if_false]
    rw [displayAttribute_eq]

/-- C14, at the sample session after the user typed into the edit box of the selected
attribute. -/
theorem attribute_flush_at_commit_witness :
    sampleSessionAttributeTyped.m_history = false ∧
    sampleSessionAttributeTyped.passwordEdit = sampleSessionAttributeTyped.passwordRepeatEdit ∧
    EntryAttributesModel.isValid sampleSessionAttributeTyped.m_entryAttributes
      sampleSessionAttributeTyped.attributesView = true ∧
    sampleSessionAttributeTyped.attributesEditEnabled = true ∧
    EntryAttributesModel.keyByIndex sampleSessionAttributeTyped.m_entryAttributes
      sampleSessionAttributeTyped.attributesView = "pin" ∧
    (saveEntry sampleSessionAttributeTyped).m_entryAttributes.value
        (EntryAttributesModel.keyByIndex sampleSessionAttributeTyped.m_entryAttributes
          sampleSessionAttributeTyped.attributesView)
      = sampleSessionAttributeTyped.attributesEdit ∧
    (saveEntry sampleSessionAttributeTyped).entry.data.attributes
      = ⟨[⟨"pin", "9999", false⟩]⟩ :=
  ⟨by decide, by decide, by decide, by decide, by decide,
    ((attribute_flush_at_commit sampleSessionAttributeTyped (by decide) (by decide)).1
      (by decide) (by decide)).1,
    by decide⟩

/-! ### Protected attributes -/

theorem EntryAttributesModel.congr_keys (a b : EntryAttributes) (h : a.keys = b.keys)
    (index : Option Nat) :
    EntryAttributesModel.isValid a index = EntryAttributesModel.isValid b index ∧
    EntryAttributesModel.keyByIndex a index = EntryAttributesModel.keyByIndex b index := by
  unfold EntryAttributesModel.isValid EntryAttributesModel.keyByIndex
  rw [h]
  exact ⟨rfl, rfl⟩

/-- Upserting an existing attribute with the flag it has keeps the keys and every flag. -/
theorem EntryAttributes.set_same_flag (a : EntryAttributes) (k v : String) (hk : k ∈ a.keys) :
    (a.set k v (a.isProtected k)).keys = a.keys ∧
    ∀ k2, (a.set k v (a.isProtected k)).isProtected k2 = a.isProtected k2 := by
  obtain ⟨-, h2, h3, h4⟩ := EntryAttributes.set_of_mem a k v (a.isProtected k) hk
  refine ⟨h3, ?_⟩
  intro k2
  by_cases hk2 : k2 = k
  · rw [hk2]; exact h2
  · exact (h4 k2 hk2).2

/-- The state in which a protected value is shown without a reveal, spelled out. -/
theorem protectedValueShown_eq_false (s : EditEntryWidget) (revealed : Bool) :
    protectedValueShown s revealed = false ↔
      (revealed = false →
        EntryAttributesModel.isValid s.m_entryAttributes s.attributesView = true →
        s.m_entryAttributes.isProtected
          (EntryAttributesModel.keyByIndex s.m_entryAttributes s.attributesView) = true →
        s.attributesEditEnabled = false ∧ s.attributesEdit = protectedPlaceholder) := by
  unfold protectedValueShown
  cases revealed <;>
    cases EntryAttributesModel.isValid s.m_entryAttributes s.attributesView <;>
    cases s.m_entryAttributes.isProtected
      (EntryAttributesModel.keyByIndex s.m_entryAttributes s.attributesView) <;>
    cases s.attributesEditEnabled <;> simp

theorem EntryAttributesModel.isProtected_transfer (a' a : EntryAttributes)
    (index : Option Nat) (hk : a'.keys = a.keys)
    (hp : a'.isProtected (EntryAttributesModel.keyByIndex a' index) = true) :
    a'.isProtected (EntryAttributesModel.keyByIndex a index) = true := by
  rw [← (EntryAttributesModel.congr_keys a' a hk index).2]
  exact hp

/-- After `displayAttribute` for the selected row no protected value is shown, provided the
flag passed is set when the selected attribute is protected. -/
theorem displayAttribute_hidden (t : EditEntryWidget) (p revealed : Bool)
    (h : EntryAttributesModel.isValid t.m_entryAttributes t.attributesView = true →
      t.m_entryAttributes.isProtected
        (EntryAttributesModel.keyByIndex t.m_entryAttributes t.attributesView) = true →
      p = true) :
    protectedValueShown (displayAttribute t t.attributesView p) revealed = false := by
  rw [protectedValueShown_eq_false, displayAttribute_eq]
  intro _ hv hp
  have hp2 := h hv hp
  subst hp2
  simp [hv, protectedPlaceholder]

theorem updateCurrentAttribute_hidden (s : EditEntryWidget) (revealed : Bool) :
    protectedValueShown (updateCurrentAttribute s) revealed = false := by
  unfold updateCurrentAttribute
  by_cases hc : (!s.m_history && s.m_currentAttribute != s.attributesView) = true
  · by_cases hf : (EntryAttributesModel.isValid s.m_entryAttributes s.m_currentAttribute
        && s.attributesEditEnabled) = true
    · simp only [hc, hf, if_true]
      have hv : EntryAttributesModel.isValid s.m_entryAttributes s.m_currentAttribute = true := by
        simp only [Bool.and_eq_true] at hf; exact hf.1
      obtain ⟨hk, -⟩ := EntryAttributes.set_same_flag s.m_entryAttributes
        (EntryAttributesModel.keyByIndex s.m_entryAttributes s.m_currentAttribute)
        s.attributesEdit (EntryAttributesModel.keyByIndex_mem _ _ hv)
      obtain ⟨-, hkey⟩ := EntryAttributesModel.congr_keys _ _ hk s.attributesView
      exact displayAttribute_hidden
        { s with
          m_entryAttributes :=
            s.m_entryAttributes.set
              (EntryAttributesModel.keyByIndex s.m_entryAttributes s.m_currentAttribute)
              s.attributesEdit
              (s.m_entryAttributes.isProtected
                (EntryAttributesModel.keyByIndex s.m_entryAttributes s.m_currentAttribute)) }
        _ revealed (fun _ hp => by rw [← hkey]; exact hp)
    · simp only [hc, hf, if_true]
      exact displayAttribute_hidden s _ revealed (fun _ hp => hp)
  · simp only [hc]
    exact displayAttribute_hidden s _ revealed (fun _ hp => hp)

theorem protectCurrentAttribute_hidden (s : EditEntryWidget) (state revealed : Bool)
    (hg : (!s.m_history
      && EntryAttributesModel.isValid s.m_entryAttributes s.attributesView) = true) :
    protectedValueShown (protectCurrentAttribute s state) revealed = false := by
  have hv : EntryAttributesModel.isValid s.m_entryAttributes s.attributesView = true := by
    simp only [Bool.and_eq_true] at hg; exact hg.2
  have hmem := EntryAttributesModel.keyByIndex_mem _ _ hv
  unfold protectCurrentAttribute
  simp only [hg, if_true]
  cases state with
  | true =>
    simp only [if_true]
    exact displayAttribute_hidden
      { s with
        m_entryAttributes :=
          s.m_entryAttributes.set
            (EntryAttributesModel.keyByIndex s.m_entryAttributes s.attributesView)
            s.attributesEdit true }
      true revealed (fun _ _ => rfl)
  | false =>
    simp only [Bool.false_eq_true, if_false]
    obtain ⟨-, hflag, hk, -⟩ := EntryAttributes.set_of_mem s.m_entryAttributes
      (EntryAttributesModel.keyByIndex s.m_entryAttributes s.attributesView)
      (s.m_entryAttributes.value
        (EntryAttributesModel.keyByIndex s.m_entryAttributes s.attributesView)) false hmem
    obtain ⟨-, hkey⟩ := EntryAttributesModel.congr_keys _ _ hk s.attributesView
    exact displayAttribute_hidden
      { s with
        m_entryAttributes :=
          s.m_entryAttributes.set
            (EntryAttributesModel.keyByIndex s.m_entryAttributes s.attributesView)
            (s.m_entryAttributes.value
              (EntryAttributesModel.keyByIndex s.m_entryAttributes s.attributesView)) false }
      false revealed
      (fun _ hp => by
        have hp' := EntryAttributesModel.isProtected_transfer _ _ s.attributesView hk hp
        rw [hflag] at hp'
        exact hp')

/-- The flush that opens `saveEntry` keeps the keys and every protection flag. -/
theorem flushedAttributes_flags (s : EditEntryWidget) :
    (flushedAttributes s).keys = s.m_entryAttributes.keys ∧
    ∀ k, (flushedAttributes s).isProtected k = s.m_entryAttributes.isProtected k := by
  unfold flushedAttributes
  by_cases hf : (EntryAttributesModel.isValid s.m_entryAttributes s.attributesView
      && s.attributesEditEnabled) = true
  · have hv : EntryAttributesModel.isValid s.m_entryAttributes s.attributesView = true := by
      simp only [Bool.and_eq_true] at hf; exact hf.1
    simp only [hf, if_true]
    exact EntryAttributes.set_same_flag _ _ _ (EntryAttributesModel.keyByIndex_mem _ _ hv)
  · simp only [hf]
    exact ⟨rfl, fun _ => rfl⟩

theorem prepared_hidden (s : EditEntryWidget) (revealed : Bool)
    (h : protectedValueShown s revealed = false) :
    protectedValueShown (prepared s) revealed = false := by
  rw [protectedValueShown_eq_false] at h ⊢
  obtain ⟨hk, hflag⟩ := flushedAttributes_flags s
  obtain ⟨hvalid, hkey⟩ := EntryAttributesModel.congr_keys _ _ hk s.attributesView
  intro hr hv hp
  have hv2 : EntryAttributesModel.isValid s.m_entryAttributes s.attributesView = true := by
    rw [← hvalid]; exact hv
  have hp2 : s.m_entryAttributes.isProtected
      (EntryAttributesModel.keyByIndex s.m_entryAttributes s.attributesView) = true := by
    rw [← hflag]
    exact EntryAttributesModel.isProtected_transfer _ _ s.attributesView hk hp
  exact h hr hv2 hp2

theorem saveEntry_hidden (s : EditEntryWidget) (revealed : Bool)
    (h : protectedValueShown s revealed = false) :
    protectedValueShown (saveEntry s) revealed = false := by
  cases hm : s.m_history with
  | true =>
    simp [saveEntry, hm, clear, hideMessage, emitEditFinished, protectedValueShown,
      EntryAttributesModel.isValid]
  | false =>
    by_cases hpw : s.passwordEdit = s.passwordRepeatEdit
    · cases hc : s.m_create with
      | false =>
        rw [saveEntry_edit s hm hc hpw]
        exact prepared_hidden s revealed h
      | true =>
        rw [saveEntry_create s hm hc hpw]
        exact prepared_hidden s revealed h
    · rw [password_mismatch_step s hm hpw]
      exact h

theorem setForms_hidden (s0 : EditEntryWidget) (R : Entry) (restore : Bool) :
    EntryAttributesModel.isValid (setForms s0 R restore).m_entryAttributes
        (setForms s0 R restore).attributesView = true →
      (setForms s0 R restore).m_entryAttributes.isProtected
        (EntryAttributesModel.keyByIndex (setForms s0 R restore).m_entryAttributes
          (setForms s0 R restore).attributesView) = true →
      (setForms s0 R restore).attributesEditEnabled = false ∧
      (setForms s0 R restore).attributesEdit = protectedPlaceholder := by
  unfold setForms
  by_cases h1 : (EntryAttributesModel.rowCount R.data.attributes != 0) = true <;>
  by_cases h2 : QString.isEmpty R.data.defaultAutoTypeSequence = true <;>
  by_cases h3 : (R.data.autoTypeAssociations.size != 0) = true <;>
  by_cases h4 : (!s0.m_history && !restore) = true <;>
  simp [h1, h2, h3, h4, setCurrentAttributeIndex, updateCurrentAttribute_of_none,
    displayAttribute_eq, loadCurrentAssoc_eq, clearCurrentAssoc, updateAutoTypeEnabled,
    EntryAttributes.copyCustomKeysFrom, EntryAttachments.copyDataFrom,
    AutoTypeAssociations.copyDataFrom, EntryHistoryModel.setEntries, QDateTime.toLocalTime,
    protectedPlaceholder] <;>
  first
    | (intro hv hp; simp [hv, hp])
    | (intro hv; simp [EntryAttributesModel.isValid] at hv)

theorem loadEntry_hidden (s0 : EditEntryWidget) (R : Entry) (create history : Bool)
    (parentName : String) (db : Database) :
    protectedValueShown (loadEntry s0 R create history parentName db) false = false := by
  rw [protectedValueShown_eq_false, loadEntry_eq]
  intro _
  exact setForms_hidden _ R false

/-- No action on the selected attribute makes a protected value appear without a reveal. -/
theorem AttributeAction.apply_hidden (a : AttributeAction) (s : EditEntryWidget)
    (revealed : Bool) (h : protectedValueShown s revealed = false) :
    protectedValueShown (a.apply s) (a.revealedAfter s revealed) = false := by
  cases a with
  | select i =>
    simp only [AttributeAction.apply, AttributeAction.revealedAfter, setCurrentAttributeIndex]
    by_cases hi : s.attributesView = i
    · simp only [hi, if_true]
      exact h
    · simp only [hi, if_false]
      exact updateCurrentAttribute_hidden _ false
  | update => exact updateCurrentAttribute_hidden s false
  | protect b =>
    simp only [AttributeAction.apply, AttributeAction.revealedAfter]
    by_cases hg : (!s.m_history
        && EntryAttributesModel.isValid s.m_entryAttributes s.attributesView) = true
    · simp only [hg, if_true]
      exact protectCurrentAttribute_hidden s b false hg
    · have hs : protectCurrentAttribute s b = s := by
        unfold protectCurrentAttribute
        simp only [hg]
        rfl
      simp only [hg, hs]
      exact h
  | reveal => simp [AttributeAction.revealedAfter, protectedValueShown]
  | save => exact saveEntry_hidden s revealed h

theorem runAttributeActions_hidden (actions : List AttributeAction) :
    ∀ (start : EditEntryWidget × Bool), protectedValueShown start.1 start.2 = false →
      protectedValueShown (runAttributeActions actions start).1
        (runAttributeActions actions start).2 = false := by
  induction actions with
  | nil => intro start h; exact h
  | cons a rest ih =>
    intro start h
    have h1 := AttributeAction.apply_hidden a start.1 start.2 h
    have h2 := ih (a.apply start.1, a.revealedAfter start.1 start.2) h1
    simpa only [runAttributeActions, List.foldl_cons] using h2

/-- C15. Protected values stay hidden until revealed: in every state reached from `loadEntry`
by selecting rows, `updateCurrentAttribute`, `protectCurrentAttribute`,
`revealCurrentAttribute` and `saveEntry`, if the selected attribute is protected and
`revealCurrentAttribute` has not been called since it was selected or protected, the
attribute edit box is disabled and holds the placeholder text. The value gets into the
edit box by `revealCurrentAttribute`, which puts it there and enables the box. -/
theorem protected_hidden_until_revealed (s0 : EditEntryWidget) (R : Entry)
    (create history : Bool) (parentName : String) (db : Database)
    (actions : List AttributeAction) :
    protectedValueShown
      (runAttributeActions actions (loadEntry s0 R create history parentName db, false)).1
      (runAttributeActions actions (loadEntry s0 R create history parentName db, false)).2
      = false ∧
    ((runAttributeActions actions (loadEntry s0 R create history parentName db, false)).2
        = false →
      EntryAttributesModel.isValid
        (runAttributeActions actions
          (loadEntry s0 R create history parentName db, false)).1.m_entryAttributes
        (runAttributeActions actions
          (loadEntry s0 R create history parentName db, false)).1.attributesView = true →
      (runAttributeActions actions
          (loadEntry s0 R create history parentName db, false)).1.m_entryAttributes.isProtected
        (EntryAttributesModel.keyByIndex
          (runAttributeActions actions
            (loadEntry s0 R create history parentName db, false)).1.m_entryAttributes
          (runAttributeActions actions
            (loadEntry s0 R create history parentName db, false)).1.attributesView) = true →
      (runAttributeActions actions
          (loadEntry s0 R create history parentName db, false)).1.attributesEditEnabled = false ∧
      (runAttributeActions actions
          (loadEntry s0 R create history parentName db, false)).1.attributesEdit
        = protectedPlaceholder) ∧
    (∀ s : EditEntryWidget, s.attributesEditEnabled = false →
      EntryAttributesModel.isValid s.m_entryAttributes s.attributesView = true →
      (revealCurrentAttribute s).attributesEdit
        = s.m_entryAttributes.value
            (EntryAttributesModel.keyByIndex s.m_entryAttributes s.attributesView) ∧
      (revealCurrentAttribute s).attributesEditEnabled = true) := by
  have h := runAttributeActions_hidden actions
    (loadEntry s0 R create history parentName db, false)
    (loadEntry_hidden s0 R create history parentName db)
  refine ⟨h, (protectedValueShown_eq_false _ _).mp h, ?_⟩
  intro s he hv
  simp [revealCurrentAttribute, he, hv]

/-! ### Restoring a history entry -/

/-- With `restore` set, `setForms` leaves the history model and the selection of the history
view alone. -/
theorem setForms_restore_model (s0 : EditEntryWidget) (R : Entry) :
    (setForms s0 R true).m_historyModel = s0.m_historyModel ∧
    (setForms s0 R true).historyView = s0.historyView := by
  unfold setForms
  by_cases h1 : (EntryAttributesModel.rowCount R.data.attributes != 0) = true <;>
  by_cases h2 : QString.isEmpty R.data.defaultAutoTypeSequence = true <;>
  by_cases h3 : (R.data.autoTypeAssociations.size != 0) = true <;>
  simp [h1, h2, h3, setCurrentAttributeIndex, updateCurrentAttribute_of_none,
    displayAttribute_eq, loadCurrentAssoc_eq, clearCurrentAssoc, updateAutoTypeEnabled,
    EntryAttributes.copyCustomKeysFrom, EntryAttachments.copyDataFrom,
    AutoTypeAssociations.copyDataFrom, QDateTime.toLocalTime]

theorem EntryHistoryModel.isValid_of_row (m : EntryHistoryModel) (index : Option Nat)
    (item : HistoryItem) (hrow : m.entryFromIndex index = some item) :
    m.isValid index = true ∧ ∃ i, index = some i ∧ m.historyEntries[i]? = some item := by
  unfold EntryHistoryModel.entryFromIndex at hrow
  unfold EntryHistoryModel.isValid
  cases index with
  | none => simp at hrow
  | some i =>
    refine ⟨?_, i, rfl, hrow⟩
    simp only [decide_eq_true_eq]
    by_contra hlt
    have hnone : m.historyEntries[i]? = none :=
      List.getElem?_eq_none (Nat.le_of_not_lt hlt)
    simp only [hnone] at hrow
    exact Option.noConfusion hrow

theorem restoreHistoryEntry_eq (s : EditEntryWidget) (item : HistoryItem)
    (hrow : s.m_historyModel.entryFromIndex s.historyView = some item) :
    restoreHistoryEntry s = setForms s (Entry.ofSnapshot item.data) true := by
  have hv : s.m_historyModel.isValid s.historyView = true := by
    unfold EntryHistoryModel.entryFromIndex at hrow
    unfold EntryHistoryModel.isValid
    cases hi : s.historyView with
    | none => rw [hi] at hrow; simp at hrow
    | some i =>
      rw [hi] at hrow
      simp only [decide_eq_true_eq]
      by_contra hlt
      have hnone : s.m_historyModel.historyEntries[i]? = none :=
        List.getElem?_eq_none (Nat.le_of_not_lt hlt)
      simp only [hnone] at hrow
      exact Option.noConfusion hrow
  unfold restoreHistoryEntry
  simp only [hv, if_true, hrow]

/-- C16. Restoring a history entry does not touch the history: for a valid row of the
history view, `restoreHistoryEntry` sets the form fields and the working copy
(attributes, attachments, associations) to the values of that snapshot, and leaves the
list of snapshots of the history model, the list of snapshots staged for deletion, and
the Record with its history unchanged. -/
theorem restore_keeps_history (s : EditEntryWidget) (item : HistoryItem)
    (hrow : s.m_historyModel.entryFromIndex s.historyView = some item) :
    (restoreHistoryEntry s).titleEdit = item.data.title ∧
    (restoreHistoryEntry s).usernameEdit = item.data.username ∧
    (restoreHistoryEntry s).urlEdit = item.data.url ∧
    (restoreHistoryEntry s).passwordEdit = item.data.password ∧
    (restoreHistoryEntry s).passwordRepeatEdit = item.data.password ∧
    (restoreHistoryEntry s).notesEdit = item.data.notes ∧
    (restoreHistoryEntry s).expireCheck = item.data.expires ∧
    (restoreHistoryEntry s).expireDatePicker = item.data.expiryTime.toLocalTime ∧
    (restoreHistoryEntry s).m_entryAttributes = item.data.attributes ∧
    (restoreHistoryEntry s).m_entryAttachments = item.data.attachments ∧
    (restoreHistoryEntry s).m_autoTypeAssoc = item.data.autoTypeAssociations ∧
    (restoreHistoryEntry s).m_historyModel.historyEntries = s.m_historyModel.historyEntries ∧
    (restoreHistoryEntry s).m_historyModel.deletedEntries = s.m_historyModel.deletedEntries ∧
    (restoreHistoryEntry s).entry = s.entry := by
  rw [restoreHistoryEntry_eq s item hrow]
  obtain ⟨he, -, -, -, -, -, -, -, h1, h2, h3, h4, h5, h6, h7, h8, h9, h10, h11, -, -, -, -,
    -⟩ := setForms_fields s (Entry.ofSnapshot item.data) true
  obtain ⟨hm, -⟩ := setForms_restore_model s (Entry.ofSnapshot item.data)
  rw [hm]
  exact ⟨h1, h2, h3, h4, h5, h8, h6, h7, h9, h10, h11, rfl, rfl, he⟩

/-- C16, at the sample session with its only history row selected. -/
theorem restore_keeps_history_witness :
    sampleSessionRowSelected.m_historyModel.entryFromIndex sampleSessionRowSelected.historyView
      = some ⟨1, sampleSnapshot⟩ ∧
    (restoreHistoryEntry sampleSessionRowSelected).titleEdit = "Mail (old)" ∧
    (restoreHistoryEntry sampleSessionRowSelected).entry = sampleEntry :=
  ⟨by decide,
    (restore_keeps_history sampleSessionRowSelected ⟨1, sampleSnapshot⟩ (by decide)).1,
    by decide⟩

/-! ### Deferred deletion of history entries -/

theorem resetDanglingIcon_history (e : Entry) (db : Database) :
    (resetDanglingIcon e db).historyItems = e.historyItems := by
  unfold resetDanglingIcon
  cases e.iconUuid with
  | none => rfl
  | some u => dsimp only; split_ifs <;> rfl

/-- After `cancel` the history model is empty: nothing is shown and nothing staged. -/
theorem cancel_model (s : EditEntryWidget) :
    (cancel s).m_historyModel = ⟨[], []⟩ := by
  unfold cancel
  cases hm : s.m_history with
  | true => simp [clear, hideMessage, emitEditFinished, EntryHistoryModel.clear]
  | false =>
    simp only [Bool.false_eq_true, if_false]
    cases s.entry.iconUuid with
    | none => simp [clear, hideMessage, emitEditFinished, EntryHistoryModel.clear]
    | some u =>
      by_cases hc : s.database.containsCustomIcon u = true <;>
        simp [hc, clear, hideMessage, emitEditFinished, EntryHistoryModel.clear]

/-- The history of the Record after a successful commit, in edit or create mode: the former
history without the items whose address is staged, followed by at most one pushed item. -/
theorem saveEntry_history (s : EditEntryWidget) (hmode : s.m_history = false)
    (hpw : s.passwordEdit = s.passwordRepeatEdit) :
    ∃ pushed : List HistoryItem, pushed.length ≤ 1 ∧
      (saveEntry s).entry.historyItems =
        s.entry.historyItems.filter
            (fun h => decide
              (h.address ∉ s.m_historyModel.deletedEntries.map HistoryItem.address))
          ++ pushed ∧
      (saveEntry s).m_historyModel.deletedEntries = [] := by
  have hk : keptHistory s =
      s.entry.historyItems.filter
        (fun h => decide
          (h.address ∉ s.m_historyModel.deletedEntries.map HistoryItem.address)) := by
    unfold keptHistory
    apply List.filter_congr
    intro h _
    rw [contains_address]
    by_cases hm : h.address ∈ s.m_historyModel.deletedEntries.map HistoryItem.address
    · rw [decide_eq_true hm, decide_eq_false (fun hn => hn hm)]; rfl
    · rw [decide_eq_false hm, decide_eq_true hm]; rfl
  rw [← hk]
  cases hc : s.m_create with
  | false =>
    rw [saveEntry_edit s hmode hc hpw]
    refine ⟨if s.entry.data = committedData s then [] else [pushedItem s], ?_, rfl, rfl⟩
    split_ifs <;> simp
  | true =>
    rw [saveEntry_create s hmode hc hpw]
    exact ⟨[], by simp, by simp, rfl⟩

/-- What `deleteIndex` does to a row of the history model: that row, and no other, leaves
the rows, and its item is staged. -/
theorem EntryHistoryModel.deleteIndex_row (m : EntryHistoryModel) (i : Nat)
    (item : HistoryItem) (hrow : m.historyEntries[i]? = some item) :
    (m.deleteIndex (some i)).historyEntries = m.historyEntries.eraseIdx i ∧
    (m.deleteIndex (some i)).deletedEntries = m.deletedEntries ++ [item] := by
  simp [EntryHistoryModel.deleteIndex, hrow, EntryHistoryModel.deletedEntries]

/-- C17. Deferred history deletion: outside a history view, `deleteHistoryEntry` and
`deleteAllHistoryEntries` stage items in the history model and leave the Record as it is:
`deleteHistoryEntry` takes the selected row, and no other row, out of the rows shown and
stages its item, also when another row holds an equal snapshot; `deleteAllHistoryEntries`
stages all rows. So does any sequence of actions that holds no commit, and when the
session is then closed with `cancel` the history of the Record is still the one it had
and the staged list is dropped. A `saveEntry` that fails on the passwords leaves the
Record as it is too. The history loses the staged items in a successful `saveEntry`,
which leaves the former history without the items whose address is staged, followed by
at most one pushed item. -/
theorem deferred_history_deletion (s : EditEntryWidget) (edits : List Edit)
    (hmode : s.m_history = false) :
    ((deleteHistoryEntry s).entry = s.entry ∧
      ∀ i h, s.historyView = some i → s.m_historyModel.historyEntries[i]? = some h →
        (deleteHistoryEntry s).m_historyModel.deletedEntries
          = s.m_historyModel.deletedEntries ++ [h] ∧
        (deleteHistoryEntry s).m_historyModel.historyEntries
          = s.m_historyModel.historyEntries.eraseIdx i) ∧
    ((deleteAllHistoryEntries s).entry = s.entry ∧
      (deleteAllHistoryEntries s).m_historyModel.deletedEntries
        = s.m_historyModel.deletedEntries ++ s.m_historyModel.historyEntries ∧
      (deleteAllHistoryEntries s).m_historyModel.historyEntries = []) ∧
    (applyEdits edits s).entry = s.entry ∧
    (cancel (applyEdits edits s)).entry.historyItems = s.entry.historyItems ∧
    (cancel (applyEdits edits s)).m_historyModel.deletedEntries = [] ∧
    (s.passwordEdit ≠ s.passwordRepeatEdit → (saveEntry s).entry = s.entry) ∧
    (s.passwordEdit = s.passwordRepeatEdit →
      ∃ pushed : List HistoryItem, pushed.length ≤ 1 ∧
        (saveEntry s).entry.historyItems =
          s.entry.historyItems.filter
              (fun h => decide
                (h.address ∉ s.m_historyModel.deletedEntries.map HistoryItem.address))
            ++ pushed ∧
        (saveEntry s).m_historyModel.deletedEntries = []) := by
  obtain ⟨he, hh⟩ := applyEdits_frame edits s
  obtain ⟨hc, -⟩ := cancel_entry (applyEdits edits s) (hh.trans hmode)
  refine ⟨⟨(Edit.apply_frame Edit.deleteHistoryRow s).1, ?_⟩,
    ⟨rfl, rfl, rfl⟩, he, ?_, ?_, ?_, saveEntry_history s hmode⟩
  · intro i h hview hrow
    have hv : s.m_historyModel.isValid s.historyView = true :=
      (EntryHistoryModel.isValid_of_row s.m_historyModel s.historyView h
        (by rw [hview]; exact hrow)).1
    obtain ⟨h1, h2⟩ := EntryHistoryModel.deleteIndex_row s.m_historyModel i h hrow
    rw [hview] at hv
    simp only [deleteHistoryEntry, hview, hv, if_true]
    exact ⟨h2, h1⟩
  · rw [hc, resetDanglingIcon_history, he]
  · rw [cancel_model]
    rfl
  · intro hpw
    rw [password_mismatch_step s hmode hpw]

/-- C17, at the session on the Record whose history holds three items, the first and the
third with equal snapshots: the user selects the first row and stages it, which leaves the
Record alone and the other two rows in the model; a cancel leaves the history as it was,
a commit removes the first item only. -/
theorem deferred_history_deletion_witness :
    sampleSessionTwinsLoaded.m_history = false ∧
    (deleteHistoryEntry { sampleSessionTwinsLoaded with historyView := some 0 }).entry
      = sampleEntryTwins ∧
    (deleteHistoryEntry
        { sampleSessionTwinsLoaded with historyView := some 0 }).m_historyModel
      = ⟨[⟨2, sampleEntry.data⟩, ⟨3, sampleSnapshot⟩], [⟨1, sampleSnapshot⟩]⟩ ∧
    (cancel (applyEdits [Edit.selectHistoryRow (some 0), Edit.deleteHistoryRow]
        sampleSessionTwinsLoaded)).entry.historyItems
      = sampleSessionTwinsLoaded.entry.historyItems ∧
    (saveEntry (applyEdits [Edit.selectHistoryRow (some 0), Edit.deleteHistoryRow]
        sampleSessionTwinsLoaded)).entry.historyItems
      = [⟨2, sampleEntry.data⟩, ⟨3, sampleSnapshot⟩] :=
  ⟨by decide, by decide, by decide,
    (deferred_history_deletion sampleSessionTwinsLoaded
      [Edit.selectHistoryRow (some 0), Edit.deleteHistoryRow] (by decide)).2.2.2.1,
    by decide⟩

/-! ### The checks of the custom auto-type sequence -/

/-- C18. Advisory auto-type validation: when the custom sequence button is selected,
`updateEntryData` stores exactly the text of the sequence field as the default auto-type
sequence of the Record. Whatever the syntax check and the repetition check answer
(`syntaxOk` and `repetitionOk` stand for arbitrary answers), the entry written is the
same in every field as with the checks of the source, and a commit with equal passwords
succeeds and stores the text. -/
theorem advisory_validation (syntaxOk repetitionOk : String → Bool) (s : EditEntryWidget)
    (e : Entry) (hcustom : s.inheritSequenceButton = false) :
    (updateEntryData s e).data.defaultAutoTypeSequence = s.sequenceEdit ∧
    updateEntryDataWith syntaxOk repetitionOk s e = updateEntryData s e ∧
    (s.m_history = false → s.passwordEdit = s.passwordRepeatEdit →
      (saveEntry s).m_saved = true ∧
      (saveEntry s).entry.data.defaultAutoTypeSequence = s.sequenceEdit) := by
  refine ⟨?_, ?_, ?_⟩
  · rw [updateEntryData_eq]
    simp [formData, hcustom]
  · rw [updateEntryDataWith_eq, updateEntryData_eq]
  · intro hmode hpw
    obtain ⟨hd, -, -, hs⟩ := saveEntry_commit s hmode hpw
    rw [hd]
    refine ⟨hs, ?_⟩
    show (if s.inheritSequenceButton = true then "" else s.sequenceEdit) = s.sequenceEdit
    simp [hcustom]

/-- C18, at the sample session with a custom sequence that fails the syntax check and holds
four digits in a row: the text is stored all the same. -/
theorem advisory_validation_witness :
    sampleSessionCustomSequence.inheritSequenceButton = false ∧
    autoTypeSyntax_exactMatch sampleSessionCustomSequence.sequenceEdit = false ∧
    highRepetition_exactMatch sampleSessionCustomSequence.sequenceEdit = true ∧
    (updateEntryData sampleSessionCustomSequence sampleEntry).data.defaultAutoTypeSequence
      = sampleSessionCustomSequence.sequenceEdit ∧
    (saveEntry sampleSessionCustomSequence).entry.data.defaultAutoTypeSequence
      = "hello 1234" :=
  ⟨by decide, by decide, by decide,
    (advisory_validation autoTypeSyntax_exactMatch highRepetition_exactMatch
      sampleSessionCustomSequence sampleEntry (by decide)).1,
    by decide⟩

/-! ### Upserting one attachment -/

theorem EntryAttachments.find_replaceFirst (k : String) (v : QByteArray) (k2 : String) :
    ∀ (items : List (String × QByteArray)), k ∈ items.map Prod.fst →
      (EntryAttachments.replaceFirst k v items).find? (fun x => x.1 == k2)
        = if k2 = k then some (k, v) else items.find? (fun x => x.1 == k2)
  | [], h => by simp at h
  | x :: xs, h => by
    by_cases hx : x.1 = k
    · by_cases hk : k2 = k
      · simp [EntryAttachments.replaceFirst, hx, hk]
      · have hk' : ¬ k = k2 := fun h => hk h.symm
        simp [EntryAttachments.replaceFirst, hx, hk, hk', List.find?_cons]
    · have hmem : k ∈ xs.map Prod.fst := by
        simp only [List.map_cons, List.mem_cons] at h
        rcases h with h | h
        · exact absurd h.symm hx
        · exact h
      have ih := EntryAttachments.find_replaceFirst k v k2 xs hmem
      by_cases hx2 : x.1 = k2
      · have hk : ¬ k2 = k := fun h => hx (hx2.trans h)
        simp [EntryAttachments.replaceFirst, hx, hx2, hk, List.find?_cons]
      · simp [EntryAttachments.replaceFirst, hx, hx2, List.find?_cons, ih]

theorem EntryAttachments.fileNames_replaceFirst (k : String) (v : QByteArray) :
    ∀ (items : List (String × QByteArray)), k ∈ items.map Prod.fst →
      (EntryAttachments.replaceFirst k v items).map Prod.fst = items.map Prod.fst
  | [], _ => rfl
  | x :: xs, h => by
    by_cases hx : x.1 = k
    · simp [EntryAttachments.replaceFirst, hx]
    · have hmem : k ∈ xs.map Prod.fst := by
        simp only [List.map_cons, List.mem_cons] at h
        rcases h with h | h
        · exact absurd h.symm hx
        · exact h
      simp [EntryAttachments.replaceFirst, hx, EntryAttachments.fileNames_replaceFirst k v xs hmem]

theorem EntryAttachments.find_none_of_not_mem (k : String) :
    ∀ (items : List (String × QByteArray)), k ∉ items.map Prod.fst →
      items.find? (fun x => x.1 == k) = none
  | [], _ => rfl
  | x :: xs, h => by
    simp only [List.map_cons, List.mem_cons, not_or] at h
    have hx : ¬ x.1 = k := fun e => h.1 e.symm
    simp [List.find?_cons, hx, EntryAttachments.find_none_of_not_mem k xs h.2]

/-- Upserting an attachment: the payload under its name is the one given, the name is a
key, and the payload and presence of every other name are as before. -/
theorem EntryAttachments.set_spec (a : EntryAttachments) (k : String) (v : QByteArray)
    (k2 : String) :
    (a.set k v).value k2 = (if k2 = k then v else a.value k2) ∧
    (a.set k v).hasKey k2 = (decide (k2 = k) || a.hasKey k2) := by
  rcases a with ⟨items⟩
  by_cases hk : k ∈ items.map Prod.fst
  · have hc : EntryAttachments.hasKey ⟨items⟩ k = true := by
      simpa [EntryAttachments.hasKey, EntryAttachments.keys] using hk
    have hset : EntryAttachments.set ⟨items⟩ k v
        = ⟨EntryAttachments.replaceFirst k v items⟩ := by
      simp only [EntryAttachments.set, hc, if_true]
    rw [hset]
    constructor
    · simp only [EntryAttachments.value, EntryAttachments.find_replaceFirst k v k2 items hk]
      by_cases h2 : k2 = k <;> simp [h2]
    · simp only [EntryAttachments.hasKey, EntryAttachments.keys,
        EntryAttachments.fileNames_replaceFirst k v items hk]
      by_cases h2 : k2 = k
      · subst h2
        simpa using hk
      · simp [h2]
  · have hc : EntryAttachments.hasKey ⟨items⟩ k = false := by
      simpa [EntryAttachments.hasKey, EntryAttachments.keys] using hk
    have hset : EntryAttachments.set ⟨items⟩ k v = ⟨items ++ [(k, v)]⟩ := by
      simp [EntryAttachments.set, hc]
    rw [hset]
    constructor
    · simp only [EntryAttachments.value, List.find?_append]
      by_cases h2 : k2 = k
      · subst h2
        simp [EntryAttachments.find_none_of_not_mem k2 items hk]
      · have h2' : ¬ k = k2 := fun h => h2 h.symm
        cases hfind : items.find? (fun x => x.1 == k2) <;> simp [h2, h2']
    · simp only [EntryAttachments.hasKey, EntryAttachments.keys, List.map_append,
        List.map_cons, List.map_nil]
      by_cases h2 : k2 = k
      · simp [h2]
      · have h2' : ¬ k = k2 := fun h => h2 h.symm
        simp [h2, h2']

/-! ### Inserting attachments -/

theorem errorLines_cons (f : ChosenFile) (fs : List ChosenFile) :
    errorLines (f :: fs) =
      (match f.content with
        | none => [QFileInfo.fileName f.path ++ " - " ++ f.errorString]
        | some _ => []) ++ errorLines fs := by
  unfold errorLines
  cases hc : f.content <;> simp [List.filter_cons, hc]

/-- What the loop of `insertAttachments` leaves: the error lines of the unreadable files
appended to the lines it started with, and under every name the content of the last
readable file of that name, or what was there before. -/
theorem insertAttachmentsLoop_spec :
    ∀ (files : List ChosenFile) (a : EntryAttachments) (errs : List String),
      (insertAttachmentsLoop files a errs).2 = errs ++ errorLines files ∧
      ∀ name,
        (insertAttachmentsLoop files a errs).1.value name
          = (lastReadable files name).getD (a.value name) ∧
        (insertAttachmentsLoop files a errs).1.hasKey name
          = ((lastReadable files name).isSome || a.hasKey name)
  | [], a, errs => by
    simp [insertAttachmentsLoop, errorLines, lastReadable]
  | f :: fs, a, errs => by
    cases hc : f.content with
    | none =>
      obtain ⟨h1, h2⟩ := insertAttachmentsLoop_spec fs a
        (errs ++ [QFileInfo.fileName f.path ++ " - " ++ f.errorString])
      have hloop : insertAttachmentsLoop (f :: fs) a errs
          = insertAttachmentsLoop fs a
              (errs ++ [QFileInfo.fileName f.path ++ " - " ++ f.errorString]) := by
        simp only [insertAttachmentsLoop, hc]
      rw [hloop, errorLines_cons, hc]
      refine ⟨by rw [h1]; simp, ?_⟩
      intro name
      have hl : lastReadable (f :: fs) name = lastReadable fs name := by
        simp only [lastReadable, hc]
        cases lastReadable fs name <;> rfl
      rw [hl]
      exact h2 name
    | some data =>
      obtain ⟨h1, h2⟩ := insertAttachmentsLoop_spec fs
        (a.set (QFileInfo.fileName f.path) data) errs
      have hloop : insertAttachmentsLoop (f :: fs) a errs
          = insertAttachmentsLoop fs (a.set (QFileInfo.fileName f.path) data) errs := by
        simp only [insertAttachmentsLoop, hc]
      rw [hloop, errorLines_cons, hc]
      refine ⟨by rw [h1]; simp, ?_⟩
      intro name
      obtain ⟨hv, hk⟩ := h2 name
      obtain ⟨sv, sk⟩ := EntryAttachments.set_spec a (QFileInfo.fileName f.path) data name
      rw [hv, hk, sv, sk]
      simp only [lastReadable, hc]
      cases lastReadable fs name with
      | some d => simp
      | none =>
        by_cases hn : name = QFileInfo.fileName f.path
        · simp [hn]
        · have hn' : ¬ QFileInfo.fileName f.path = name := fun h => hn h.symm
          simp [hn, hn']

theorem lastReadable_isSome_of_mem :
    ∀ (files : List ChosenFile) (f : ChosenFile) (data : QByteArray), f ∈ files →
      f.content = some data → (lastReadable files (QFileInfo.fileName f.path)).isSome = true
  | [], f, _, h, _ => by simp at h
  | g :: gs, f, data, h, hc => by
    simp only [lastReadable]
    cases hl : lastReadable gs (QFileInfo.fileName f.path) with
    | some d => rfl
    | none =>
      simp only [List.mem_cons] at h
      rcases h with h | h
      · subst h
        simp [hc]
      · have := lastReadable_isSome_of_mem gs f data h hc
        rw [hl] at this
        simp at this

/-- The session after `insertAttachments`: only the attachments and the message can have
changed. -/
theorem insertAttachments_eq (s : EditEntryWidget) (files : List ChosenFile) :
    insertAttachments s files =
      { s with
        m_entryAttachments := (insertAttachmentsLoop files s.m_entryAttachments []).1
        message :=
          if errorLines files = [] then s.message
          else some ("Unable to open files:\n" ++ "\n".intercalate (errorLines files)) } := by
  obtain ⟨herr, -⟩ := insertAttachmentsLoop_spec files s.m_entryAttachments []
  rw [List.nil_append] at herr
  unfold insertAttachments
  cases files with
  | nil => simp [insertAttachmentsLoop, errorLines]
  | cons f fs =>
    simp only [List.isEmpty_cons, Bool.false_eq_true, if_false, herr]
    by_cases he : errorLines (f :: fs) = []
    · simp [he]
    · have he2 : (errorLines (f :: fs)).isEmpty = false := by
        simpa [List.isEmpty_iff] using he
      simp [he, he2, showMessage]

/-- C19. Batch attachment insert has partial-failure semantics. After `insertAttachments`
on the chosen files: every file that could be read has its file name as a key of the
working-copy attachments; under each name the content is that of the last readable file
of that name, so a later file overwrites an earlier one of the same name; names no
readable file has keep the payload and presence they had; the loop collects one error
line per unreadable file, in order; the aggregate message is shown exactly when at least
one file failed, else the message is as before; and nothing else of the session
changes. -/
theorem insert_attachments_partial_failure (s : EditEntryWidget) (files : List ChosenFile) :
    (∀ f data, f ∈ files → f.content = some data →
      (insertAttachments s files).m_entryAttachments.hasKey (QFileInfo.fileName f.path)
        = true) ∧
    (∀ name data, lastReadable files name = some data →
      (insertAttachments s files).m_entryAttachments.value name = data) ∧
    (∀ name, lastReadable files name = none →
      (insertAttachments s files).m_entryAttachments.value name
        = s.m_entryAttachments.value name ∧
      (insertAttachments s files).m_entryAttachments.hasKey name
        = s.m_entryAttachments.hasKey name) ∧
    (insertAttachmentsLoop files s.m_entryAttachments []).2 = errorLines files ∧
    (errorLines files).length = (files.filter (fun f => f.content.isNone)).length ∧
    (insertAttachments s files).message =
      (if errorLines files = [] then s.message
        else some ("Unable to open files:\n" ++ "\n".intercalate (errorLines files))) ∧
    (errorLines files = [] ↔ ∀ f ∈ files, f.content.isSome = true) ∧
    insertAttachments s files =
      { s with
        m_entryAttachments := (insertAttachments s files).m_entryAttachments
        message := (insertAttachments s files).message } := by
  obtain ⟨herr, hval⟩ := insertAttachmentsLoop_spec files s.m_entryAttachments []
  rw [List.nil_append] at herr
  have heq := insertAttachments_eq s files
  have hatt : (insertAttachments s files).m_entryAttachments
      = (insertAttachmentsLoop files s.m_entryAttachments []).1 := by rw [heq]
  have hmsg : (insertAttachments s files).message =
      (if errorLines files = [] then s.message
        else some ("Unable to open files:\n" ++ "\n".intercalate (errorLines files))) := by
    rw [heq]
  refine ⟨?_, ?_, ?_, herr, ?_, hmsg, ?_, ?_⟩
  · intro f data hf hc
    rw [hatt, (hval _).2, lastReadable_isSome_of_mem files f data hf hc]
    rfl
  · intro name data hl
    rw [hatt, (hval name).1, hl]
    rfl
  · intro name hl
    rw [hatt, (hval name).1, (hval name).2, hl]
    exact ⟨rfl, by simp⟩
  · simp [errorLines]
  · unfold errorLines
    simp only [List.map_eq_nil_iff, List.filter_eq_nil_iff]
    constructor
    · intro h f hf
      have := h f hf
      cases hc : f.content <;> simp_all
    · intro h f hf
      have := h f hf
      cases hc : f.content <;> simp_all
  · rw [hatt, hmsg, heq]

/-- C19, at the sample session and three chosen files, two readable ones of the same name and
an unreadable one. -/
theorem insert_attachments_partial_failure_witness :
    lastReadable sampleChosenFiles "key.txt" = some [2, 3] ∧
    (insertAttachments sampleSession sampleChosenFiles).m_entryAttachments.value "key.txt"
      = [2, 3] ∧
    (insertAttachments sampleSession sampleChosenFiles).m_entryAttachments.value "a.txt"
      = [1, 2] ∧
    errorLines sampleChosenFiles = ["gone.bin - No such file"] ∧
    (insertAttachments sampleSession sampleChosenFiles).message
      = some "Unable to open files:\ngone.bin - No such file" :=
  ⟨by decide,
    (insert_attachments_partial_failure sampleSession sampleChosenFiles).2.1 "key.txt" [2, 3]
      (by decide),
    by decide, by decide, by decide⟩

/-! ### Saving attachments -/

/-- The loop of `saveSelectedAttachments` when no overwrite question is answered Cancel:
every file not skipped by a No answer is attempted, whatever happened to the files before
it, and every failed write leaves one error line. -/
theorem saveAttachmentsLoop_without_cancel :
    ∀ (files : List SelectedAttachment) (run : SaveRun),
      (∀ f ∈ files, (f.fileExists && f.answer == StandardButton.Cancel) = false) →
      (saveAttachmentsLoop files run).cancelled = run.cancelled ∧
      (saveAttachmentsLoop files run).attempted =
        run.attempted ++
          (files.filter
            (fun f => !(f.fileExists && f.answer == StandardButton.No))).map
            SelectedAttachment.filename ∧
      (saveAttachmentsLoop files run).errors =
        run.errors ++
          (files.filter
            (fun f => !(f.fileExists && f.answer == StandardButton.No) && !f.saveOk)).map
            (fun f => f.filename ++ " - " ++ f.errorString)
  | [], run, _ => by simp [saveAttachmentsLoop]
  | f :: fs, run, h => by
    have hf := h f (List.mem_cons_self f fs)
    have hfs : ∀ g ∈ fs, (g.fileExists && g.answer == StandardButton.Cancel) = false :=
      fun g hg => h g (List.mem_cons_of_mem f hg)
    by_cases hno : (f.fileExists && f.answer == StandardButton.No) = true
    · obtain ⟨i1, i2, i3⟩ := saveAttachmentsLoop_without_cancel fs run hfs
      have e : saveAttachmentsLoop (f :: fs) run = saveAttachmentsLoop fs run := by
        simp only [saveAttachmentsLoop, hno, if_true]
      have n1 : ¬ (!(f.fileExists && f.answer == StandardButton.No)) = true := by
        rw [hno]; decide
      have n2 : ¬ (!(f.fileExists && f.answer == StandardButton.No) && !f.saveOk) = true := by
        rw [hno]; simp
      have c1 : List.filter (fun f : SelectedAttachment => !(f.fileExists && f.answer == StandardButton.No)) (f :: fs)
          = List.filter (fun f : SelectedAttachment => !(f.fileExists && f.answer == StandardButton.No)) fs :=
        List.filter_cons_of_neg n1
      have c2 : List.filter (fun f : SelectedAttachment =>
            !(f.fileExists && f.answer == StandardButton.No) && !f.saveOk) (f :: fs)
          = List.filter (fun f : SelectedAttachment =>
            !(f.fileExists && f.answer == StandardButton.No) && !f.saveOk) fs :=
        List.filter_cons_of_neg n2
      rw [e, c1, c2]
      exact ⟨i1, i2, i3⟩
    · have hno2 : (f.fileExists && f.answer == StandardButton.No) = false := by
        simpa using hno
      have p1 : (!(f.fileExists && f.answer == StandardButton.No)) = true := by
        rw [hno2]; rfl
      cases hok : f.saveOk with
      | true =>
        obtain ⟨i1, i2, i3⟩ := saveAttachmentsLoop_without_cancel fs
          { run with attempted := run.attempted ++ [f.filename] } hfs
        have e : saveAttachmentsLoop (f :: fs) run
            = saveAttachmentsLoop fs { run with attempted := run.attempted ++ [f.filename] } := by
          simp only [saveAttachmentsLoop, hno2, hf, hok, Bool.false_eq_true, if_false,
            Bool.not_true]
        have n2 : ¬ (!(f.fileExists && f.answer == StandardButton.No) && !f.saveOk) = true := by
          rw [hok]; simp
        have c1 : List.filter (fun f : SelectedAttachment => !(f.fileExists && f.answer == StandardButton.No)) (f :: fs)
            = f :: List.filter (fun f : SelectedAttachment => !(f.fileExists && f.answer == StandardButton.No)) fs :=
          List.filter_cons_of_pos p1
        have c2 : List.filter (fun f : SelectedAttachment =>
            !(f.fileExists && f.answer == StandardButton.No) && !f.saveOk) (f :: fs)
            = List.filter (fun f : SelectedAttachment =>
            !(f.fileExists && f.answer == StandardButton.No) && !f.saveOk) fs :=
          List.filter_cons_of_neg n2
        rw [e, c1, c2, i1, i2, i3]
        simp only [List.map_cons, List.append_assoc, List.singleton_append, and_self]
      | false =>
        obtain ⟨i1, i2, i3⟩ := saveAttachmentsLoop_without_cancel fs
          { attempted := run.attempted ++ [f.filename]
            errors := run.errors ++ [f.filename ++ " - " ++ f.errorString]
            cancelled := run.cancelled } hfs
        have e : saveAttachmentsLoop (f :: fs) run
            = saveAttachmentsLoop fs
                { attempted := run.attempted ++ [f.filename]
                  errors := run.errors ++ [f.filename ++ " - " ++ f.errorString]
                  cancelled := run.cancelled } := by
          simp only [saveAttachmentsLoop, hno2, hf, hok, Bool.false_eq_true, if_false,
            Bool.not_false, if_true]
        have p2 : (!(f.fileExists && f.answer == StandardButton.No) && !f.saveOk) = true := by
          rw [hno2, hok]; rfl
        have c1 : List.filter (fun f : SelectedAttachment => !(f.fileExists && f.answer == StandardButton.No)) (f :: fs)
            = f :: List.filter (fun f : SelectedAttachment => !(f.fileExists && f.answer == StandardButton.No)) fs :=
          List.filter_cons_of_pos p1
        have c2 : List.filter (fun f : SelectedAttachment =>
            !(f.fileExists && f.answer == StandardButton.No) && !f.saveOk) (f :: fs)
            = f :: List.filter (fun f : SelectedAttachment =>
            !(f.fileExists && f.answer == StandardButton.No) && !f.saveOk) fs :=
          List.filter_cons_of_pos p2
        rw [e, c1, c2, i1, i2, i3]
        simp only [List.map_cons, List.append_assoc, List.singleton_append, and_self]

/-- C20, the code at the failing input. Three attachments are selected and an existing
directory is chosen; the write of `a.txt` fails, and the overwrite question for `b.txt`
is answered Cancel. The loop has collected the error line of `a.txt` when it is left, but
`saveSelectedAttachments` returns without showing it: the message of the session is what
it was before the call, none. -/
theorem save_attachments_cancel_drops_errors :
    sampleSelectedAttachments.length = 3 ∧
    (saveSelectedAttachments sampleSession sampleSaveDialog sampleSelectedAttachments).2.attempted
      = ["a.txt"] ∧
    (saveSelectedAttachments sampleSession sampleSaveDialog sampleSelectedAttachments).2.errors
      = ["a.txt - Disk full"] ∧
    (saveSelectedAttachments sampleSession sampleSaveDialog sampleSelectedAttachments).2.cancelled
      = true ∧
    sampleSession.message = none ∧
    (saveSelectedAttachments sampleSession sampleSaveDialog sampleSelectedAttachments).1.message
      = none := by
  decide

/-! ### The token grammar of the syntax check -/

theorem syntaxStep_letter (c : Char) (h : isLetterAZ c = true) :
    autoTypeSyntaxStep SyntaxState.letters c = some SyntaxState.letters := by
  simp [autoTypeSyntaxStep, h]

theorem isLetterAZ_of_isSpace (c : Char) (h : QChar.isSpace c = true) : isLetterAZ c = false := by
  simp only [QChar.isSpace, isLetterAZ, Bool.or_eq_true, Bool.and_eq_true, decide_eq_true_eq,
    beq_iff_eq, Bool.or_eq_false_iff, Bool.and_eq_false_iff, decide_eq_false_iff_not] at h ⊢
  omega

theorem syntaxStep_space (c : Char) (h : QChar.isSpace c = true) :
    autoTypeSyntaxStep SyntaxState.letters c = some SyntaxState.digits := by
  simp [autoTypeSyntaxStep, h, isLetterAZ_of_isSpace c h]

theorem syntaxStep_digit (c : Char) (h : isDigit09 c = true) :
    autoTypeSyntaxStep SyntaxState.digits c = some SyntaxState.digits := by
  simp [autoTypeSyntaxStep, h]

theorem syntaxRun_letters_append :
    ∀ (ls : List Char), (∀ c ∈ ls, isLetterAZ c = true) → ∀ r : List Char,
      autoTypeSyntaxRun SyntaxState.letters (ls ++ r) = autoTypeSyntaxRun SyntaxState.letters r
  | [], _, _ => rfl
  | c :: cs, h, r => by
    have hc := h c (List.mem_cons_self _ _)
    show autoTypeSyntaxRun SyntaxState.letters (c :: (cs ++ r)) = _
    rw [autoTypeSyntaxRun, syntaxStep_letter c hc]
    exact syntaxRun_letters_append cs (fun d hd => h d (List.mem_cons_of_mem _ hd)) r

theorem syntaxRun_digits_append :
    ∀ (ds : List Char), (∀ c ∈ ds, isDigit09 c = true) → ∀ r : List Char,
      autoTypeSyntaxRun SyntaxState.digits (ds ++ r) = autoTypeSyntaxRun SyntaxState.digits r
  | [], _, _ => rfl
  | c :: cs, h, r => by
    have hc := h c (List.mem_cons_self _ _)
    show autoTypeSyntaxRun SyntaxState.digits (c :: (cs ++ r)) = _
    rw [autoTypeSyntaxRun, syntaxStep_digit c hc]
    exact syntaxRun_digits_append cs (fun d hd => h d (List.mem_cons_of_mem _ hd)) r

theorem syntaxRun_open (r : List Char) :
    autoTypeSyntaxRun SyntaxState.outside (Char.ofNat 123 :: r)
      = autoTypeSyntaxRun SyntaxState.letters r := by
  rw [autoTypeSyntaxRun]; rfl

theorem syntaxRun_close_letters (r : List Char) :
    autoTypeSyntaxRun SyntaxState.letters (Char.ofNat 125 :: r)
      = autoTypeSyntaxRun SyntaxState.outside r := by
  rw [autoTypeSyntaxRun]; rfl

theorem syntaxRun_close_digits (r : List Char) :
    autoTypeSyntaxRun SyntaxState.digits (Char.ofNat 125 :: r)
      = autoTypeSyntaxRun SyntaxState.outside r := by
  rw [autoTypeSyntaxRun]; rfl

theorem syntaxRun_token (t : List Char) (h : IsToken 0 t) (r : List Char) :
    autoTypeSyntaxRun SyntaxState.outside (t ++ r) = autoTypeSyntaxRun SyntaxState.outside r := by
  obtain ⟨letters, -, hl, h | ⟨w, digits, hw, -, hd, h⟩⟩ := h
  · subst h
    simp only [List.cons_append, List.append_assoc, List.nil_append]
    rw [syntaxRun_open, syntaxRun_letters_append letters hl, syntaxRun_close_letters]
  · subst h
    simp only [List.cons_append, List.append_assoc, List.nil_append]
    rw [syntaxRun_open, syntaxRun_letters_append letters hl, autoTypeSyntaxRun,
      syntaxStep_space w hw]
    show autoTypeSyntaxRun SyntaxState.digits (digits ++ Char.ofNat 125 :: r) = _
    rw [syntaxRun_digits_append digits hd, syntaxRun_close_digits]

theorem syntaxRun_of_tokens :
    ∀ (tokens : List (List Char)), (∀ t ∈ tokens, IsToken 0 t) →
      autoTypeSyntaxRun SyntaxState.outside tokens.flatten = true
  | [], _ => rfl
  | t :: ts, h => by
    rw [List.flatten_cons, syntaxRun_token t (h t (List.mem_cons_self _ _))]
    exact syntaxRun_of_tokens ts (fun u hu => h u (List.mem_cons_of_mem _ hu))

theorem char_eq_of_toNat (c : Char) (n : Nat) (h : c.toNat = n) : c = Char.ofNat n := by
  rw [← h, Char.ofNat_toNat]

theorem IsTokenSequence.cons (n : Nat) (t l : List Char) (ht : IsToken n t)
    (hl : IsTokenSequence n l) : IsTokenSequence n (t ++ l) := by
  obtain ⟨ts, hts, rfl⟩ := hl
  refine ⟨t :: ts, ?_, by simp⟩
  intro u hu
  rcases List.mem_cons.1 hu with rfl | hu
  · exact ht
  · exact hts u hu
theorem tokens_of_syntaxRun :
    ∀ (l : List Char),
      (autoTypeSyntaxRun SyntaxState.outside l = true → IsTokenSequence 0 l) ∧
      (autoTypeSyntaxRun SyntaxState.letters l = true →
        ∃ b r, l = b ++ r ∧ IsToken 0 (Char.ofNat 123 :: b) ∧ IsTokenSequence 0 r) ∧
      (autoTypeSyntaxRun SyntaxState.digits l = true →
        ∃ ds r, (∀ c ∈ ds, isDigit09 c = true) ∧ l = ds ++ Char.ofNat 125 :: r ∧
          IsTokenSequence 0 r)
  | [] => by
    refine ⟨fun _ => ⟨[], by simp, rfl⟩, ?_, ?_⟩ <;> intro h <;> simp [autoTypeSyntaxRun] at h
  | c :: cs => by
    obtain ⟨ihO, ihL, ihD⟩ := tokens_of_syntaxRun cs
    refine ⟨?_, ?_, ?_⟩
    · intro h
      rw [autoTypeSyntaxRun] at h
      by_cases hc : c.toNat = 123
      · have hstep : autoTypeSyntaxStep SyntaxState.outside c = some SyntaxState.letters := by
          simp [autoTypeSyntaxStep, hc]
        rw [hstep] at h
        obtain ⟨b, r, hcs, hb, hr⟩ := ihL h
        have := IsTokenSequence.cons 0 _ r hb hr
        rw [char_eq_of_toNat c 123 hc, hcs]
        simpa using this
      · have hstep : autoTypeSyntaxStep SyntaxState.outside c = none := by
          simp [autoTypeSyntaxStep, hc]
        rw [hstep] at h
        exact absurd h (by simp)
    · intro h
      rw [autoTypeSyntaxRun] at h
      by_cases hl : isLetterAZ c = true
      · rw [syntaxStep_letter c hl] at h
        obtain ⟨b, r, hcs, ⟨letters, -, hls, hb⟩, hr⟩ := ihL h
        refine ⟨c :: b, r, by simp [hcs], ⟨c :: letters, Nat.zero_le _, ?_, ?_⟩, hr⟩
        · intro d hd
          rcases List.mem_cons.1 hd with rfl | hd
          · exact hl
          · exact hls d hd
        · rcases hb with hb | ⟨w, digits, hw, -, hd, hb⟩
          · left
            simp only [List.cons.injEq, true_and] at hb
            simp [hb]
          · right
            simp only [List.cons.injEq, true_and] at hb
            exact ⟨w, digits, hw, Nat.zero_le _, hd, by simp [hb]⟩
      · by_cases hs : QChar.isSpace c = true
        · rw [syntaxStep_space c hs] at h
          obtain ⟨ds, r, hds, hcs, hr⟩ := ihD h
          refine ⟨c :: (ds ++ [Char.ofNat 125]), r, by simp [hcs],
            ⟨[], Nat.zero_le _, by simp, Or.inr ⟨c, ds, hs, Nat.zero_le _, hds, by simp⟩⟩, hr⟩
        · by_cases hc : c.toNat = 125
          · have hstep : autoTypeSyntaxStep SyntaxState.letters c = some SyntaxState.outside := by
              simp [autoTypeSyntaxStep, hl, hs, hc]
            rw [hstep] at h
            refine ⟨[c], cs, by simp,
              ⟨[], Nat.zero_le _, by simp, Or.inl (by simp [char_eq_of_toNat c 125 hc])⟩, ihO h⟩
          · have hstep : autoTypeSyntaxStep SyntaxState.letters c = none := by
              simp [autoTypeSyntaxStep, hl, hs, hc]
            rw [hstep] at h
            exact absurd h (by simp)
    · intro h
      rw [autoTypeSyntaxRun] at h
      by_cases hd : isDigit09 c = true
      · rw [syntaxStep_digit c hd] at h
        obtain ⟨ds, r, hds, hcs, hr⟩ := ihD h
        refine ⟨c :: ds, r, ?_, by simp [hcs], hr⟩
        intro d hd2
        rcases List.mem_cons.1 hd2 with rfl | hd2
        · exact hd
        · exact hds d hd2
      · by_cases hc : c.toNat = 125
        · have hstep : autoTypeSyntaxStep SyntaxState.digits c = some SyntaxState.outside := by
            simp [autoTypeSyntaxStep, hd, hc]
          rw [hstep] at h
          exact ⟨[], cs, by simp, by simp [char_eq_of_toNat c 125 hc], ihO h⟩
        · have hstep : autoTypeSyntaxStep SyntaxState.digits c = none := by
            simp [autoTypeSyntaxStep, hd, hc]
          rw [hstep] at h
          exact absurd h (by simp)

/-- The syntax check accepts a text exactly when it is a sequence of tokens whose runs of
letters and of digits may be empty. -/
theorem autoTypeSyntax_exactMatch_iff (text : String) :
    autoTypeSyntax_exactMatch text = true ↔ IsTokenSequence 0 text.toList := by
  constructor
  · exact (tokens_of_syntaxRun text.toList).1
  · rintro ⟨ts, hts, h⟩
    unfold autoTypeSyntax_exactMatch
    rw [h]
    exact syntaxRun_of_tokens ts hts
theorem IsToken.length_le (n : Nat) (t : List Char) (h : IsToken n t) : n + 2 ≤ t.length := by
  obtain ⟨letters, hn, -, h | ⟨w, digits, -, -, -, h⟩⟩ := h <;> subst h <;> simp <;> omega

theorem not_spec_tokens_empty_braces : ¬ IsTokenSequence 1 "\x7b\x7d".toList := by
  rintro ⟨tokens, htok, h⟩
  cases tokens with
  | nil => simp at h
  | cons t ts =>
    have hlen := IsToken.length_le 1 t (htok t (List.mem_cons_self _ _))
    have := congrArg List.length h
    simp at this
    omega

theorem dropWhile_run (p : Char → Bool) :
    ∀ (run : List Char) (x : Char) (rest : List Char), (∀ c ∈ run, p c = true) → p x = false →
      (run ++ x :: rest).dropWhile p = x :: rest
  | [], x, rest, _, hx => by simp [List.dropWhile, hx]
  | c :: cs, x, rest, h, hx => by
    have hc := h c (List.mem_cons_self _ _)
    simp only [List.cons_append, List.dropWhile, hc]
    exact dropWhile_run p cs x rest (fun d hd => h d (List.mem_cons_of_mem _ hd)) hx

theorem not_spec_tokens_empty_digits : ¬ IsTokenSequence 1 "\x7bTAB \x7d".toList := by
  rintro ⟨tokens, htok, h⟩
  cases tokens with
  | nil => simp at h
  | cons t ts =>
    obtain ⟨letters, hn, hl, ht | ⟨w, digits, hw, hdn, hd, ht⟩⟩ := htok t (List.mem_cons_self _ _)
    · subst ht
      simp only [String.toList, List.flatten_cons, List.cons_append, List.append_assoc,
        List.nil_append, List.cons.injEq] at h
      have h2 := congrArg (List.dropWhile isLetterAZ) h.2
      rw [dropWhile_run isLetterAZ letters _ _ hl (by decide)] at h2
      have h3 : [' ', Char.ofNat 125] = Char.ofNat 125 :: ts.flatten := h2
      simp only [List.cons.injEq] at h3
      exact absurd h3.1 (by decide)
    · subst ht
      simp only [String.toList, List.flatten_cons, List.cons_append, List.append_assoc,
        List.nil_append, List.cons.injEq] at h
      have h2 := congrArg (List.dropWhile isLetterAZ) h.2
      rw [dropWhile_run isLetterAZ letters _ _ hl (isLetterAZ_of_isSpace w hw)] at h2
      cases digits with
      | nil => simp at hdn
      | cons d ds =>
        have hd1 := hd d (List.mem_cons_self _ _)
        have h3 : [' ', Char.ofNat 125] = w :: d :: (ds ++ Char.ofNat 125 :: ts.flatten) := h2
        simp only [List.cons.injEq] at h3
        rw [← h3.2.1] at hd1
        revert hd1
        decide

/-- C21, as stated, fails: the specification asks for non-empty runs of letters and of
digits, but the pattern of the source repeats both classes zero or more times. The text
of an opening and a closing brace with nothing between them, and the text of a token whose
white space is followed by no digit, are accepted by the syntax check and are no sequences
of tokens with non-empty runs. -/
theorem token_grammar_accepts_empty_runs :
    autoTypeSyntax_exactMatch "\x7b\x7d" = true ∧
    ¬ IsTokenSequence 1 "\x7b\x7d".toList ∧
    autoTypeSyntax_exactMatch "\x7bTAB \x7d" = true ∧
    ¬ IsTokenSequence 1 "\x7bTAB \x7d".toList :=
  ⟨by decide, not_spec_tokens_empty_braces, by decide, not_spec_tokens_empty_digits⟩

/-- C21, amended. Token grammar of the auto-type syntax check: for every text, the syntax
check of `updateEntryData` accepts the text if and only if the whole text is a
concatenation of zero or more tokens, each token being an opening brace, a possibly empty
run of letters (ASCII, upper or lower case), optionally one white-space character followed
by a possibly empty run of digits, and a closing brace. In particular the empty text and
the text of the four tokens USERNAME, TAB, PASSWORD, ENTER are accepted, and texts with
characters outside braces are rejected. -/
theorem token_grammar (text : String) :
    (autoTypeSyntax_exactMatch text = true ↔ IsTokenSequence 0 text.toList) ∧
    autoTypeSyntax_exactMatch "" = true ∧
    autoTypeSyntax_exactMatch
      "\x7bUSERNAME\x7d\x7bTAB\x7d\x7bPASSWORD\x7d\x7bENTER\x7d" = true ∧
    autoTypeSyntax_exactMatch "hello" = false ∧
    autoTypeSyntax_exactMatch "\x7bTAB\x7dx\x7bENTER\x7d" = false ∧
    autoTypeSyntax_exactMatch "\x7bTAB\x7d " = false :=
  ⟨autoTypeSyntax_exactMatch_iff text, by decide, by decide, by decide, by decide, by decide⟩

/-! ### The repetition check -/

theorem HasThreeDigits.nil : ¬ HasThreeDigits [] := by
  rintro ⟨before, a, b, c, after, h, -⟩
  cases before <;> simp at h

theorem HasThreeDigits.cons_iff (x : Char) (l : List Char) :
    HasThreeDigits (x :: l) ↔
      (isDigit09 x = true ∧ ∃ b c after, l = b :: c :: after ∧ isDigit09 b = true ∧
        isDigit09 c = true) ∨ HasThreeDigits l := by
  constructor
  · rintro ⟨before, a, b, c, after, h, ha, hb, hc⟩
    cases before with
    | nil =>
      simp only [List.nil_append, List.cons.injEq] at h
      exact Or.inl ⟨h.1 ▸ ha, b, c, after, h.2, hb, hc⟩
    | cons y ys =>
      simp only [List.cons_append, List.cons.injEq] at h
      exact Or.inr ⟨ys, a, b, c, after, h.2, ha, hb, hc⟩
  · rintro (⟨hx, b, c, after, h, hb, hc⟩ | ⟨before, a, b, c, after, h, ha, hb, hc⟩)
    · exact ⟨[], x, b, c, after, by simp [h], hx, hb, hc⟩
    · exact ⟨x :: before, a, b, c, after, by simp [h], ha, hb, hc⟩

/-- What the scan for three digits in a row answers, for each number of digits just read. -/
theorem digitRun_iff :
    ∀ (l : List Char),
      (digitRun 0 l = true ↔ HasThreeDigits l) ∧
      (digitRun 1 l = true ↔
        (∃ b c after, l = b :: c :: after ∧ isDigit09 b = true ∧ isDigit09 c = true) ∨
          HasThreeDigits l) ∧
      (digitRun 2 l = true ↔ (∃ c after, l = c :: after ∧ isDigit09 c = true) ∨ HasThreeDigits l)
  | [] => by
    have := HasThreeDigits.nil
    simp [digitRun, this]
  | x :: l => by
    obtain ⟨ih0, ih1, ih2⟩ := digitRun_iff l
    by_cases hx : isDigit09 x = true
    · refine ⟨?_, ?_, ?_⟩
      · rw [HasThreeDigits.cons_iff, digitRun]
        simp only [hx, if_true, true_and]
        simpa using ih1
      · rw [HasThreeDigits.cons_iff, digitRun]
        simp only [hx, if_true, true_and]
        rw [show (if 3 ≤ 1 + 1 then true else digitRun (1 + 1) l) = digitRun 2 l from rfl, ih2]
        constructor
        · rintro (⟨c, after, h, hc⟩ | h)
          · exact Or.inl ⟨x, c, after, by simp [h], hx, hc⟩
          · exact Or.inr (Or.inr h)
        · rintro (⟨b, c, after, h, -, hc⟩ | ⟨b, c, after, h, hb, hc⟩ | h)
          · simp only [List.cons.injEq] at h
            exact Or.inl ⟨c, after, h.2, hc⟩
          · exact Or.inl ⟨b, c :: after, h, hb⟩
          · exact Or.inr h
      · rw [digitRun]
        simp only [hx, if_true]
        simp only [show (3 ≤ 2 + 1) = True from by simp, if_true, true_iff]
        exact Or.inl ⟨x, l, rfl, hx⟩
    · have hx2 : isDigit09 x = false := by simpa using hx
      have key : digitRun 0 l = true ↔ HasThreeDigits (x :: l) := by
        rw [HasThreeDigits.cons_iff, ih0]
        simp [hx2]
      refine ⟨?_, ?_, ?_⟩
      · rw [digitRun]; simp only [hx2]; simpa using key
      · rw [digitRun]; simp only [hx2]
        constructor
        · intro h; exact Or.inr (key.1 (by simpa using h))
        · rintro (⟨b, c, after, h, hb, -⟩ | h)
          · simp only [List.cons.injEq] at h
            rw [← h.1, hx2] at hb; exact absurd hb (by simp)
          · simpa using key.2 h
      · rw [digitRun]; simp only [hx2]
        constructor
        · intro h; exact Or.inr (key.1 (by simpa using h))
        · rintro (⟨c, after, h, hc⟩ | h)
          · simp only [List.cons.injEq] at h
            rw [← h.1, hx2] at hc; exact absurd hc (by simp)
          · simpa using key.2 h

/-- The pattern `highRepetition` matches a text exactly when the text holds three digits in
a row. -/
theorem highRepetition_exactMatch_iff (text : String) :
    highRepetition_exactMatch text = true ↔ HasThreeDigits text.toList :=
  (digitRun_iff text.toList).1

/-- C22. Excessive-repetition rule, evaluated: `updateEntryData` enters the block left for
too much repetition exactly when the text holds NO run of three digits, for the condition
of the block is the negation of the match of `highRepetition`. The text of the token
TAB 2, without such a run, enters the block; the text of the token TAB 2000, with four
digits in a row, does not. The comments of the source say the opposite: three digits are
too much, and the block is the handling of too much repetition. -/
theorem repetition_branch_inverted :
    (∀ text : String, tooMuchRepetitionBranch text = true ↔ ¬ HasThreeDigits text.toList) ∧
    tooMuchRepetitionBranch "\x7bTAB 2\x7d" = true ∧
    ¬ HasThreeDigits "\x7bTAB 2\x7d".toList ∧
    tooMuchRepetitionBranch "\x7bTAB 2000\x7d" = false ∧
    HasThreeDigits "\x7bTAB 2000\x7d".toList := by
  have h : ∀ text : String,
      tooMuchRepetitionBranch text = true ↔ ¬ HasThreeDigits text.toList := by
    intro text
    rw [← highRepetition_exactMatch_iff]
    simp [tooMuchRepetitionBranch]
  refine ⟨h, by decide, (h _).1 (by decide), by decide, ?_⟩
  exact (highRepetition_exactMatch_iff _).1 (by decide)

/-! ### Reading an SSH key -/

/-- C23. Oversized key file is rejected before read: when the external file is selected and
its path is not empty, a file of more than 1048576 bytes makes `getOpenSSHKey` return
false with the message that the file is too large to be a private key, and the file is
neither opened nor read; a file of 1048576 bytes or less is opened, and the call returns
true without a message when the file opens, its content is not empty and the key parses.
An empty path makes the call return false without a message and without opening the
file; key data of length zero, from the attachments or from the file, make it return
false without a message. -/
theorem oversized_key_file_rejected (s : EditEntryWidget) (ui : SSHAgentPage)
    (localFile : KeyFile) (parse : QByteArray → KeyParse) :
    (ui.attachmentRadioButton = false → ui.externalFileEdit ≠ "" → 1048576 < localFile.size →
      getOpenSSHKey s ui localFile parse
        = (showMessage s "File too large to be a private key", ⟨false, false, false⟩)) ∧
    (ui.attachmentRadioButton = false → ui.externalFileEdit ≠ "" → localFile.size ≤ 1048576 →
      (getOpenSSHKey s ui localFile parse).2.opened = true ∧
      (localFile.openOk = true → localFile.content ≠ [] → (parse localFile.content).ok = true →
        getOpenSSHKey s ui localFile parse = (s, ⟨true, true, true⟩))) ∧
    (ui.attachmentRadioButton = false → ui.externalFileEdit = "" →
      getOpenSSHKey s ui localFile parse = (s, ⟨false, false, false⟩)) ∧
    (ui.attachmentRadioButton = true →
      s.m_entryAttachments.value ui.attachmentComboBox = [] →
      getOpenSSHKey s ui localFile parse = (s, ⟨false, false, false⟩)) ∧
    (ui.attachmentRadioButton = false → ui.externalFileEdit ≠ "" → localFile.size ≤ 1048576 →
      localFile.openOk = true → localFile.content = [] →
      getOpenSSHKey s ui localFile parse = (s, ⟨false, true, true⟩)) := by
  refine ⟨?_, ?_, ?_, ?_, ?_⟩
  · intro hr hp hs
    have hs2 : localFile.size > 1024 * 1024 := hs
    simp [getOpenSSHKey, hr, QString.isEmpty, hp, hs2]
  · intro hr hp hs
    have hs2 : ¬ localFile.size > 1024 * 1024 := by omega
    refine ⟨?_, ?_⟩
    · by_cases ho : localFile.openOk = true
      · simp only [getOpenSSHKey, hr, QString.isEmpty, hp, hs2, ho, parseKeyData]
        simp
        split_ifs <;> rfl
      · simp [getOpenSSHKey, hr, QString.isEmpty, hp, hs2, ho]
    · intro ho hc hk
      have hl : ¬ localFile.content.length = 0 := fun h => hc (List.length_eq_zero.1 h)
      simp [getOpenSSHKey, hr, QString.isEmpty, hp, hs2, ho, parseKeyData, hl, hk]
  · intro hr hp
    simp [getOpenSSHKey, hr, QString.isEmpty, hp]
  · intro hr hv
    simp [getOpenSSHKey, hr, parseKeyData, hv]
  · intro hr hp hs ho hc
    have hs2 : ¬ localFile.size > 1024 * 1024 := by omega
    simp [getOpenSSHKey, hr, QString.isEmpty, hp, hs2, ho, parseKeyData, hc]

/-- C23, at the sample session: an external file of 1048577 bytes is rejected unopened, one
of 1048576 bytes is read and parsed, an empty path, a missing attachment and an empty
file give false without a message. -/
theorem oversized_key_file_rejected_witness :
    (getOpenSSHKey sampleSession sampleKeyPage ⟨1048577, true, [45, 45]⟩ sampleKeyParse
        = (showMessage sampleSession "File too large to be a private key",
            ⟨false, false, false⟩)) ∧
    (getOpenSSHKey sampleSession sampleKeyPage ⟨1048576, true, [45, 45]⟩ sampleKeyParse
        = (sampleSession, ⟨true, true, true⟩)) ∧
    (getOpenSSHKey sampleSession ⟨false, "", ""⟩ ⟨0, false, []⟩ sampleKeyParse
        = (sampleSession, ⟨false, false, false⟩)) ∧
    (getOpenSSHKey sampleSession ⟨true, "missing", ""⟩ ⟨0, false, []⟩ sampleKeyParse
        = (sampleSession, ⟨false, false, false⟩)) ∧
    (getOpenSSHKey sampleSession sampleKeyPage ⟨0, true, []⟩ sampleKeyParse
        = (sampleSession, ⟨false, true, true⟩)) :=
  ⟨(oversized_key_file_rejected sampleSession sampleKeyPage ⟨1048577, true, [45, 45]⟩
      sampleKeyParse).1 (by decide) (by decide) (by decide),
   ((oversized_key_file_rejected sampleSession sampleKeyPage ⟨1048576, true, [45, 45]⟩
      sampleKeyParse).2.1 (by decide) (by decide) (by decide)).2 (by decide) (by decide)
      (by decide),
   (oversized_key_file_rejected sampleSession ⟨false, "", ""⟩ ⟨0, false, []⟩
      sampleKeyParse).2.2.1 (by decide) (by decide),
   (oversized_key_file_rejected sampleSession ⟨true, "missing", ""⟩ ⟨0, false, []⟩
      sampleKeyParse).2.2.2.1 (by decide) (by decide),
   (oversized_key_file_rejected sampleSession sampleKeyPage ⟨0, true, []⟩
      sampleKeyParse).2.2.2.2 (by decide) (by decide) (by decide) (by decide) (by decide)⟩

/-! ### Inserting an attribute -/

theorem digitChar_value (k : Nat) (h : k < 10) : (Nat.digitChar k).toNat - 48 = k := by
  interval_cases k <;> rfl

/-- Reading back the decimal digits that `Nat.toDigitsCore` writes gives the number. -/
theorem toDigitsCore_value :
    ∀ (fuel n : Nat) (ds : List Char), n < fuel →
      (Nat.toDigitsCore 10 fuel n ds).foldl (fun a c => a * 10 + (c.toNat - 48)) 0
        = ds.foldl (fun a c => a * 10 + (c.toNat - 48)) n
  | 0, n, ds, h => absurd h (Nat.not_lt_zero _)
  | fuel + 1, n, ds, h => by
    rw [Nat.toDigitsCore]
    by_cases hq : n / 10 = 0
    · simp only [hq, if_true, List.foldl_cons, Nat.zero_mul, Nat.zero_add]
      rw [digitChar_value _ (Nat.mod_lt _ (by decide))]
      congr 1
      omega
    · simp only [hq, if_false]
      rw [toDigitsCore_value fuel (n / 10) _ (by omega)]
      simp only [List.foldl_cons]
      rw [digitChar_value _ (Nat.mod_lt _ (by decide))]
      congr 1
      omega

theorem repr_injective (i j : Nat) (h : Nat.repr i = Nat.repr j) : i = j := by
  have hi := toDigitsCore_value (i + 1) i [] (Nat.lt_succ_self _)
  have hj := toDigitsCore_value (j + 1) j [] (Nat.lt_succ_self _)
  simp only [List.foldl_nil] at hi hj
  have hd : Nat.toDigits 10 i = Nat.toDigits 10 j := by
    have := congrArg String.data h
    simpa [Nat.repr, List.asString] using this
  rw [← hi, ← hj]
  show (Nat.toDigits 10 i).foldl _ 0 = (Nat.toDigits 10 j).foldl _ 0
  rw [hd]

/-- Two counters give two names. -/
theorem newAttributeName_injective (i j : Nat) (h : newAttributeName i = newAttributeName j) :
    i = j := by
  apply repr_injective
  have h2 := congrArg String.data h
  simp only [newAttributeName, String.data_append, List.append_cancel_left_eq] at h2
  exact String.ext h2

/-- The loop of `insertAttribute` ends within `fuel` tests when the candidate is free or a
free numbered name lies within reach of the counter. -/
theorem insertAttributeLoop_isSome (keys : List String) :
    ∀ (fuel : Nat) (name : String) (i : Nat),
      ((name ∉ keys ∧ 1 ≤ fuel) ∨ ∃ k, i ≤ k ∧ k + 1 < i + fuel ∧ newAttributeName k ∉ keys) →
      ∃ n, insertAttributeLoop keys fuel name i = some n
  | 0, name, i, h => by
    rcases h with ⟨-, h⟩ | ⟨k, h1, h2, -⟩ <;> omega
  | fuel + 1, name, i, h => by
    rw [insertAttributeLoop]
    by_cases hn : name ∈ keys
    · have hc : keys.contains name = true := by simpa using hn
      simp only [hc, if_true]
      apply insertAttributeLoop_isSome keys fuel
      rcases h with ⟨h, -⟩ | ⟨k, h1, h2, h3⟩
      · exact absurd hn h
      · by_cases hk : k = i
        · left
          exact ⟨hk ▸ h3, by omega⟩
        · right
          exact ⟨k, by omega, by omega, h3⟩
    · have hc : keys.contains name = false := by simpa using hn
      simp only [hc]
      exact ⟨name, rfl⟩

/-- The name the loop of `insertAttribute` ends with is free: it is the candidate, or the
first free numbered name from the counter on. -/
theorem insertAttributeLoop_spec (keys : List String) :
    ∀ (fuel : Nat) (name : String) (i : Nat) (n : String),
      insertAttributeLoop keys fuel name i = some n →
      n ∉ keys ∧
      ((name ∉ keys ∧ n = name) ∨
        (name ∈ keys ∧ ∃ k, i ≤ k ∧ n = newAttributeName k ∧
          ∀ j, i ≤ j → j < k → newAttributeName j ∈ keys))
  | 0, name, i, n, h => by simp [insertAttributeLoop] at h
  | fuel + 1, name, i, n, h => by
    rw [insertAttributeLoop] at h
    by_cases hn : name ∈ keys
    · have hc : keys.contains name = true := by simpa using hn
      simp only [hc, if_true] at h
      obtain ⟨h1, h2⟩ := insertAttributeLoop_spec keys fuel _ _ n h
      refine ⟨h1, Or.inr ⟨hn, ?_⟩⟩
      rcases h2 with ⟨-, h2⟩ | ⟨hi, k, hk, hnk, hall⟩
      · exact ⟨i, le_refl _, h2, fun j h3 h4 => by omega⟩
      · refine ⟨k, by omega, hnk, ?_⟩
        intro j h3 h4
        by_cases hj : j = i
        · rw [hj]; exact hi
        · exact hall j (by omega) h4
    · have hc : keys.contains name = false := by simpa using hn
      simp only [hc] at h
      simp only [Bool.false_eq_true, if_false, Option.some.injEq] at h
      subst h
      exact ⟨hn, Or.inl ⟨hn, rfl⟩⟩

/-- Among the first names numbered from 1, one more than there are keys, one is free. -/
theorem exists_free_attribute_name (keys : List String) :
    ∃ k, 1 ≤ k ∧ k ≤ keys.length + 1 ∧ newAttributeName k ∉ keys := by
  by_contra hcon
  push_neg at hcon
  have hnodup : ((List.range' 1 (keys.length + 1)).map newAttributeName).Nodup :=
    (List.nodup_range' 1 (keys.length + 1)).map (fun i j h => newAttributeName_injective i j h)
  have hsub : (List.range' 1 (keys.length + 1)).map newAttributeName ⊆ keys := by
    intro x hx
    obtain ⟨k, hk, rfl⟩ := List.mem_map.1 hx
    rw [List.mem_range'_1] at hk
    exact hcon k hk.1 (by omega)
  have := (List.subperm_of_subset hnodup hsub).length_le
  simp at this

/-- Upserting an attribute that does not exist appends it and leaves the others alone. -/
theorem EntryAttributes.set_of_not_mem (a : EntryAttributes) (k v : String) (p : Bool)
    (hk : k ∉ a.keys) :
    (a.set k v p).keys = a.keys ++ [k] ∧ (a.set k v p).value k = v ∧
    (a.set k v p).isProtected k = p ∧
    ∀ k2, k2 ≠ k →
      (a.set k v p).value k2 = a.value k2 ∧ (a.set k v p).isProtected k2 = a.isProtected k2 := by
  rcases a with ⟨items⟩
  have hc : (EntryAttributes.keys ⟨items⟩).contains k = false := by simpa using hk
  have hset : EntryAttributes.set ⟨items⟩ k v p = ⟨items ++ [⟨k, v, p⟩]⟩ := by
    simp only [EntryAttributes.set, hc, Bool.false_eq_true, if_false]
  have hnone : items.find? (fun x => x.key == k) = none := by
    rw [List.find?_eq_none]
    intro x hx
    have : x.key ≠ k := fun h => hk (by simpa [EntryAttributes.keys] using ⟨x, hx, h⟩)
    simpa using this
  rw [hset]
  refine ⟨by simp [EntryAttributes.keys], ?_, ?_, ?_⟩
  · simp [EntryAttributes.value, List.find?_append, hnone]
  · simp [EntryAttributes.isProtected, List.find?_append, hnone]
  · intro k2 hne
    have hk2 : ¬ k = k2 := fun h => hne h.symm
    cases hf : items.find? (fun x => x.key == k2) <;>
      simp [EntryAttributes.value, EntryAttributes.isProtected, List.find?_append, hf, hk2]

theorem updateCurrentAttribute_attributes (s : EditEntryWidget) :
    (updateCurrentAttribute s).m_entryAttributes =
      if (!s.m_history && s.m_currentAttribute != s.attributesView) = true ∧
          (EntryAttributesModel.isValid s.m_entryAttributes s.m_currentAttribute
            && s.attributesEditEnabled) = true then
        s.m_entryAttributes.set
          (EntryAttributesModel.keyByIndex s.m_entryAttributes s.m_currentAttribute)
          s.attributesEdit
          (s.m_entryAttributes.isProtected
            (EntryAttributesModel.keyByIndex s.m_entryAttributes s.m_currentAttribute))
      else s.m_entryAttributes := by
  unfold updateCurrentAttribute
  simp only [displayAttribute_eq]
  split_ifs <;> simp_all

theorem EntryAttributesModel.indexByKey_last (keys : List String) (a : EntryAttributes)
    (name : String) (hk : a.keys = keys ++ [name]) (hn : name ∉ keys) :
    EntryAttributesModel.indexByKey a name = some keys.length := by
  unfold EntryAttributesModel.indexByKey
  rw [hk]
  have : (keys ++ [name]).indexOf name = keys.length := by
    rw [List.indexOf_append_of_not_mem hn]
    simp
  simp [this]

theorem EntryAttributesModel.keyByIndex_old (keys : List String) (a1 a : EntryAttributes)
    (name : String) (hk1 : a1.keys = keys ++ [name]) (hk : a.keys = keys) (i : Nat)
    (hi : i < keys.length) :
    EntryAttributesModel.keyByIndex a1 (some i) = EntryAttributesModel.keyByIndex a (some i) ∧
    EntryAttributesModel.isValid a (some i) = true ∧
    EntryAttributesModel.keyByIndex a (some i) ∈ keys := by
  have hv : EntryAttributesModel.isValid a (some i) = true := by
    simp [EntryAttributesModel.isValid, hk, hi]
  refine ⟨?_, hv, hk ▸ EntryAttributesModel.keyByIndex_mem a (some i) hv⟩
  simp only [EntryAttributesModel.keyByIndex, hk1, hk]
  rw [List.getD_eq_getElem _ _ hi, List.getD_eq_getElem _ _ (by simp; omega)]
  exact List.getElem_append_left hi

/-- The working-copy attributes after the selection of the new row in `insertAttribute`:
the attribute is appended, and the text of an enabled edit box is flushed into the
attribute that was current. -/
theorem insertAttribute_attributes (s : EditEntryWidget) (name : String)
    (hfree : name ∉ s.m_entryAttributes.keys) :
    let a1 := s.m_entryAttributes.set name "" false
    let s' := setCurrentAttributeIndex { s with m_entryAttributes := a1 }
      (some s.m_entryAttributes.keys.length)
    s'.m_entryAttributes = a1 ∨
      (s.m_history = false ∧ s.attributesEditEnabled = true ∧
        EntryAttributesModel.isValid s.m_entryAttributes s.m_currentAttribute = true ∧
        EntryAttributesModel.keyByIndex s.m_entryAttributes s.m_currentAttribute
          ∈ s.m_entryAttributes.keys ∧
        s'.m_entryAttributes =
          a1.set (EntryAttributesModel.keyByIndex s.m_entryAttributes s.m_currentAttribute)
            s.attributesEdit
            (a1.isProtected
              (EntryAttributesModel.keyByIndex s.m_entryAttributes s.m_currentAttribute))) := by
  intro a1 s'
  obtain ⟨hkeys, -, -, -⟩ := EntryAttributes.set_of_not_mem s.m_entryAttributes name "" false hfree
  by_cases hview : s.attributesView = some s.m_entryAttributes.keys.length
  · left
    show (setCurrentAttributeIndex _ _).m_entryAttributes = _
    simp [setCurrentAttributeIndex, hview]
  · have hs' : s'.m_entryAttributes =
        (updateCurrentAttribute
          { s with
            m_entryAttributes := a1
            attributesView := some s.m_entryAttributes.keys.length }).m_entryAttributes := by
      show (setCurrentAttributeIndex _ _).m_entryAttributes = _
      simp [setCurrentAttributeIndex, hview]
    rw [hs', updateCurrentAttribute_attributes]
    split_ifs with hc
    · right
      obtain ⟨hc1, hc2⟩ := hc
      simp only [Bool.and_eq_true, Bool.not_eq_true', bne_iff_ne, ne_eq] at hc1 hc2
      obtain ⟨hh, hne⟩ := hc1
      obtain ⟨hv, he⟩ := hc2
      cases hcur : s.m_currentAttribute with
      | none => rw [hcur] at hv; simp [EntryAttributesModel.isValid] at hv
      | some i =>
        rw [hcur] at hv hne
        have hi1 : i < (s.m_entryAttributes.keys ++ [name]).length := by
          have := hv
          simp only [EntryAttributesModel.isValid, decide_eq_true_eq] at this
          rw [← hkeys]; exact this
        have hi : i < s.m_entryAttributes.keys.length := by
          have hne2 : i ≠ s.m_entryAttributes.keys.length := fun h => hne (by rw [h])
          simp at hi1
          omega
        obtain ⟨hkey, hvalid, hmem⟩ :=
          EntryAttributesModel.keyByIndex_old s.m_entryAttributes.keys a1 s.m_entryAttributes
            name hkeys rfl i hi
        refine ⟨hh, he, hvalid, hmem, ?_⟩
        show a1.set (EntryAttributesModel.keyByIndex a1 (some i)) _ _ = _
        rw [hkey]
    · left
      rfl

/-- C24, as stated, fails for the values of the existing attributes: in the sample session
the attribute `pin` is selected and the user has typed 9999 into the edit box.
`insertAttribute` selects the new row, the change of selection runs
`updateCurrentAttribute`, and the text of the edit box is stored as the value of `pin`. -/
theorem insertAttribute_flushes_pending_edit :
    sampleSessionAttributeTyped.m_entryAttributes = ⟨[⟨"pin", "1234", false⟩]⟩ ∧
    (insertAttribute sampleSessionAttributeTyped 3).map (fun s' => s'.m_entryAttributes)
      = some ⟨[⟨"pin", "9999", false⟩, ⟨"New attribute", "", false⟩]⟩ := by
  decide

/-- C24, amended. `insertAttribute` keeps attribute names unique and terminates: for every
working copy, with room for two tests of the loop condition more than there are
attributes, `insertAttribute` returns; it adds exactly one attribute whose name was not a
key before, the name `New attribute` if that is free and otherwise `New attribute k` for
the least k from 1 on that is free, with an empty value and not protected; the keys are
the former keys followed by the new name, so their number grows by one; the protection
flag of every existing attribute is unchanged, and so is its value, except that in edit or
create mode the attribute that was current receives the text of the attribute edit box
when that box is enabled. -/
theorem insertAttribute_unique_name (s : EditEntryWidget) (fuel : Nat)
    (hfuel : s.m_entryAttributes.keys.length + 2 ≤ fuel) :
    ∃ (name : String) (s' : EditEntryWidget),
      insertAttribute s fuel = some s' ∧
      name ∉ s.m_entryAttributes.keys ∧
      (("New attribute" ∉ s.m_entryAttributes.keys ∧ name = "New attribute") ∨
        ("New attribute" ∈ s.m_entryAttributes.keys ∧
          ∃ k, 1 ≤ k ∧ name = newAttributeName k ∧
            ∀ j, 1 ≤ j → j < k → newAttributeName j ∈ s.m_entryAttributes.keys)) ∧
      s'.m_entryAttributes.keys = s.m_entryAttributes.keys ++ [name] ∧
      s'.m_entryAttributes.keys.length = s.m_entryAttributes.keys.length + 1 ∧
      s'.m_entryAttributes.value name = "" ∧
      s'.m_entryAttributes.isProtected name = false ∧
      (∀ key ∈ s.m_entryAttributes.keys,
        s'.m_entryAttributes.isProtected key = s.m_entryAttributes.isProtected key ∧
        (s'.m_entryAttributes.value key = s.m_entryAttributes.value key ∨
          (s.m_history = false ∧ s.attributesEditEnabled = true ∧
            EntryAttributesModel.isValid s.m_entryAttributes s.m_currentAttribute = true ∧
            key = EntryAttributesModel.keyByIndex s.m_entryAttributes s.m_currentAttribute ∧
            s'.m_entryAttributes.value key = s.attributesEdit))) := by
  obtain ⟨k0, hk1, hk2, hk3⟩ := exists_free_attribute_name s.m_entryAttributes.keys
  obtain ⟨name, hloop⟩ := insertAttributeLoop_isSome s.m_entryAttributes.keys fuel
    "New attribute" 1 (Or.inr ⟨k0, hk1, by omega, hk3⟩)
  obtain ⟨hfree, hshape⟩ :=
    insertAttributeLoop_spec s.m_entryAttributes.keys fuel _ 1 name hloop
  obtain ⟨hkeys, hval, hflag, hother⟩ :=
    EntryAttributes.set_of_not_mem s.m_entryAttributes name "" false hfree
  have hidx := EntryAttributesModel.indexByKey_last s.m_entryAttributes.keys
    (s.m_entryAttributes.set name "" false) name hkeys hfree
  have hrun : insertAttribute s fuel =
      some (setCurrentAttributeIndex
        { s with m_entryAttributes := s.m_entryAttributes.set name "" false }
        (some s.m_entryAttributes.keys.length)) := by
    simp only [insertAttribute, hloop, hidx]
  have hne : ∀ key ∈ s.m_entryAttributes.keys, key ≠ name := fun key hk h => hfree (h ▸ hk)
  refine ⟨name, _, hrun, hfree, hshape, ?_⟩
  rcases insertAttribute_attributes s name hfree with h | ⟨hh, he, hv, hmem, h⟩
  · rw [h]
    refine ⟨hkeys, by simp [hkeys], hval, hflag, ?_⟩
    intro key hk
    exact ⟨(hother key (hne key hk)).2, Or.inl (hother key (hne key hk)).1⟩
  · rw [h]
    have hmem1 : EntryAttributesModel.keyByIndex s.m_entryAttributes s.m_currentAttribute
        ∈ (s.m_entryAttributes.set name "" false).keys := by
      rw [hkeys]; exact List.mem_append_left _ hmem
    obtain ⟨g1, -, g3, g4⟩ := EntryAttributes.set_of_mem (s.m_entryAttributes.set name "" false)
      _ s.attributesEdit ((s.m_entryAttributes.set name "" false).isProtected
        (EntryAttributesModel.keyByIndex s.m_entryAttributes s.m_currentAttribute)) hmem1
    obtain ⟨-, f2⟩ := EntryAttributes.set_same_flag (s.m_entryAttributes.set name "" false)
      _ s.attributesEdit hmem1
    have hcn : name ≠ EntryAttributesModel.keyByIndex s.m_entryAttributes s.m_currentAttribute :=
      fun h2 => hfree (h2 ▸ hmem)
    refine ⟨g3.trans hkeys, by rw [g3, hkeys]; simp, ?_, ?_, ?_⟩
    · rw [(g4 name hcn).1]; exact hval
    · rw [f2]; exact hflag
    · intro key hk
      refine ⟨by rw [f2]; exact (hother key (hne key hk)).2, ?_⟩
      by_cases hkc : key = EntryAttributesModel.keyByIndex s.m_entryAttributes s.m_currentAttribute
      · right
        refine ⟨hh, he, hv, hkc, ?_⟩
        rw [hkc]; exact g1
      · left
        rw [(g4 key hkc).1]
        exact (hother key (hne key hk)).1

/-- C24 amended, at a session whose attributes hold the plain name and the names numbered
1 and 3: the attribute added is named with the number 2, and nothing else changes. -/
theorem insertAttribute_unique_name_witness :
    sampleSessionNamesTaken.m_entryAttributes.keys.length + 2 ≤ 5 ∧
    (∃ (name : String) (s' : EditEntryWidget),
      insertAttribute sampleSessionNamesTaken 5 = some s' ∧
      name ∉ sampleSessionNamesTaken.m_entryAttributes.keys ∧
      s'.m_entryAttributes.keys = sampleSessionNamesTaken.m_entryAttributes.keys ++ [name]) ∧
    (insertAttribute sampleSessionNamesTaken 5).map (fun s' => s'.m_entryAttributes)
      = some ⟨[⟨"New attribute 1", "a", true⟩, ⟨"New attribute", "b", false⟩,
          ⟨"New attribute 3", "c", false⟩, ⟨"New attribute 2", "", false⟩]⟩ :=
  ⟨by decide,
    (insertAttribute_unique_name sampleSessionNamesTaken 5 (by decide)).imp
      (fun _ h => h.imp (fun _ h => ⟨h.1, h.2.1, h.2.2.2.1⟩)),
    by decide⟩

/-! ### The modification test and the commit -/

/-- Without a pending edit in the attribute edit box and without an association with an
empty window pattern, the commit writes the state the modification test compares with. -/
theorem committedData_of_clean (s : EditEntryWidget)
    (hsync : EntryAttributesModel.isValid s.m_entryAttributes s.attributesView = true →
      s.attributesEditEnabled = true →
      s.attributesEdit = s.m_entryAttributes.value
        (EntryAttributesModel.keyByIndex s.m_entryAttributes s.attributesView))
    (hwin : ∀ a ∈ s.m_autoTypeAssoc.associations, a.window ≠ "") :
    committedData s = formData s s.entry.data.uuid := by
  unfold committedData formData prepared
  simp only [flushedAttributes_of_sync s hsync,
    AutoTypeAssociations.removeEmpty_of_nonempty _ hwin]

/-- C25, as stated, fails in two ways. In the sample session the user has typed 9999 into
the attribute edit box: `hasBeenModified` answers false, for it does not flush the edit
box, yet `saveEntry` stores the text as the value of `pin` and pushes the previous state
onto the history. And in the session on the Record with an association whose window
pattern is empty, `hasBeenModified` answers false, yet `saveEntry` prunes the association
and pushes the previous state. -/
theorem modification_test_misses_pending_edit :
    sampleSessionAttributeTyped.m_history = false ∧
    sampleSessionAttributeTyped.m_create = false ∧
    sampleSessionAttributeTyped.passwordEdit = sampleSessionAttributeTyped.passwordRepeatEdit ∧
    (hasBeenModified sampleSessionAttributeTyped).1 = false ∧
    sampleSessionAttributeTyped.entry.data.attributes = ⟨[⟨"pin", "1234", false⟩]⟩ ∧
    (saveEntry sampleSessionAttributeTyped).entry.data.attributes
      = ⟨[⟨"pin", "9999", false⟩]⟩ ∧
    (saveEntry sampleSessionAttributeTyped).entry.historyItems
      = sampleSessionAttributeTyped.entry.historyItems
        ++ [⟨2, sampleSessionAttributeTyped.entry.data⟩] ∧
    sampleSessionEmptyRule.m_history = false ∧
    sampleSessionEmptyRule.m_create = false ∧
    sampleSessionEmptyRule.passwordEdit = sampleSessionEmptyRule.passwordRepeatEdit ∧
    (hasBeenModified sampleSessionEmptyRule).1 = false ∧
    (saveEntry sampleSessionEmptyRule).entry.data ≠ sampleSessionEmptyRule.entry.data ∧
    (saveEntry sampleSessionEmptyRule).entry.historyItems.length
      = sampleSessionEmptyRule.entry.historyItems.length + 1 := by
  decide

/-- C25, amended. The modification test agrees with the commit: for every session in edit
mode with equal password fields, in which the attribute edit box, if an attribute is
selected and the box is enabled, shows the stored value of that attribute, and in which no
association of the working copy has an empty window pattern: if `hasBeenModified`
answers false, then `saveEntry` commits and leaves the Record unchanged, every field and
sub-collection equal and the history with exactly the entries it had. -/
theorem modification_test_agrees (s : EditEntryWidget) (hmode : s.m_history = false)
    (hcreate : s.m_create = false) (hpw : s.passwordEdit = s.passwordRepeatEdit)
    (hsync : EntryAttributesModel.isValid s.m_entryAttributes s.attributesView = true →
      s.attributesEditEnabled = true →
      s.attributesEdit = s.m_entryAttributes.value
        (EntryAttributesModel.keyByIndex s.m_entryAttributes s.attributesView))
    (hwin : ∀ a ∈ s.m_autoTypeAssoc.associations, a.window ≠ "")
    (hmod : (hasBeenModified s).1 = false) :
    (saveEntry s).m_saved = true ∧
    (saveEntry s).entry.data = s.entry.data ∧
    (saveEntry s).entry.historyItems = s.entry.historyItems ∧
    (saveEntry s).entry.inheritedAutoTypeSequence = s.entry.inheritedAutoTypeSequence := by
  rw [hasBeenModified_fst] at hmod
  simp only [Bool.or_eq_false_iff, Bool.not_eq_false', decide_eq_false_iff_not, ne_eq,
    not_not, List.isEmpty_iff] at hmod
  obtain ⟨hdel, hdata⟩ := hmod
  have hdel2 : s.m_historyModel.deletedEntries = [] := hdel
  have hcd := committedData_of_clean s hsync hwin
  have hcd2 : committedData s = s.entry.data := hcd.trans hdata.symm
  rw [saveEntry_edit s hmode hcreate hpw]
  refine ⟨rfl, hcd2, ?_, rfl⟩
  show keptHistory s ++ (if s.entry.data = committedData s then [] else [pushedItem s])
      = s.entry.historyItems
  rw [(keptHistory_of_empty s hdel2).1, if_pos hcd2.symm]
  simp

/-- C25 amended, at the sample session right after loading. -/
theorem modification_test_agrees_witness :
    sampleSession.m_history = false ∧ sampleSession.m_create = false ∧
    (hasBeenModified sampleSession).1 = false ∧
    (saveEntry sampleSession).entry.data = sampleEntry.data ∧
    (saveEntry sampleSession).entry.historyItems = sampleEntry.historyItems :=
  ⟨by decide, by decide, by decide,
    (modification_test_agrees sampleSession (by decide) (by decide) (by decide)
      (fun _ _ => by decide) (by decide) (by decide)).2.1,
    (modification_test_agrees sampleSession (by decide) (by decide) (by decide)
      (fun _ _ => by decide) (by decide) (by decide)).2.2.1⟩

/-! ### Toggling the protection of an attribute -/

/-- What `protectCurrentAttribute` stores for the selected attribute; unprotecting shows
the stored value in the edit box. -/
theorem protectCurrentAttribute_attributes (s : EditEntryWidget) (state : Bool)
    (hmode : s.m_history = false)
    (hsel : EntryAttributesModel.isValid s.m_entryAttributes s.attributesView = true) :
    (protectCurrentAttribute s state).m_entryAttributes =
      s.m_entryAttributes.set
        (EntryAttributesModel.keyByIndex s.m_entryAttributes s.attributesView)
        (if state then s.attributesEdit
          else s.m_entryAttributes.value
            (EntryAttributesModel.keyByIndex s.m_entryAttributes s.attributesView))
        state ∧
    (protectCurrentAttribute s state).attributesView = s.attributesView ∧
    (protectCurrentAttribute s state).m_history = s.m_history ∧
    (state = false →
      (protectCurrentAttribute s state).attributesEdit =
        s.m_entryAttributes.value
          (EntryAttributesModel.keyByIndex s.m_entryAttributes s.attributesView)) := by
  unfold protectCurrentAttribute
  simp only [hmode, hsel, Bool.not_false, Bool.and_self, if_true, displayAttribute_eq]
  cases state
  · have hk := EntryAttributesModel.keyByIndex_mem _ _ hsel
    obtain ⟨h1, -, h3, -⟩ := EntryAttributes.set_of_mem s.m_entryAttributes _
      (s.m_entryAttributes.value
        (EntryAttributesModel.keyByIndex s.m_entryAttributes s.attributesView)) false hk
    have hc := EntryAttributesModel.congr_keys _ _ h3 s.attributesView
    refine ⟨by simp, rfl, rfl, ?_⟩
    intro _
    simp only [Bool.false_eq_true, if_false]
    rw [hc.1, hsel, if_pos rfl, hc.2, h1]
  · exact ⟨by simp, rfl, rfl, fun h => absurd h (by simp)⟩

theorem EntryAttributes.replaceFirst_twice (k v1 v2 : String) (p1 p2 : Bool) :
    ∀ (items : List Attribute),
      EntryAttributes.replaceFirst k v2 p2 (EntryAttributes.replaceFirst k v1 p1 items)
        = EntryAttributes.replaceFirst k v2 p2 items
  | [] => rfl
  | x :: xs => by
    by_cases hx : x.key = k
    · simp [EntryAttributes.replaceFirst, hx]
    · simp [EntryAttributes.replaceFirst, hx, EntryAttributes.replaceFirst_twice k v1 v2 p1 p2 xs]

theorem EntryAttributes.set_twice (a : EntryAttributes) (k v1 v2 : String) (p1 p2 : Bool)
    (hk : k ∈ a.keys) : (a.set k v1 p1).set k v2 p2 = a.set k v2 p2 := by
  have hk1 : k ∈ (a.set k v1 p1).keys := by
    rw [(EntryAttributes.set_of_mem a k v1 p1 hk).2.2.1]; exact hk
  rcases a with ⟨items⟩
  have hc : (EntryAttributes.keys ⟨items⟩).contains k = true := by simpa using hk
  have hset : EntryAttributes.set ⟨items⟩ k v1 p1
      = ⟨EntryAttributes.replaceFirst k v1 p1 items⟩ := by
    simp only [EntryAttributes.set, hc, if_true]
  have hset2 : EntryAttributes.set ⟨items⟩ k v2 p2
      = ⟨EntryAttributes.replaceFirst k v2 p2 items⟩ := by
    simp only [EntryAttributes.set, hc, if_true]
  rw [hset] at hk1 ⊢
  have hc1 : (EntryAttributes.keys ⟨EntryAttributes.replaceFirst k v1 p1 items⟩).contains k
      = true := by simpa using hk1
  rw [hset2]
  simp only [EntryAttributes.set, hc1, if_true, EntryAttributes.replaceFirst_twice]

/-- Unprotecting and protecting again a protected attribute gives back the working copy. -/
theorem protect_roundtrip_attributes (s : EditEntryWidget) (hmode : s.m_history = false)
    (hsel : EntryAttributesModel.isValid s.m_entryAttributes s.attributesView = true)
    (hprot : s.m_entryAttributes.isProtected
      (EntryAttributesModel.keyByIndex s.m_entryAttributes s.attributesView) = true) :
    (protectCurrentAttribute (protectCurrentAttribute s false) true).m_entryAttributes
      = s.m_entryAttributes := by
  have hk := EntryAttributesModel.keyByIndex_mem _ _ hsel
  obtain ⟨a1, a2, a3, a4⟩ := protectCurrentAttribute_attributes s false hmode hsel
  simp only [Bool.false_eq_true, if_false] at a1
  have hkeys1 : (protectCurrentAttribute s false).m_entryAttributes.keys
      = s.m_entryAttributes.keys := by
    rw [a1]; exact (EntryAttributes.set_of_mem _ _ _ _ hk).2.2.1
  have hc := EntryAttributesModel.congr_keys _ _ hkeys1 s.attributesView
  have hsel1 : EntryAttributesModel.isValid (protectCurrentAttribute s false).m_entryAttributes
      (protectCurrentAttribute s false).attributesView = true := by
    rw [a2, hc.1]; exact hsel
  obtain ⟨c1, -, -, -⟩ := protectCurrentAttribute_attributes (protectCurrentAttribute s false)
    true (a3.trans hmode) hsel1
  simp only [if_true] at c1
  rw [a2, hc.2, a4 rfl] at c1
  rw [c1, a1, EntryAttributes.set_twice _ _ _ _ _ _ hk]
  have := EntryAttributes.set_value_self s.m_entryAttributes _ hk
  rw [hprot] at this
  exact this

/-- C26. Toggling protection preserves the value: for every session in edit or create mode
and every selected attribute, `protectCurrentAttribute(false)` sets the protection flag of
that attribute to false and leaves its stored value unchanged, whatever the edit box
shows; `protectCurrentAttribute(true)` sets the flag to true and stores the text of the
edit box; unprotecting and then protecting again without editing leaves the stored value
equal to the original, with the flag set; each of the three leaves the keys and the value
and flag of every other attribute unchanged, and the round trip on a protected attribute
gives back the working-copy attributes as they were. -/
theorem protection_toggle_preserves_value (s : EditEntryWidget) (hmode : s.m_history = false)
    (hsel : EntryAttributesModel.isValid s.m_entryAttributes s.attributesView = true) :
    ((protectCurrentAttribute s false).m_entryAttributes.value
        (EntryAttributesModel.keyByIndex s.m_entryAttributes s.attributesView)
      = s.m_entryAttributes.value
        (EntryAttributesModel.keyByIndex s.m_entryAttributes s.attributesView) ∧
     (protectCurrentAttribute s false).m_entryAttributes.isProtected
        (EntryAttributesModel.keyByIndex s.m_entryAttributes s.attributesView) = false ∧
     (protectCurrentAttribute s false).m_entryAttributes.keys = s.m_entryAttributes.keys ∧
     ∀ k, k ≠ EntryAttributesModel.keyByIndex s.m_entryAttributes s.attributesView →
       (protectCurrentAttribute s false).m_entryAttributes.value k
         = s.m_entryAttributes.value k ∧
       (protectCurrentAttribute s false).m_entryAttributes.isProtected k
         = s.m_entryAttributes.isProtected k) ∧
    ((protectCurrentAttribute s true).m_entryAttributes.value
        (EntryAttributesModel.keyByIndex s.m_entryAttributes s.attributesView)
      = s.attributesEdit ∧
     (protectCurrentAttribute s true).m_entryAttributes.isProtected
        (EntryAttributesModel.keyByIndex s.m_entryAttributes s.attributesView) = true ∧
     (protectCurrentAttribute s true).m_entryAttributes.keys = s.m_entryAttributes.keys ∧
     ∀ k, k ≠ EntryAttributesModel.keyByIndex s.m_entryAttributes s.attributesView →
       (protectCurrentAttribute s true).m_entryAttributes.value k
         = s.m_entryAttributes.value k ∧
       (protectCurrentAttribute s true).m_entryAttributes.isProtected k
         = s.m_entryAttributes.isProtected k) ∧
    ((protectCurrentAttribute (protectCurrentAttribute s false) true).m_entryAttributes.value
        (EntryAttributesModel.keyByIndex s.m_entryAttributes s.attributesView)
      = s.m_entryAttributes.value
        (EntryAttributesModel.keyByIndex s.m_entryAttributes s.attributesView) ∧
     (protectCurrentAttribute (protectCurrentAttribute s false) true).m_entryAttributes.isProtected
        (EntryAttributesModel.keyByIndex s.m_entryAttributes s.attributesView) = true ∧
     (protectCurrentAttribute (protectCurrentAttribute s false) true).m_entryAttributes.keys
      = s.m_entryAttributes.keys ∧
     ∀ k, k ≠ EntryAttributesModel.keyByIndex s.m_entryAttributes s.attributesView →
       (protectCurrentAttribute (protectCurrentAttribute s false) true).m_entryAttributes.value k
         = s.m_entryAttributes.value k ∧
       (protectCurrentAttribute (protectCurrentAttribute s false)
           true).m_entryAttributes.isProtected k
         = s.m_entryAttributes.isProtected k) ∧
    (s.m_entryAttributes.isProtected
        (EntryAttributesModel.keyByIndex s.m_entryAttributes s.attributesView) = true →
      (protectCurrentAttribute (protectCurrentAttribute s false) true).m_entryAttributes
        = s.m_entryAttributes) := by
  have hk := EntryAttributesModel.keyByIndex_mem _ _ hsel
  obtain ⟨a1, a2, a3, a4⟩ := protectCurrentAttribute_attributes s false hmode hsel
  obtain ⟨b1, -, -, -⟩ := protectCurrentAttribute_attributes s true hmode hsel
  have hoff := EntryAttributes.set_of_mem s.m_entryAttributes _
    (s.m_entryAttributes.value
      (EntryAttributesModel.keyByIndex s.m_entryAttributes s.attributesView)) false hk
  have hon := EntryAttributes.set_of_mem s.m_entryAttributes _ s.attributesEdit true hk
  simp only [Bool.false_eq_true, if_false] at a1
  simp only [if_true] at b1
  refine ⟨by rw [a1]; exact hoff, by rw [b1]; exact hon, ?_,
    protect_roundtrip_attributes s hmode hsel⟩
  have hkeys1 : (protectCurrentAttribute s false).m_entryAttributes.keys
      = s.m_entryAttributes.keys := by rw [a1]; exact hoff.2.2.1
  have hc := EntryAttributesModel.congr_keys _ _ hkeys1 s.attributesView
  have hsel1 : EntryAttributesModel.isValid (protectCurrentAttribute s false).m_entryAttributes
      (protectCurrentAttribute s false).attributesView = true := by
    rw [a2, hc.1]; exact hsel
  obtain ⟨c1, -, -, -⟩ := protectCurrentAttribute_attributes (protectCurrentAttribute s false)
    true (a3.trans hmode) hsel1
  simp only [if_true] at c1
  rw [a2, hc.2, a4 rfl] at c1
  have hk1 : EntryAttributesModel.keyByIndex s.m_entryAttributes s.attributesView
      ∈ (protectCurrentAttribute s false).m_entryAttributes.keys := by rw [hkeys1]; exact hk
  obtain ⟨d1, d2, d3, d4⟩ := EntryAttributes.set_of_mem
    (protectCurrentAttribute s false).m_entryAttributes _
    (s.m_entryAttributes.value
      (EntryAttributesModel.keyByIndex s.m_entryAttributes s.attributesView)) true hk1
  rw [c1]
  refine ⟨d1, d2, d3.trans hkeys1, ?_⟩
  intro k hne
  rw [(d4 k hne).1, (d4 k hne).2, a1]
  exact hoff.2.2.2 k hne

/-- C26, at the session on the Record whose attribute `pin` is protected: the attribute is
selected and hidden, the edit box shows the placeholder, and unprotecting and protecting
again leaves the attributes as they were. -/
theorem protection_toggle_preserves_value_witness :
    sampleSessionProtected.m_history = false ∧
    EntryAttributesModel.isValid sampleSessionProtected.m_entryAttributes
      sampleSessionProtected.attributesView = true ∧
    sampleSessionProtected.attributesEdit = protectedPlaceholder ∧
    (protectCurrentAttribute sampleSessionProtected false).m_entryAttributes
      = ⟨[⟨"pin", "1234", false⟩]⟩ ∧
    (protectCurrentAttribute (protectCurrentAttribute sampleSessionProtected false)
        true).m_entryAttributes
      = sampleSessionProtected.m_entryAttributes :=
  ⟨by decide, by decide, by decide, by decide,
    (protection_toggle_preserves_value sampleSessionProtected (by decide) (by decide)).2.2.2
      (by decide)⟩

/-! ### Dirty detection -/

end KeePassXC
